import Mathlib

/-!
Verification of the BLE advertisement codec engine
(`custom_components/ble_adv/codecs`: `models.py`, `zhijia.py`, plus the shared
byte-transform helpers in `codecs/utils.py`).

Byte buffers are modelled as `List Nat` (every Python `bytes` element lies in
`[0, 256)`); machine arithmetic is `Nat`/`Int` with explicit `% 256` where the
source converts to bytes.  Python `float` attribute values are modelled as `ℚ`;
`int(x)` on a float is truncation toward zero (`pyInt`).  Fallible code
(`decrypt`, `convert_to_enc`, raising comparisons) returns `Option`.
-/

namespace BleAdv

/-- Python `int(q)` for a (rational-modelled) float: truncation toward zero. -/
def pyInt (q : ℚ) : ℤ := q.num.tdiv q.den

/-- Modelled from the spec: `round(factor * x)` -- "rounding to the nearest
integer" as the round-trip claim words it (stated via the floor of `q + 1/2`;
only used to compare against what the code stores). -/
def specRound (q : ℚ) : ℤ := ⌊q + 1 / 2⌋

/-- `int.to_bytes(n, k, "little")`: little-endian byte list of length `k`.
Python raises `OverflowError` when `n ≥ 256 ^ k`; callers establish that bound. -/
def toBytesLE (n : Nat) : Nat → List Nat
  | 0 => []
  | k + 1 => (n % 256) :: toBytesLE (n / 256) k

/-- `int.from_bytes(b, "little")`. -/
def fromBytesLE : List Nat → Nat
  | [] => 0
  | b :: rest => b + 256 * fromBytesLE rest

/-- One LFSR byte of the whitening stream (`utils.whiten` inner loop):
8 rounds of `r <<= 1; if r & 0x80: r ^= 0x11; b |= 1 << j; r &= 0x7F`.
Returns the keystream byte and the updated 7-bit state. -/
def lfsrByte (r0 : Nat) : Nat × Nat :=
  (List.range 8).foldl
    (fun p j =>
      let r1 := p.2 <<< 1
      if r1 &&& 0x80 ≠ 0 then (p.1 ||| (1 <<< j), (r1 ^^^ 0x11) &&& 0x7F)
      else (p.1, r1 &&& 0x7F))
    (0, r0)

/-- `utils.whiten(buffer, seed)`: XOR each byte with the LFSR keystream,
carrying the 7-bit state across bytes. -/
def whiten : List Nat → Nat → List Nat
  | [], _ => []
  | v :: rest, r => (v ^^^ (lfsrByte r).1) :: whiten rest (lfsrByte r).2

/-- Inner 8-round shift of `utils.crc16_le`. -/
def crc16Shift (poly : Nat) (c : Nat) : Nat :=
  (List.range 8).foldl (fun crc _ => if crc &&& 1 = 1 then (crc >>> 1) ^^^ poly else crc >>> 1) c

/-- `utils.crc16_le(buffer, seed, poly, ref_in, ref_out)`. -/
def crc16_le (buffer : List Nat) (seed : Nat) (poly : Nat) (ref_in ref_out : Bool) : Nat :=
  let start := if ref_in then seed ^^^ 0xFFFF else seed
  let c := buffer.foldl (fun crc byte => crc16Shift poly (crc ^^^ byte)) start
  if ref_out then c ^^^ 0xFFFF else c

/-- `ZhijiaEncoder._crc16`: CRC16 ISO14443AB (`crc16_le(buffer, seed, 0x8408, True, True)`). -/
def zjCrc16 (buffer : List Nat) (seed : Nat) : Nat := crc16_le buffer seed 0x8408 true true

/-- XOR-fold (`reduce(lambda x, y: x ^ y, ...)`, with 0 as neutral start). -/
def xorFold (l : List Nat) : Nat := l.foldl (fun a b => a ^^^ b) 0

/-- The byte sublist `[x for i, x in enumerate(buffer) if i in self._pivot_index]`
that `ZhijiaEncoder.pivot` folds over. -/
def pivotSel (pivotIndex : List Nat) (buffer : List Nat) : List Nat :=
  (buffer.enum.filter (fun ix => ix.1 ∈ pivotIndex)).map (·.2)

/-- The pivot value of `ZhijiaEncoder.pivot`: XOR-fold the bytes whose index is in
`pivotIndex`; when `pivotXor` is set, apply `pivot ^= ((pivot & 1) - 1) & 0xFF`
(which XORs with `0xFF` exactly when the pivot is even, and is a no-op when odd). -/
def pivotValue (pivotIndex : List Nat) (pivotXor : Bool) (buffer : List Nat) : Nat :=
  let p := xorFold (pivotSel pivotIndex buffer)
  if pivotXor then (if p &&& 1 = 1 then p else p ^^^ 0xFF) else p

/-- `ZhijiaEncoder.pivot`: compute the pivot value and XOR it into every byte. -/
def pivot (pivotIndex : List Nat) (pivotXor : Bool) (buffer : List Nat) : List Nat :=
  buffer.map (fun x => x ^^^ pivotValue pivotIndex pivotXor buffer)

/-- `ZhijiaEncoderV0._pivot_index` (`frozenset({0, 1, 6, 7})`, listed in order). -/
def ZJ_PIVOT_V0 : List Nat := [0, 1, 6, 7]

/-- `ZhijiaEncoderV1._pivot_index` (shared by `ZhijiaEncoderRemote`):
`frozenset({2, 4, 9, 12, 13, 15})`. -/
def ZJ_PIVOT_V1 : List Nat := [2, 4, 9, 12, 13, 15]

/-- `ZhijiaEncoderV2._pivot_index`: `frozenset({3, 7, 11, 12, 13, 15})`. -/
def ZJ_PIVOT_V2 : List Nat := [3, 7, 11, 12, 13, 15]

/-- `ZhijiaEncoderV0.pivot` (`_pivot_xor = False`). -/
def zjPivotV0 (buffer : List Nat) : List Nat := pivot ZJ_PIVOT_V0 false buffer

/-- `ZhijiaEncoderV1.pivot` / `ZhijiaEncoderRemote.pivot` (`_pivot_xor = True`). -/
def zjPivotV1 (buffer : List Nat) : List Nat := pivot ZJ_PIVOT_V1 true buffer

/-- `ZhijiaEncoderV2.pivot` (`_pivot_xor = True`). -/
def zjPivotV2 (buffer : List Nat) : List Nat := pivot ZJ_PIVOT_V2 true buffer

/-- `BleAdvAdvertisement`: `{ble_type, raw, ad_flag}`. -/
structure BleAdvAdvertisement where
  ble_type : Nat
  raw : List Nat
  ad_flag : Nat := 0
deriving DecidableEq

/-- The AD types recognised by `BleAdvAdvertisement.FromRaw`
(`part_type in [0x03, 0x05, 0x16, 0xFF]`). -/
def adTypes : List Nat := [0x03, 0x05, 0x16, 0xFF]

/-- The `while len(rem_data) > 2` loop of `BleAdvAdvertisement.FromRaw`, carrying
the `(ble_type, raw_data)` state.  `part_len = rem_data[0]`; segments whose type
is in `adTypes` record `(part_type, rem_data[2 : part_len + 1])`; iteration
continues on `rem_data[part_len + 1:]`.  The loop is driven by structural fuel:
each iteration drops at least one byte, so fuel equal to the buffer length (as
supplied by `pyFromRaw`) never runs out before the `while` condition fails. -/
def parseLoop : Nat → Nat × List Nat → List Nat → Nat × List Nat
  | 0, st, _ => st
  | fuel + 1, st, rem =>
    if 2 < rem.length then
      let part_len := rem.headI
      if part_len > rem.length then st
      else
        parseLoop fuel
          (if rem.getD 1 0 ∈ adTypes then (rem.getD 1 0, (rem.drop 2).take (part_len - 1))
           else st)
          (rem.drop (part_len + 1))
    else st

/-- `BleAdvAdvertisement.FromRaw`: run the segment loop starting from
`ble_type = 0`; if no recognised segment was found the whole input is the raw
payload. -/
def pyFromRaw (raw_adv : List Nat) : BleAdvAdvertisement :=
  let st := parseLoop raw_adv.length (0, raw_adv) raw_adv
  { ble_type := st.1, raw := if st.1 = 0 then raw_adv else st.2, ad_flag := 0 }

/-- `BleAdvAdvertisement.to_raw`. -/
def toRaw (a : BleAdvAdvertisement) : List Nat :=
  let full_raw :=
    if a.ble_type ≠ 0 then (a.raw.length + 1) :: a.ble_type :: a.raw else a.raw
  if a.ad_flag = 0 then full_raw else 0x02 :: 0x01 :: a.ad_flag :: full_raw

/-- `FromRaw(b).to_raw()`: the normalisation the spec's idempotence invariant is about. -/
def hRaw (b : List Nat) : List Nat := toRaw (pyFromRaw b)

/-- `BleAdvEncCmd`: `cmd` plus `param`, `arg0..arg4`, all Python ints
(`__init__(cmd)` leaves every other field 0). -/
structure BleAdvEncCmd where
  cmd : ℤ
  param : ℤ := 0
  arg0 : ℤ := 0
  arg1 : ℤ := 0
  arg2 : ℤ := 0
  arg3 : ℤ := 0
  arg4 : ℤ := 0
deriving DecidableEq

/-- `BleAdvEncCmd(cmd)`. -/
def mkEncCmd (c : ℤ) : BleAdvEncCmd := { cmd := c }

/-- The field names `setattr`/`getattr` are used with on `BleAdvEncCmd`
(the translator tables only ever name these seven). -/
def encFieldNames : List String := ["cmd", "param", "arg0", "arg1", "arg2", "arg3", "arg4"]

/-- `getattr(enc_cmd, name)`.  Names outside `encFieldNames` would raise
`AttributeError` in Python; they never occur and are mapped to 0 here. -/
def getField (e : BleAdvEncCmd) (name : String) : ℤ :=
  if name = "cmd" then e.cmd
  else if name = "param" then e.param
  else if name = "arg0" then e.arg0
  else if name = "arg1" then e.arg1
  else if name = "arg2" then e.arg2
  else if name = "arg3" then e.arg3
  else if name = "arg4" then e.arg4
  else 0

/-- `setattr(enc_cmd, name, v)` for the seven known field names. -/
def setField (e : BleAdvEncCmd) (name : String) (v : ℤ) : BleAdvEncCmd :=
  if name = "cmd" then { e with cmd := v }
  else if name = "param" then { e with param := v }
  else if name = "arg0" then { e with arg0 := v }
  else if name = "arg1" then { e with arg1 := v }
  else if name = "arg2" then { e with arg2 := v }
  else if name = "arg3" then { e with arg3 := v }
  else if name = "arg4" then { e with arg4 := v }
  else e

/-- `BleAdvConfig`: session/pairing state.  `__init__(config_id, index)`;
class defaults `tx_count = 0`, `app_restart_count = 1`, `seed = 0`. -/
structure BleAdvConfig where
  id : Nat := 0
  index : Nat := 0
  tx_count : Nat := 0
  app_restart_count : Nat := 1
  seed : Nat := 0
deriving DecidableEq

/-- `AttrType = str | bool | int | float | None`; numbers are modelled as `ℚ`. -/
inductive AttrVal where
  | str (s : String)
  | bool (b : Bool)
  | num (q : ℚ)
  | pynone
deriving DecidableEq

/-- Numeric view of a Python value (`bool` is an `int` in Python);
`none` for values that do not behave as numbers (`str`, `None`). -/
def AttrVal.asNum : AttrVal → Option ℚ
  | AttrVal.num q => some q
  | AttrVal.bool b => some (if b then 1 else 0)
  | _ => Option.none

/-- Numeric value used in float arithmetic (`factor * value`).  For `str`/`None`
Python would raise `TypeError`; the translator tables only feed numbers, and the
relevant theorems assume a numeric value, so those cases are mapped to 0. -/
def AttrVal.asNumD (a : AttrVal) : ℚ := a.asNum.getD 0

/-- Python `==` on attribute values: numeric cross-type equality
(`True == 1`), structural equality otherwise; never raises. -/
def pyEq (a b : AttrVal) : Bool :=
  match a.asNum, b.asNum with
  | some x, some y => x == y
  | _, _ => a == b

/-- Python `a >= v` for an attribute value against a float: `none` models the
`TypeError` raised when `a` is `None` or a `str`. -/
def pyGe (a : AttrVal) (v : ℚ) : Option Bool :=
  match a.asNum with
  | some q => some (decide (v ≤ q))
  | Option.none => Option.none

/-- Python `a <= v` for an attribute value against a float (`none` = `TypeError`). -/
def pyLe (a : AttrVal) (v : ℚ) : Option Bool :=
  match a.asNum with
  | some q => some (decide (q ≤ v))
  | Option.none => Option.none

/-- `ent_attr.attrs.get(attr)`: `None` when the key is missing. -/
def attrsGet (attrs : List (String × AttrVal)) (k : String) : AttrVal :=
  (attrs.lookup k).getD AttrVal.pynone

/-- Python dict assignment `d[k] = v`: overwrite in place, else append. -/
def setAttr (attrs : List (String × AttrVal)) (k : String) (v : AttrVal) :
    List (String × AttrVal) :=
  match attrs with
  | [] => [(k, v)]
  | (k1, v1) :: rest => if k1 = k then (k, v) :: rest else (k1, v1) :: setAttr rest k v

/-- `BleAdvEntAttr`: changed attribute names, attribute map, entity base type and index. -/
structure BleAdvEntAttr where
  chg_attrs : List String
  attrs : List (String × AttrVal)
  base_type : String
  index : Nat
deriving DecidableEq

/-- `EntityMatcher`: base type/index, action attributes, and the
`eq`/`min`/`max` constraint dicts (insertion-ordered). -/
structure EntityMatcher where
  base_type : String
  index : Nat
  actions : List String := []
  eqs : List (String × AttrVal) := []
  mins : List (String × ℚ) := []
  maxs : List (String × ℚ) := []
deriving DecidableEq

/-- `all(cmp(e.attrs.get(attr), val) for attr, val in constraints)` with Python's
lazy left-to-right evaluation: stops at the first `False`, propagates the first
`TypeError` (`none`) reached before that. -/
def allCmp (cmp : AttrVal → ℚ → Option Bool) (constraints : List (String × ℚ))
    (attrs : List (String × AttrVal)) : Option Bool :=
  match constraints with
  | [] => some true
  | (a, v) :: rest =>
    match cmp (attrsGet attrs a) v with
    | Option.none => Option.none
    | some false => some false
    | some true => allCmp cmp rest attrs

/-- `EntityMatcher.matches`: base type, index, at least one action changed, all
`eq` constraints, then all `min` and `max` constraints.  The result is `none`
when a `min`/`max` comparison raises `TypeError` (value missing or non-numeric),
`some b` otherwise. -/
def EntityMatcher.matches (m : EntityMatcher) (e : BleAdvEntAttr) : Option Bool :=
  if m.base_type = e.base_type ∧ m.index = e.index
      ∧ m.actions.any (fun a => e.chg_attrs.contains a)
      ∧ m.eqs.all (fun av => pyEq (attrsGet e.attrs av.1) av.2)
  then
    match allCmp pyGe m.mins e.attrs with
    | Option.none => Option.none
    | some false => some false
    | some true => allCmp pyLe m.maxs e.attrs
  else some false

/-- `EntityMatcher.create`: default `BleAdvEntAttr` from the action list and eq dict. -/
def EntityMatcher.create (m : EntityMatcher) : BleAdvEntAttr :=
  { chg_attrs := m.actions, attrs := m.eqs, base_type := m.base_type, index := m.index }

/-- `EncoderMatcher` (aliased `EncCmd` in the translator tables). -/
structure EncoderMatcher where
  cmd : ℤ
  eqs : List (String × ℤ) := []
  mins : List (String × ℚ) := []
  maxs : List (String × ℚ) := []
deriving DecidableEq

/-- `EncoderMatcher.matches`: `cmd` equality plus all eq/min/max constraints on
`EncCmd` fields (ints compared against floats never raise). -/
def EncoderMatcher.matches (m : EncoderMatcher) (e : BleAdvEncCmd) : Bool :=
  e.cmd == m.cmd
    && m.eqs.all (fun av => getField e av.1 == av.2)
    && m.mins.all (fun av => decide (av.2 ≤ (getField e av.1 : ℚ)))
    && m.maxs.all (fun av => decide ((getField e av.1 : ℚ) ≤ av.2))

/-- `EncoderMatcher.create`: `BleAdvEncCmd(cmd)` with every eq constraint `setattr`-ed. -/
def EncoderMatcher.create (m : EncoderMatcher) : BleAdvEncCmd :=
  m.eqs.foldl (fun e av => setField e av.1 av.2) (mkEncCmd m.cmd)

/-- `Trans`: a bidirectional translator rule (`_copies`, optional `_scopy`,
`direct`/`reverse` gating). -/
structure Trans where
  ent : EntityMatcher
  enc : EncoderMatcher
  direct : Bool := true
  reverse : Bool := true
  copies : List (String × String × ℚ) := []
  scopy : Option (String × List String × ℚ × Nat) := Option.none
deriving DecidableEq

/-- `Trans.matches_ent`: `self.direct and self.ent.matches(ent_attr)`
(short-circuits to `False` without evaluating `matches` when not direct). -/
def Trans.matches_ent (t : Trans) (ea : BleAdvEntAttr) : Option Bool :=
  if t.direct then t.ent.matches ea else some false

/-- `Trans.matches_enc`: `self.reverse and self.enc.matches(enc_cmd)`. -/
def Trans.matches_enc (t : Trans) (ec : BleAdvEncCmd) : Bool :=
  t.reverse && t.enc.matches ec

/-- `Trans.ent_to_enc`: build from the encoder matcher, apply each
`copy(attr_ent, attr_enc, factor)` as `int(factor * attrs.get(attr_ent, 0))`,
then the optional split copy: `val = int(factor * attrs[attr_ent])`, and for
each destination in order store `val % modulo` and set `val = int(val / modulo)`. -/
def Trans.ent_to_enc (t : Trans) (ea : BleAdvEntAttr) : BleAdvEncCmd :=
  let e1 := t.copies.foldl
    (fun e c => setField e c.2.1 (pyInt (c.2.2 * (attrsGet ea.attrs c.1).asNumD)))
    t.enc.create
  match t.scopy with
  | Option.none => e1
  | some sc =>
    (sc.2.1.foldl
      (fun (p : BleAdvEncCmd × ℤ) d =>
        (setField p.1 d (p.2 % (sc.2.2.2 : ℤ)), pyInt ((p.2 : ℚ) / (sc.2.2.2 : ℚ))))
      (e1, pyInt (sc.2.2.1 * (attrsGet ea.attrs sc.1).asNumD))).1

/-- `Trans.enc_to_ent`: build from the entity matcher, fold the split-copy
destinations in reverse (`val = modulo * val + enc[dest]`) and store
`(1.0 / factor) * val`, then invert each plain copy as
`(1.0 / factor) * enc[attr_enc]`. -/
def Trans.enc_to_ent (t : Trans) (ec : BleAdvEncCmd) : BleAdvEntAttr :=
  let ea1 :=
    match t.scopy with
    | Option.none => t.ent.create
    | some sc =>
      let v : ℤ := sc.2.1.reverse.foldl (fun v d => (sc.2.2.2 : ℤ) * v + getField ec d) 0
      { t.ent.create with
        attrs := setAttr t.ent.create.attrs sc.1 (AttrVal.num ((1 / sc.2.2.1) * (v : ℚ))) }
  t.copies.foldl
    (fun ea c =>
      { ea with attrs := setAttr ea.attrs c.1 (AttrVal.num ((1 / c.2.2) * (getField ec c.2.1 : ℚ))) })
    ea1

/-- `BleAdvCodec.enc_to_ent` over a translator table:
`[t.enc_to_ent(enc_cmd) for t in translators if t.matches_enc(enc_cmd)]`. -/
def encToEnt (translators : List Trans) (ec : BleAdvEncCmd) : List BleAdvEntAttr :=
  (translators.filter (fun t => t.matches_enc ec)).map (fun t => t.enc_to_ent ec)

/-- `BleAdvCodec`: framing bytes, BLE parameters, counters and the
vendor-specific cipher/conversion functions.  `pfx` is the source's `_prefix`
(renamed: `prefix` is reserved here).  Class defaults:`_tx_step = 1`,
`_tx_max = 125`, `_seed_max = 0`. -/
structure BleAdvCodec where
  codec_id : String := ""
  len : Nat
  tx_step : Nat := 1
  tx_max : Nat := 125
  seed_max : Nat := 0
  header : List Nat := []
  header_start_pos : Nat := 0
  pfx : List Nat := []
  footer : List Nat := []
  ble_type : Nat := 0
  ad_flag : Nat := 0
  multi_advs : Bool := false
  decrypt : List Nat → Option (List Nat)
  encrypt : List Nat → List Nat
  convert_to_enc : List Nat → Option BleAdvEncCmd × Option BleAdvConfig
  convert_from_enc : BleAdvEncCmd → BleAdvConfig → List Nat
  convert_multi : Option (BleAdvEncCmd → BleAdvConfig → List (List Nat)) := Option.none

/-- `BleAdvCodec.is_eq_buf`: truncate the compared buffer to the reference
length, then compare (the debug logging has no observable effect). -/
def isEqBuf (ref comp : List Nat) : Bool :=
  comp.take ref.length == ref

/-- `BleAdvCodec.decode_adv`.  `last_pos = len(raw) - len(footer)`; reject unless
BLE type, payload length (`last_pos - len(header) - header_start_pos`, an `int`
that may be negative), header bytes and footer bytes all match; then strip the
header, `decrypt`, check and strip the prefix, and hand over to
`convert_to_enc`.  All rejection paths return `(None, None)`. -/
def decodeAdv (c : BleAdvCodec) (adv : BleAdvAdvertisement) :
    Option BleAdvEncCmd × Option BleAdvConfig :=
  let last_pos := adv.raw.length - c.footer.length
  if c.ble_type = adv.ble_type
      ∧ ((adv.raw.length : ℤ) - (c.footer.length : ℤ) - (c.header.length : ℤ)
          - (c.header_start_pos : ℤ) = (c.len : ℤ))
      ∧ isEqBuf c.header (adv.raw.drop c.header_start_pos) = true
      ∧ isEqBuf c.footer (adv.raw.drop last_pos) = true
  then
    match c.decrypt (adv.raw.take c.header_start_pos ++
        ((adv.raw.drop (c.header_start_pos + c.header.length)).take
          (last_pos - (c.header_start_pos + c.header.length)))) with
    | Option.none => (Option.none, Option.none)
    | some read_buffer =>
      if isEqBuf c.pfx read_buffer then c.convert_to_enc (read_buffer.drop c.pfx.length)
      else (Option.none, Option.none)
  else (Option.none, Option.none)

/-- `BleAdvCodec.convert_multi_from_enc`: the overriding encoder's multi-buffer
conversion when set (`FanLampEncoderV1b`), else the default single-buffer
wrapper around `convert_from_enc`. -/
def convertMultiFromEnc (c : BleAdvCodec) (e : BleAdvEncCmd) (conf : BleAdvConfig) :
    List (List Nat) :=
  match c.convert_multi with
  | Option.none => [c.convert_from_enc e conf]
  | some f => f e conf

/-- `BleAdvCodec.encode_advs` (mutates the caller's `Config`; modelled by
returning the updated config).  `rand` stands for the one `randint(1, seed_max)`
draw, consumed only when `seed == 0` and `seed_max > 0`. -/
def encodeAdvs (c : BleAdvCodec) (rand : Nat) (enc_cmd : BleAdvEncCmd)
    (conf : BleAdvConfig) : BleAdvConfig × List BleAdvAdvertisement :=
  let tx := (conf.tx_count + c.tx_step) % c.tx_max
  let arc := if tx = 0 then (conf.app_restart_count + 1) % 255 else conf.app_restart_count
  let sd := if conf.seed = 0 ∧ 0 < c.seed_max then rand else conf.seed
  let conf2 : BleAdvConfig :=
    { conf with tx_count := tx, app_restart_count := arc, seed := sd }
  let advs := (convertMultiFromEnc c enc_cmd conf2).map (fun read_buffer =>
    let encrypted := c.encrypt (c.pfx ++ read_buffer)
    { ble_type := c.ble_type
      raw := encrypted.take c.header_start_pos ++ c.header ++
        encrypted.drop c.header_start_pos ++ c.footer
      ad_flag := c.ad_flag : BleAdvAdvertisement })
  (conf2, advs)

/-- `ZhijiaEncoderV0.decrypt`: double unwhitening then CRC16 check over all but
the last two bytes against the little-endian CRC stored there. -/
def zjV0Decrypt (buffer : List Nat) : Option (List Nat) :=
  let db := whiten (whiten buffer 0x37) 0x7F
  if fromBytesLE (db.drop (db.length - 2)) = zjCrc16 (db.take (db.length - 2)) 0
  then some (db.take (db.length - 2))
  else Option.none

/-- `ZhijiaEncoderV0.encrypt`: append the CRC16 little-endian, double whiten. -/
def zjV0Encrypt (buffer : List Nat) : List Nat :=
  whiten (whiten (buffer ++ toBytesLE (zjCrc16 buffer 0) 2) 0x7F) 0x37

/-- `ZhijiaEncoderV0.convert_to_enc` (byte indexing is `getD i 0`; the pipeline
always supplies the 8 bytes Python would index). -/
def zjV0ConvertToEnc (decoded : List Nat) : Option BleAdvEncCmd × Option BleAdvConfig :=
  let d := zjPivotV0 decoded
  (some { cmd := (d.getD 4 0 : ℤ), arg0 := (d.getD 1 0 : ℤ), arg1 := (d.getD 3 0 : ℤ),
          arg2 := ((d.getD 1 0 ^^^ d.getD 7 0 : Nat) : ℤ) },
   some { id := fromBytesLE [d.getD 0 0, d.getD 5 0], index := d.getD 2 0,
          tx_count := d.getD 0 0 ^^^ d.getD 6 0 })

/-- `ZhijiaEncoderV0.convert_from_enc`.  `.toNat` reflects that the fields are
byte values here (Python's later `bytes(...)` would raise outside `[0, 256)`). -/
def zjV0ConvertFromEnc (e : BleAdvEncCmd) (conf : BleAdvConfig) : List Nat :=
  let uuid := toBytesLE conf.id 2
  zjPivotV0 [uuid.getD 0 0, e.arg0.toNat, conf.index, e.arg1.toNat, e.cmd.toNat,
    uuid.getD 1 0, uuid.getD 0 0 ^^^ conf.tx_count, e.arg0.toNat ^^^ e.arg2.toNat]

/-- `ZhijiaEncoderV1.decrypt`: single unwhitening then the same CRC16 check. -/
def zjV1Decrypt (buffer : List Nat) : Option (List Nat) :=
  let db := whiten buffer 0x37
  if fromBytesLE (db.drop (db.length - 2)) = zjCrc16 (db.take (db.length - 2)) 0
  then some (db.take (db.length - 2))
  else Option.none

/-- `ZhijiaEncoderV1.encrypt`. -/
def zjV1Encrypt (buffer : List Nat) : List Nat :=
  whiten (buffer ++ toBytesLE (zjCrc16 buffer 0) 2) 0x37

/-- `ZhijiaEncoderV1.common_convert_to_enc` (parameterised by the codec's
3-byte `_mac`). -/
def zjCommonConvertToEnc (mac : List Nat) (d : List Nat) :
    Option BleAdvEncCmd × Option BleAdvConfig :=
  let addr := [d.getD 7 0, d.getD 10 0, d.getD 13 0 ^^^ d.getD 4 0]
  if isEqBuf mac addr then
    (some { cmd := (d.getD 9 0 : ℤ), arg0 := (d.getD 0 0 : ℤ), arg1 := (d.getD 3 0 : ℤ),
            arg2 := (d.getD 5 0 : ℤ) },
     some { id := fromBytesLE [d.getD 2 0, d.getD 12 0 ^^^ d.getD 2 0,
              d.getD 15 0 ^^^ d.getD 9 0],
            index := d.getD 6 0, tx_count := d.getD 4 0 })
  else (Option.none, Option.none)

/-- `ZhijiaEncoderV1.common_convert_from_enc`: the 17-byte layout with the
redundancy `key` byte at index 1. -/
def zjCommonConvertFromEnc (mac : List Nat) (e : BleAdvEncCmd) (conf : BleAdvConfig) :
    List Nat :=
  let uuid := toBytesLE conf.id 3
  let key := e.cmd.toNat ^^^ e.arg0.toNat ^^^ e.arg1.toNat ^^^ e.arg2.toNat ^^^
    uuid.getD 0 0 ^^^ uuid.getD 1 0 ^^^ uuid.getD 2 0 ^^^ conf.tx_count ^^^ conf.index ^^^
    mac.getD 0 0 ^^^ mac.getD 1 0 ^^^ mac.getD 2 0
  [e.arg0.toNat, key, uuid.getD 0 0, e.arg1.toNat, conf.tx_count, e.arg2.toNat, conf.index,
   mac.getD 0 0, 0x00, e.cmd.toNat, mac.getD 1 0, 0x00, uuid.getD 1 0 ^^^ uuid.getD 0 0,
   mac.getD 2 0 ^^^ conf.tx_count, 0x00, uuid.getD 2 0 ^^^ e.cmd.toNat, 0x00]

/-- `ZhijiaEncoderV1.convert_to_enc`: pivot, common conversion, then the
constant/duplicate byte checks (`decoded[8] == 0`, `decoded[11] == 0`,
`decoded[7] == decoded[14]`). -/
def zjV1ConvertToEnc (mac : List Nat) (decoded : List Nat) :
    Option BleAdvEncCmd × Option BleAdvConfig :=
  let d := zjPivotV1 decoded
  match zjCommonConvertToEnc mac d with
  | (some e, some cf) =>
    if d.getD 8 0 = 0x00 ∧ d.getD 11 0 = 0x00 ∧ d.getD 7 0 = d.getD 14 0
    then (some e, some cf) else (Option.none, Option.none)
  | _ => (Option.none, Option.none)

/-- `ZhijiaEncoderV1.convert_from_enc`: `oarray[14] = oarray[7]`, then pivot. -/
def zjV1ConvertFromEnc (mac : List Nat) (e : BleAdvEncCmd) (conf : BleAdvConfig) :
    List Nat :=
  let oarray := zjCommonConvertFromEnc mac e conf
  zjPivotV1 (oarray.set 14 (oarray.getD 7 0))

/-- `ZhijiaEncoderV2.decrypt`: unwhiten with `0x6F`, unwhiten all but the last
two bytes with `0xD3`, require the last 7 bytes to be zero padding. -/
def zjV2Decrypt (buffer : List Nat) : Option (List Nat) :=
  let buf1 := whiten buffer 0x6F
  let buf2 := whiten (buf1.take (buf1.length - 2)) 0xD3 ++ buf1.drop (buf1.length - 2)
  if isEqBuf (List.replicate 7 0x00) (buf2.drop (buf2.length - 7))
  then some (buf2.take (buf2.length - 7))
  else Option.none

/-- `ZhijiaEncoderV2.encrypt`: append 7 zero bytes, whiten all but the last two
with `0xD3`, then the whole buffer with `0x6F`. -/
def zjV2Encrypt (buffer : List Nat) : List Nat :=
  let buf1 := buffer ++ List.replicate 7 0x00
  whiten (whiten (buf1.take (buf1.length - 2)) 0xD3 ++ buf1.drop (buf1.length - 2)) 0x6F

/-- `ZhijiaEncoderV2.convert_to_enc`: pivot, common conversion, and the V2
derived-byte checks on indices 8, 11 and 14. -/
def zjV2ConvertToEnc (mac : List Nat) (decoded : List Nat) :
    Option BleAdvEncCmd × Option BleAdvConfig :=
  let d := zjPivotV2 decoded
  match zjCommonConvertToEnc mac d with
  | (some e, some cf) =>
    if (d.getD 2 0 ^^^ d.getD 3 0 ^^^ d.getD 4 0 ^^^ d.getD 7 0) = d.getD 8 0
        ∧ d.getD 11 0 = 0x00
        ∧ (d.getD 2 0 ^^^ d.getD 3 0 ^^^ d.getD 4 0 ^^^ d.getD 9 0) = d.getD 14 0
    then (some e, some cf) else (Option.none, Option.none)
  | _ => (Option.none, Option.none)

/-- `ZhijiaEncoderV2.convert_from_enc`: `oarray[1] ^= oarray[9]`, derived bytes
at 8 and 14, then pivot. -/
def zjV2ConvertFromEnc (mac : List Nat) (e : BleAdvEncCmd) (conf : BleAdvConfig) :
    List Nat :=
  let o0 := zjCommonConvertFromEnc mac e conf
  let o1 := o0.set 1 (o0.getD 1 0 ^^^ o0.getD 9 0)
  let o2 := o1.set 8 (o1.getD 2 0 ^^^ o1.getD 3 0 ^^^ o1.getD 4 0 ^^^ o1.getD 7 0)
  let o3 := o2.set 14 (o2.getD 2 0 ^^^ o2.getD 3 0 ^^^ o2.getD 4 0 ^^^ o2.getD 9 0)
  zjPivotV2 o3

/-- `ZhijiaEncoderRemote.convert_to_enc`: XOR every byte with byte 5, common
conversion, and the constant checks (`decoded[8] == 1`, `decoded[11] == 2`,
`decoded[2] == decoded[14]`). -/
def zjRemoteConvertToEnc (mac : List Nat) (decoded : List Nat) :
    Option BleAdvEncCmd × Option BleAdvConfig :=
  let d := decoded.map (fun x => x ^^^ decoded.getD 5 0)
  match zjCommonConvertToEnc mac d with
  | (some e, some cf) =>
    if d.getD 8 0 = 0x01 ∧ d.getD 11 0 = 0x02 ∧ d.getD 2 0 = d.getD 14 0
    then (some e, some cf) else (Option.none, Option.none)
  | _ => (Option.none, Option.none)

/-- `ZhijiaEncoderRemote.convert_from_enc`: fixed bytes at 1, 8, 11, 14, 16,
then XOR with the empirical pivot `0xC9 ^ 0x06`. -/
def zjRemoteConvertFromEnc (mac : List Nat) (e : BleAdvEncCmd) (conf : BleAdvConfig) :
    List Nat :=
  let o0 := zjCommonConvertFromEnc mac e conf
  let o1 := o0.set 1 (o0.getD 1 0 ^^^ 0x04)
  let o2 := (((o1.set 8 0x01).set 11 0x02).set 14 (o1.getD 2 0)).set 16 0x06
  o2.map (fun x => x ^^^ 0xC9 ^^^ 0x06)

/-- Registry entry `zhijia_v0` (`ZhijiaEncoderV0`, header F9.08.49,
prefix 08.80.98, `ble(0x1A, 0xFF)`). -/
def zhijia_v0 : BleAdvCodec :=
  { codec_id := "zhijia_v0", len := 13, header := [0xF9, 0x08, 0x49], pfx := [0x08, 0x80, 0x98],
    ble_type := 0xFF, ad_flag := 0x1A,
    decrypt := zjV0Decrypt, encrypt := zjV0Encrypt,
    convert_to_enc := zjV0ConvertToEnc, convert_from_enc := zjV0ConvertFromEnc }

/-- Registry entry `zhiguang_v0` (same encoder, prefix 33.AA.55). -/
def zhiguang_v0 : BleAdvCodec :=
  { zhijia_v0 with codec_id := "zhiguang_v0", pfx := [0x33, 0xAA, 0x55] }

/-- Registry entry `zhijia_v1` (`ZhijiaEncoderV1([0x19, 0x01, 0x10])`,
header F9.08.49, prefix 55.08.80.98, `_tx_step = 2`). -/
def zhijia_v1 : BleAdvCodec :=
  { codec_id := "zhijia_v1", len := 23, tx_step := 2, header := [0xF9, 0x08, 0x49], pfx := [0x55, 0x08, 0x80, 0x98],
    ble_type := 0xFF, ad_flag := 0x1A,
    decrypt := zjV1Decrypt, encrypt := zjV1Encrypt,
    convert_to_enc := zjV1ConvertToEnc [0x19, 0x01, 0x10],
    convert_from_enc := zjV1ConvertFromEnc [0x19, 0x01, 0x10] }

/-- Registry entry `zhiguang_v1` (`ZhijiaEncoderV1([0x20, 0x03, 0x05])`,
prefix A0.C0.04.04). -/
def zhiguang_v1 : BleAdvCodec :=
  { zhijia_v1 with
    codec_id := "zhiguang_v1", pfx := [0xA0, 0xC0, 0x04, 0x04],
    convert_to_enc := zjV1ConvertToEnc [0x20, 0x03, 0x05],
    convert_from_enc := zjV1ConvertFromEnc [0x20, 0x03, 0x05] }

/-- Registry entry `zhijia_v2` (`ZhijiaEncoderV2([0x19, 0x01, 0x10])`,
header 22.9D, no prefix; `_tx_step = 2` inherited from V1). -/
def zhijia_v2 : BleAdvCodec :=
  { codec_id := "zhijia_v2", len := 24, tx_step := 2, header := [0x22, 0x9D],
    ble_type := 0xFF, ad_flag := 0x1A,
    decrypt := zjV2Decrypt, encrypt := zjV2Encrypt,
    convert_to_enc := zjV2ConvertToEnc [0x19, 0x01, 0x10],
    convert_from_enc := zjV2ConvertFromEnc [0x19, 0x01, 0x10] }

/-- Registry entry `zhijia_v2_fl` (same encoder/framing as `zhijia_v2`,
different translator table). -/
def zhijia_v2_fl : BleAdvCodec := { zhijia_v2 with codec_id := "zhijia_v2_fl" }

/-- Registry entry `zhijia_v2_split` (same encoder/framing as `zhijia_v2`,
different translator table). -/
def zhijia_v2_split : BleAdvCodec := { zhijia_v2 with codec_id := "zhijia_v2_split" }

/-- Registry entry `zhiguang_v2` (`ZhijiaEncoderV2([0x20, 0x03, 0x05])`). -/
def zhiguang_v2 : BleAdvCodec :=
  { zhijia_v2 with
    codec_id := "zhiguang_v2",
    convert_to_enc := zjV2ConvertToEnc [0x20, 0x03, 0x05],
    convert_from_enc := zjV2ConvertFromEnc [0x20, 0x03, 0x05] }

/-- Registry entry `zhijia_vr1` (`ZhijiaEncoderRemote([0x20, 0x03, 0x05])`,
header F0.FF, no whitening, `_len = 17`; `_tx_step = 2` inherited from V1). -/
def zhijia_vr1 : BleAdvCodec :=
  { codec_id := "zhijia_vr1", len := 17, tx_step := 2, header := [0xF0, 0xFF],
    ble_type := 0xFF, ad_flag := 0x1A,
    decrypt := fun buffer => some buffer, encrypt := fun buffer => buffer,
    convert_to_enc := zjRemoteConvertToEnc [0x20, 0x03, 0x05],
    convert_from_enc := zjRemoteConvertFromEnc [0x20, 0x03, 0x05] }

/-- The `CODECS` registry of `zhijia.py` (framing/cipher data; the translator
tables live separately, see `TRANS_V0`). -/
def CODECS : List BleAdvCodec :=
  [zhijia_v0, zhijia_v1, zhijia_v2, zhijia_v2_fl, zhijia_v2_split,
   zhiguang_v0, zhiguang_v1, zhiguang_v2, zhijia_vr1]

/-- `TRANS_V0`, the zhijia V0 translator table, with each matcher's builder
calls flattened into its final state (attribute names from `const.py`:
`ATTR_CMD = "cmd"`, `ATTR_TIME = "s"`, `ATTR_ON = "on"`, `ATTR_BR = "br"`,
`ATTR_CT = "ct"`, `ATTR_SPEED = "speed"`, `ATTR_SPEED_COUNT = "speed_count"`,
`ATTR_DIR = "dir"`, `ATTR_COLD = "cold"`, `ATTR_WARM = "warm"`,
`ATTR_SUB_TYPE = "sub_type"`, `LIGHT_TYPE_CWW = "cww"`). -/
def TRANS_V0 : List Trans :=
  [
   ⟨⟨"device", 0, ["cmd"], [("cmd", AttrVal.str "pair")], [], []⟩,
    ⟨0xB4, [], [], []⟩, true, true, [], Option.none⟩,
   ⟨⟨"device", 0, ["cmd"], [("cmd", AttrVal.str "unpair")], [], []⟩,
    ⟨0xB0, [], [], []⟩, true, true, [], Option.none⟩,
   ⟨⟨"device", 0, ["cmd"], [("cmd", AttrVal.str "timer"), ("s", AttrVal.num 60)], [], []⟩,
    ⟨0xD4, [], [], []⟩, true, true, [], Option.none⟩,
   ⟨⟨"device", 0, ["cmd"], [("cmd", AttrVal.str "timer"), ("s", AttrVal.num 120)], [], []⟩,
    ⟨0xD5, [], [], []⟩, true, true, [], Option.none⟩,
   ⟨⟨"device", 0, ["cmd"], [("cmd", AttrVal.str "timer"), ("s", AttrVal.num 240)], [], []⟩,
    ⟨0xD6, [], [], []⟩, true, true, [], Option.none⟩,
   ⟨⟨"device", 0, ["cmd"], [("cmd", AttrVal.str "timer"), ("s", AttrVal.num 480)], [], []⟩,
    ⟨0xD7, [], [], []⟩, true, true, [], Option.none⟩,
   ⟨⟨"light", 0, ["on"], [("on", AttrVal.bool true)], [], []⟩,
    ⟨0xB3, [], [], []⟩, true, true, [], Option.none⟩,
   ⟨⟨"light", 0, ["on"], [("on", AttrVal.bool false)], [], []⟩,
    ⟨0xB2, [], [], []⟩, true, true, [], Option.none⟩,
   ⟨⟨"light", 0, ["br"], [("sub_type", AttrVal.str "cww")], [], []⟩,
    ⟨0xB5, [], [], []⟩, true, true, [], some ("br", ["arg2", "arg1"], 1000, 256)⟩,
   ⟨⟨"light", 0, ["ct"], [("sub_type", AttrVal.str "cww")], [], []⟩,
    ⟨0xB7, [], [], []⟩, true, true, [], some ("ct", ["arg2", "arg1"], 1000, 256)⟩,
   ⟨⟨"light", 1, ["on"], [("on", AttrVal.bool true)], [], []⟩,
    ⟨0xA6, [("arg0", 1)], [], []⟩, true, true, [], Option.none⟩,
   ⟨⟨"light", 1, ["on"], [("on", AttrVal.bool false)], [], []⟩,
    ⟨0xA6, [("arg0", 2)], [], []⟩, true, true, [], Option.none⟩,
   ⟨⟨"fan", 0, ["dir"], [("dir", AttrVal.bool true)], [], []⟩,
    ⟨0xD9, [], [], []⟩, true, true, [], Option.none⟩,
   ⟨⟨"fan", 0, ["dir"], [("dir", AttrVal.bool false)], [], []⟩,
    ⟨0xDA, [], [], []⟩, true, true, [], Option.none⟩,
   ⟨⟨"fan", 0, ["on"], [("on", AttrVal.bool false)], [], []⟩,
    ⟨0xD8, [], [], []⟩, true, true, [], Option.none⟩,
   ⟨⟨"fan", 0, ["on"], [("speed_count", AttrVal.num 3), ("on", AttrVal.bool true), ("speed", AttrVal.num 1)], [], []⟩,
    ⟨0xD2, [], [], []⟩, true, true, [], Option.none⟩,
   ⟨⟨"fan", 0, ["on"], [("speed_count", AttrVal.num 3), ("on", AttrVal.bool true), ("speed", AttrVal.num 2)], [], []⟩,
    ⟨0xD1, [], [], []⟩, true, true, [], Option.none⟩,
   ⟨⟨"fan", 0, ["on"], [("speed_count", AttrVal.num 3), ("on", AttrVal.bool true), ("speed", AttrVal.num 3)], [], []⟩,
    ⟨0xD0, [], [], []⟩, true, true, [], Option.none⟩,
   ⟨⟨"fan", 0, ["on", "speed"], [("speed_count", AttrVal.num 6), ("on", AttrVal.bool true)], [("speed", 1)], [("speed", 2)]⟩,
    ⟨0xD2, [], [], []⟩, true, false, [], Option.none⟩,
   ⟨⟨"fan", 0, ["on", "speed"], [("speed_count", AttrVal.num 6), ("on", AttrVal.bool true)], [("speed", 3)], [("speed", 4)]⟩,
    ⟨0xD1, [], [], []⟩, true, false, [], Option.none⟩,
   ⟨⟨"fan", 0, ["on", "speed"], [("speed_count", AttrVal.num 6), ("on", AttrVal.bool true)], [("speed", 5)], [("speed", 6)]⟩,
    ⟨0xD0, [], [], []⟩, true, false, [], Option.none⟩,
   ⟨⟨"light", 0, [], [("sub_type", AttrVal.str "cww"), ("cold", AttrVal.num (1 / 10)), ("warm", AttrVal.num (1 / 10))], [], []⟩,
    ⟨0xA1, [("arg0", 25), ("arg1", 25)], [], []⟩, false, true, [], Option.none⟩,
   ⟨⟨"light", 0, [], [("sub_type", AttrVal.str "cww"), ("cold", AttrVal.num 1), ("warm", AttrVal.num 0)], [], []⟩,
    ⟨0xA2, [("arg0", 255), ("arg1", 0)], [], []⟩, false, true, [], Option.none⟩,
   ⟨⟨"light", 0, [], [("sub_type", AttrVal.str "cww"), ("cold", AttrVal.num 0), ("warm", AttrVal.num 1)], [], []⟩,
    ⟨0xA3, [("arg0", 0), ("arg1", 255)], [], []⟩, false, true, [], Option.none⟩,
   ⟨⟨"light", 0, [], [("sub_type", AttrVal.str "cww"), ("cold", AttrVal.num 1), ("warm", AttrVal.num 1)], [], []⟩,
    ⟨0xA4, [("arg0", 255), ("arg1", 255)], [], []⟩, false, true, [], Option.none⟩,
   ⟨⟨"light", 0, [], [("sub_type", AttrVal.str "cww"), ("cold", AttrVal.num 1), ("warm", AttrVal.num 0)], [], []⟩,
    ⟨0xA7, [("arg0", 1)], [], []⟩, false, true, [], Option.none⟩,
   ⟨⟨"light", 0, [], [("sub_type", AttrVal.str "cww"), ("cold", AttrVal.num 0), ("warm", AttrVal.num 1)], [], []⟩,
    ⟨0xA7, [("arg0", 2)], [], []⟩, false, true, [], Option.none⟩,
   ⟨⟨"light", 0, [], [("sub_type", AttrVal.str "cww"), ("cold", AttrVal.num 1), ("warm", AttrVal.num 1)], [], []⟩,
    ⟨0xA7, [("arg0", 3)], [], []⟩, false, true, [], Option.none⟩]

/-- `int.from_bytes(b)` with Python's default big-endian byte order. -/
def fromBytesBE (l : List Nat) : Nat := l.foldl (fun a b => 256 * a + b) 0

/-- `int.to_bytes(n, k)` big-endian (Python's default byte order). -/
def toBytesBE (n k : Nat) : List Nat := (toBytesLE n k).reverse

/-- `utils.reverse_byte`: bit-reverse one byte by swapping bit pairs, nibble
pairs and nibbles. -/
def reverse_byte (x : Nat) : Nat :=
  let x1 := ((x &&& 0x55) <<< 1) ||| ((x &&& 0xAA) >>> 1)
  let x2 := ((x1 &&& 0x33) <<< 2) ||| ((x1 &&& 0xCC) >>> 2)
  ((x2 &&& 0x0F) <<< 4) ||| ((x2 &&& 0xF0) >>> 4)

/-- `utils.reverse_all`. -/
def reverse_all (buffer : List Nat) : List Nat := buffer.map reverse_byte

/-- The 8 shift rounds of `binascii.crc_hqx` on one accumulated value
(CRC16-CCITT, most significant bit first, polynomial `0x1021`). -/
def crcHqxShift (c : Nat) : Nat :=
  (List.range 8).foldl
    (fun crc _ =>
      if crc &&& 0x8000 ≠ 0 then ((crc <<< 1) ^^^ 0x1021) &&& 0xFFFF
      else (crc <<< 1) &&& 0xFFFF) c

/-- `binascii.crc_hqx(buffer, seed)`, used by the fanlamp, zhimei and rw
codecs as `_crc16`. -/
def crcHqx (buffer : List Nat) (seed : Nat) : Nat :=
  buffer.foldl (fun crc byte => crcHqxShift (crc ^^^ ((byte &&& 0xFF) <<< 8))) (seed &&& 0xFFFF)

/-- One keystream byte of `MantraEncoder._whiten16` (`param = 4777`): 8 rounds
of the 16-bit LFSR with the explicit `if r == 0: r = 1061` re-seeding; returns
the keystream byte and the updated state. -/
def whiten16Byte (r0 : Nat) : Nat × Nat :=
  (List.range 8).foldl
    (fun p j =>
      let highBit := 0x8000 &&& p.2
      let r1 := (p.2 <<< 1) &&& 0xFFFF
      let p2 := if highBit ≠ 0 then (p.1 ||| (1 <<< (7 - j)), r1 ^^^ 4777) else (p.1, r1)
      (p2.1, if p2.2 = 0 then 1061 else p2.2))
    (0, r0)

/-- `MantraEncoder._whiten16(buffer, seed)` (`xorer = 73`): XOR each byte with
`73` and the LFSR keystream byte. -/
def whiten16 : List Nat → Nat → List Nat
  | [], _ => []
  | v :: rest, r => (v ^^^ 73 ^^^ (whiten16Byte r).1) :: whiten16 rest (whiten16Byte r).2

/-- The AES S-box (FIPS-197), for the `Crypto.Cipher.AES` ECB encryption that
`FanLampEncoderV2._sign` truncates into its 16-bit signature. -/
def AES_SBOX : List Nat :=
  [
   0x63, 0x7C, 0x77, 0x7B, 0xF2, 0x6B, 0x6F, 0xC5, 0x30, 0x01, 0x67, 0x2B, 0xFE, 0xD7, 0xAB, 0x76,
   0xCA, 0x82, 0xC9, 0x7D, 0xFA, 0x59, 0x47, 0xF0, 0xAD, 0xD4, 0xA2, 0xAF, 0x9C, 0xA4, 0x72, 0xC0,
   0xB7, 0xFD, 0x93, 0x26, 0x36, 0x3F, 0xF7, 0xCC, 0x34, 0xA5, 0xE5, 0xF1, 0x71, 0xD8, 0x31, 0x15,
   0x04, 0xC7, 0x23, 0xC3, 0x18, 0x96, 0x05, 0x9A, 0x07, 0x12, 0x80, 0xE2, 0xEB, 0x27, 0xB2, 0x75,
   0x09, 0x83, 0x2C, 0x1A, 0x1B, 0x6E, 0x5A, 0xA0, 0x52, 0x3B, 0xD6, 0xB3, 0x29, 0xE3, 0x2F, 0x84,
   0x53, 0xD1, 0x00, 0xED, 0x20, 0xFC, 0xB1, 0x5B, 0x6A, 0xCB, 0xBE, 0x39, 0x4A, 0x4C, 0x58, 0xCF,
   0xD0, 0xEF, 0xAA, 0xFB, 0x43, 0x4D, 0x33, 0x85, 0x45, 0xF9, 0x02, 0x7F, 0x50, 0x3C, 0x9F, 0xA8,
   0x51, 0xA3, 0x40, 0x8F, 0x92, 0x9D, 0x38, 0xF5, 0xBC, 0xB6, 0xDA, 0x21, 0x10, 0xFF, 0xF3, 0xD2,
   0xCD, 0x0C, 0x13, 0xEC, 0x5F, 0x97, 0x44, 0x17, 0xC4, 0xA7, 0x7E, 0x3D, 0x64, 0x5D, 0x19, 0x73,
   0x60, 0x81, 0x4F, 0xDC, 0x22, 0x2A, 0x90, 0x88, 0x46, 0xEE, 0xB8, 0x14, 0xDE, 0x5E, 0x0B, 0xDB,
   0xE0, 0x32, 0x3A, 0x0A, 0x49, 0x06, 0x24, 0x5C, 0xC2, 0xD3, 0xAC, 0x62, 0x91, 0x95, 0xE4, 0x79,
   0xE7, 0xC8, 0x37, 0x6D, 0x8D, 0xD5, 0x4E, 0xA9, 0x6C, 0x56, 0xF4, 0xEA, 0x65, 0x7A, 0xAE, 0x08,
   0xBA, 0x78, 0x25, 0x2E, 0x1C, 0xA6, 0xB4, 0xC6, 0xE8, 0xDD, 0x74, 0x1F, 0x4B, 0xBD, 0x8B, 0x8A,
   0x70, 0x3E, 0xB5, 0x66, 0x48, 0x03, 0xF6, 0x0E, 0x61, 0x35, 0x57, 0xB9, 0x86, 0xC1, 0x1D, 0x9E,
   0xE1, 0xF8, 0x98, 0x11, 0x69, 0xD9, 0x8E, 0x94, 0x9B, 0x1E, 0x87, 0xE9, 0xCE, 0x55, 0x28, 0xDF,
   0x8C, 0xA1, 0x89, 0x0D, 0xBF, 0xE6, 0x42, 0x68, 0x41, 0x99, 0x2D, 0x0F, 0xB0, 0x54, 0xBB, 0x16]

/-- S-box lookup. -/
def aesSbox (x : Nat) : Nat := AES_SBOX.getD x 0

/-- GF(2^8) doubling (AES `xtime`). -/
def xtime (x : Nat) : Nat := ((x <<< 1) ^^^ (if x &&& 0x80 ≠ 0 then 0x1B else 0)) &&& 0xFF

/-- AES-128 round constants. -/
def AES_RCON : List Nat := [0x01, 0x02, 0x04, 0x08, 0x10, 0x20, 0x40, 0x80, 0x1B, 0x36]

/-- Byte-wise XOR of two buffers. -/
def xorBytes (a b : List Nat) : List Nat := List.zipWith (fun x y => x ^^^ y) a b

/-- One AES-128 key-expansion step: derive the next 16-byte round key. -/
def aesNextKey (k : List Nat) (rcon : Nat) : List Nat :=
  let w3 := k.drop 12
  let t := [aesSbox (w3.getD 1 0) ^^^ rcon, aesSbox (w3.getD 2 0), aesSbox (w3.getD 3 0),
    aesSbox (w3.getD 0 0)]
  let n0 := xorBytes (k.take 4) t
  let n1 := xorBytes ((k.drop 4).take 4) n0
  let n2 := xorBytes ((k.drop 8).take 4) n1
  let n3 := xorBytes ((k.drop 12).take 4) n2
  n0 ++ n1 ++ n2 ++ n3

/-- The 11 AES-128 round keys. -/
def aesRoundKeys (key : List Nat) : List (List Nat) :=
  (AES_RCON.foldl (fun p r => ((p.1 ++ [aesNextKey p.2 r]), aesNextKey p.2 r)) ([key], key)).1

/-- AES `ShiftRows` on the flat column-major 16-byte state. -/
def aesShiftRows (s : List Nat) : List Nat :=
  [0, 5, 10, 15, 4, 9, 14, 3, 8, 13, 2, 7, 12, 1, 6, 11].map (fun i => s.getD i 0)

/-- AES `MixColumns` on one 4-byte column. -/
def aesMixColumn (a : List Nat) : List Nat :=
  let a0 := a.getD 0 0
  let a1 := a.getD 1 0
  let a2 := a.getD 2 0
  let a3 := a.getD 3 0
  [xtime a0 ^^^ xtime a1 ^^^ a1 ^^^ a2 ^^^ a3,
   a0 ^^^ xtime a1 ^^^ xtime a2 ^^^ a2 ^^^ a3,
   a0 ^^^ a1 ^^^ xtime a2 ^^^ xtime a3 ^^^ a3,
   xtime a0 ^^^ a0 ^^^ a1 ^^^ a2 ^^^ xtime a3]

/-- AES `MixColumns` on the 16-byte state. -/
def aesMixColumns (s : List Nat) : List Nat :=
  aesMixColumn (s.take 4) ++ aesMixColumn ((s.drop 4).take 4) ++
    aesMixColumn ((s.drop 8).take 4) ++ aesMixColumn ((s.drop 12).take 4)

/-- AES-128 ECB single-block encryption (`AES.new(key, AES.MODE_ECB).encrypt`):
initial round-key addition, 9 full rounds, final round without `MixColumns`. -/
def aesEncryptBlock (key block : List Nat) : List Nat :=
  let ks := aesRoundKeys key
  let s0 := xorBytes block (ks.getD 0 [])
  let s9 := (List.range 9).foldl
    (fun s i => xorBytes (aesMixColumns (aesShiftRows (s.map aesSbox))) (ks.getD (i + 1) []))
    s0
  xorBytes (aesShiftRows (s9.map aesSbox)) (ks.getD 10 [])


/-- `RemoteEncoder._checksum` / `RuiXinEncoder._checksum`: `sum(buffer) & 0xFF`. -/
def sumChecksum (buffer : List Nat) : Nat := buffer.sum % 256

/-- `RemoteEncoder.decrypt`: reject unless the last byte is the additive
checksum of the rest. -/
def remote4Decrypt (buffer : List Nat) : Option (List Nat) :=
  if sumChecksum (buffer.take (buffer.length - 1)) = buffer.getD (buffer.length - 1) 0
  then some buffer else Option.none

/-- `RemoteEncoder.encrypt`: append the additive checksum. -/
def remote4Encrypt (buffer : List Nat) : List Nat := buffer ++ [sumChecksum buffer]

/-- `RemoteEncoder.convert_to_enc`: `cmd = decoded[5] & 0x3F`,
`arg1 = decoded[5] & 0xC0`, 4-byte little-endian id. -/
def remote4ConvertToEnc (decoded : List Nat) : Option BleAdvEncCmd × Option BleAdvConfig :=
  (some { cmd := ((decoded.getD 5 0 &&& 0x3F : Nat) : ℤ),
          arg0 := ((decoded.getD 0 0 : Nat) : ℤ),
          arg1 := ((decoded.getD 5 0 &&& 0xC0 : Nat) : ℤ) },
   some { id := fromBytesLE ((decoded.drop 1).take 4), tx_count := decoded.getD 6 0 })

/-- `RemoteEncoder.convert_from_enc`: `[arg0, *uid, cmd | arg1, tx_count]`. -/
def remote4ConvertFromEnc (e : BleAdvEncCmd) (conf : BleAdvConfig) : List Nat :=
  [e.arg0.toNat] ++ toBytesLE conf.id 4 ++ [e.cmd.toNat ||| e.arg1.toNat, conf.tx_count]

/-- `ZhimeiEncoderV0._checksum`: additive checksum that also sums the codec's
header bytes. -/
def zm0Checksum (hdr buffer : List Nat) : Nat := (buffer.sum + hdr.sum) % 256

/-- `ZhimeiEncoderV0.decrypt`. -/
def zm0Decrypt (hdr : List Nat) (buffer : List Nat) : Option (List Nat) :=
  if zm0Checksum hdr (buffer.take (buffer.length - 1)) = buffer.getD (buffer.length - 1) 0
  then some buffer else Option.none

/-- `ZhimeiEncoderV0.encrypt`. -/
def zm0Encrypt (hdr : List Nat) (buffer : List Nat) : List Nat :=
  buffer ++ [zm0Checksum hdr buffer]

/-- `ZhimeiEncoderV0.convert_to_enc`. -/
def zm0ConvertToEnc (decoded : List Nat) : Option BleAdvEncCmd × Option BleAdvConfig :=
  (some { cmd := ((decoded.getD 4 0 : Nat) : ℤ), arg0 := ((decoded.getD 5 0 : Nat) : ℤ),
          arg1 := ((decoded.getD 6 0 : Nat) : ℤ), arg2 := ((decoded.getD 7 0 : Nat) : ℤ) },
   some { index := decoded.getD 0 0, tx_count := decoded.getD 1 0,
          id := fromBytesLE ((decoded.drop 2).take 2) })

/-- `ZhimeiEncoderV0.convert_from_enc`. -/
def zm0ConvertFromEnc (e : BleAdvEncCmd) (conf : BleAdvConfig) : List Nat :=
  [conf.index, conf.tx_count] ++ toBytesLE conf.id 2 ++
    [e.cmd.toNat, e.arg0.toNat, e.arg1.toNat, e.arg2.toNat]

/-- `ZhimeiEncoderV1.MATRIX`. -/
def ZM_MATRIX : List Nat := [29, 4, 17, 32, 152, 117, 40, 70, 11, 175, 67, 172, 214, 190, 137, 142]

/-- `ZhimeiEncoderV1._apply_matrix`: XOR with the pivot selected by the nibble
XOR of byte 1, then add the keyed matrix byte mod 256. -/
def zmApplyMatrix (buffer : List Nat) (key : Nat) : List Nat :=
  let pivot := ZM_MATRIX.getD (((buffer.getD 1 0 >>> 4) &&& 15) ^^^ (buffer.getD 1 0 &&& 15)) 0
  buffer.enum.map (fun ix => ((ix.2 ^^^ pivot) + ZM_MATRIX.getD ((key + ix.1) &&& 0xF) 0 + 256) % 256)

/-- `ZhimeiEncoderV1._unapply_matrix`: recover the pivot from byte 0 (pivoted
from the plain `0xFF`), subtract the keyed matrix byte mod 256 (Python's `&
0xFF` on a possibly negative int, hence the `ℤ` detour) and XOR it back. -/
def zmUnapplyMatrix (buffer : List Nat) (key : Nat) : List Nat :=
  let pivot := (((buffer.getD 0 0 : ℤ) - (ZM_MATRIX.getD (key &&& 0xF) 0 : ℤ)) % 256).toNat ^^^ 0xFF
  buffer.enum.map (fun ix =>
    (((ix.2 : ℤ) - (ZM_MATRIX.getD ((key + ix.1) &&& 0xF) 0 : ℤ) + 256) % 256).toNat ^^^ pivot)

/-- `ZhimeiEncoderV1.encrypt` (parameterised by the codec's
`_header_start_pos`): inner matrix on bytes 9.. unless the command byte is
`0xB4`, little-endian `crc_hqx` over all but the last byte, outer matrix with
key 6, and the `buffer[2 : 2 + header_start_pos]` bytes re-emitted in front. -/
def zmV1Encrypt (hsp : Nat) (buffer : List Nat) : List Nat :=
  let b1 := if buffer.getD 7 0 ≠ 0xB4
    then buffer.take 9 ++ zmApplyMatrix (buffer.drop 9) 10 else buffer
  let b2 := b1 ++ toBytesLE (crcHqx (b1.take (b1.length - 1)) 0) 2
  (b2.drop 2).take hsp ++ zmApplyMatrix b2 6

/-- `ZhimeiEncoderV1.decrypt`: outer matrix inverse, CRC check, inner matrix
inverse unless the command byte is `0xB4`, then the constant/duplicate checks
including the pre-header duplication check. -/
def zmV1Decrypt (hsp : Nat) (buffer : List Nat) : Option (List Nat) :=
  let decoded := zmUnapplyMatrix (buffer.drop hsp) 6
  if crcHqx (decoded.take (decoded.length - 3)) 0 = fromBytesLE (decoded.drop (decoded.length - 2))
  then
    let d2 := decoded.take (decoded.length - 2)
    let d3 := if d2.getD 7 0 ≠ 0xB4 then d2.take 9 ++ zmUnapplyMatrix (d2.drop 9) 10 else d2
    if d3.getD 2 0 = d3.getD 10 0 ∧ d3.getD 0 0 = 0xFF ∧ d3.getD 9 0 = 0xFF
        ∧ isEqBuf (buffer.take hsp) (d3.drop 2)
    then some d3 else (Option.none)
  else Option.none

/-- `ZhimeiEncoderV1.convert_to_enc`. -/
def zmV1ConvertToEnc (decoded : List Nat) : Option BleAdvEncCmd × Option BleAdvConfig :=
  (some { cmd := ((decoded.getD 7 0 : Nat) : ℤ), arg0 := ((decoded.getD 11 0 : Nat) : ℤ),
          arg1 := ((decoded.getD 12 0 : Nat) : ℤ), arg2 := ((decoded.getD 13 0 : Nat) : ℤ) },
   some { index := decoded.getD 8 0, tx_count := decoded.getD 2 0, seed := decoded.getD 1 0,
          id := fromBytesLE ((decoded.drop 3).take 4) })

/-- `ZhimeiEncoderV1.convert_from_enc`: 14-byte layout with `0xFF` guards at 0
and 9, the tx_count duplicated at 2 and 10, and the id masked to 16 bits. -/
def zmV1ConvertFromEnc (e : BleAdvEncCmd) (conf : BleAdvConfig) : List Nat :=
  [0xFF, conf.seed, conf.tx_count] ++ toBytesLE (conf.id &&& 0xFFFF) 4 ++
    [e.cmd.toNat, conf.index, 0xFF, conf.tx_count, e.arg0.toNat, e.arg1.toNat, e.arg2.toNat]

/-- `ZhimeiEncoderV2._crc16`: `crc_hqx` over the bit-reversed buffer with seed
`0xFFFF`, then reflect and complement the result. -/
def zmV2Crc16 (buffer : List Nat) : Nat :=
  let pre := crcHqx (reverse_all buffer) 0xFFFF
  0xFFFF ^^^ ((((reverse_byte (pre &&& 0xFF)) <<< 8) &&& 0xFF00) ||| (reverse_byte (pre >>> 8) &&& 0xFF))

/-- `ZhimeiEncoderV2.decrypt`: whiten with `0x48`, CRC check on the last two
little-endian bytes. -/
def zmV2Decrypt (buffer : List Nat) : Option (List Nat) :=
  let d := whiten buffer 0x48
  if zmV2Crc16 (d.take (d.length - 2)) = fromBytesLE (d.drop (d.length - 2))
  then some (d.take (d.length - 2)) else Option.none

/-- `ZhimeiEncoderV2.encrypt`: append the CRC little-endian and whiten with
`0x48`. -/
def zmV2Encrypt (buffer : List Nat) : List Nat :=
  whiten (buffer ++ toBytesLE (zmV2Crc16 buffer) 2) 0x48

/-- `ZhimeiEncoderV2.convert_to_enc`: XOR-unpivot with
`decoded[0]^decoded[1]^decoded[6]^decoded[7]` and read the fields. -/
def zmV2ConvertToEnc (decoded : List Nat) : Option BleAdvEncCmd × Option BleAdvConfig :=
  let pivot := decoded.getD 0 0 ^^^ decoded.getD 1 0 ^^^ decoded.getD 6 0 ^^^ decoded.getD 7 0
  let d := decoded.map (fun x => x ^^^ pivot)
  (some { cmd := ((d.getD 4 0 : Nat) : ℤ), arg0 := ((d.getD 1 0 : Nat) : ℤ),
          arg1 := ((d.getD 3 0 : Nat) : ℤ),
          arg2 := ((d.getD 7 0 ^^^ d.getD 1 0 : Nat) : ℤ) },
   some { index := d.getD 2 0, tx_count := d.getD 6 0 ^^^ d.getD 0 0,
          id := fromBytesLE [d.getD 5 0, d.getD 0 0] })

/-- `ZhimeiEncoderV2.convert_from_enc`: 8-byte layout then XOR-pivot. -/
def zmV2ConvertFromEnc (e : BleAdvEncCmd) (conf : BleAdvConfig) : List Nat :=
  let uid := toBytesLE (conf.id &&& 0xFFFF) 2
  let d := [uid.getD 1 0, e.arg0.toNat, conf.index, e.arg1.toNat, e.cmd.toNat, uid.getD 0 0,
    conf.tx_count ^^^ uid.getD 1 0, e.arg0.toNat ^^^ e.arg2.toNat]
  let pivot := d.getD 0 0 ^^^ d.getD 1 0 ^^^ d.getD 6 0 ^^^ d.getD 7 0
  d.map (fun x => x ^^^ pivot)

/-- `AgarceEncoder.MATRIX`. -/
def AG_MATRIX : List Nat := [0xAA, 0xBB, 0xCC, 0xDD, 0x5A, 0xA5, 0xA5, 0x5A]

/-- `AgarceEncoder._crypt`: XOR with the matrix byte and with one of the two
seed halves; the Python float test `((i + 1) / 2 % 2) < 1` selects the low
half exactly when `⌊(i + 1) / 2⌋` is even (the fractional part is `0` or
`0.5`, so it never crosses `1`). -/
def agCrypt (buffer : List Nat) (seed : Nat) : List Nat :=
  buffer.enum.map (fun ix =>
    ix.2 ^^^ AG_MATRIX.getD (ix.1 % 8) 0 ^^^
      (if ((ix.1 + 1) / 2) % 2 = 0 then seed &&& 0xFF else seed >>> 8))

/-- `AgarceEncoder.decrypt`: outer additive checksum, XOR-matrix decrypt with
the seed from bytes 1-2, inner checksum, the group-command guard, then the
pair/operational nibble unscrambling. -/
def agDecrypt (buffer : List Nat) : Option (List Nat) :=
  if sumChecksum (buffer.take (buffer.length - 1)) = buffer.getD (buffer.length - 1) 0 then
    let decoded := agCrypt ((buffer.drop 3).take (buffer.length - 4))
      (fromBytesLE ((buffer.drop 1).take 2))
    if sumChecksum (decoded.take (decoded.length - 1)) = decoded.getD (decoded.length - 1) 0 then
      let isPair := decoded.getD 8 0 &&& 0xF0 = 0
      if isPair ∧ decoded.getD 12 0 = 0x00 then Option.none
      else
        let pfx := if isPair
          then buffer.getD 0 0 ||| ((decoded.getD 10 0 &&& 0x0F) <<< 4)
          else buffer.getD 0 0
        let d1 := if isPair
          then ((decoded.set 12 (((decoded.getD 12 0 &&& 0x0F) <<< 4) + decoded.getD 11 0)).set
            11 0).set 10 0
          else decoded.set 12 (((decoded.getD 12 0 &&& 0x0F) <<< 4) + (decoded.getD 8 0 &&& 0x0F))
        some ([pfx, buffer.getD 1 0, buffer.getD 2 0] ++ d1.take (d1.length - 1))
    else Option.none
  else Option.none

/-- `AgarceEncoder.encrypt`: scramble the pair/operational nibbles, append the
inner checksum, XOR-matrix encrypt with the seed from bytes 1-2, and append
the outer checksum. -/
def agEncrypt (buffer : List Nat) : List Nat :=
  let decoded := buffer.drop 3
  let isPair := decoded.getD 8 0 = 0x00
  let pfx := if isPair then buffer.getD 0 0 &&& 0x0F else buffer.getD 0 0
  let d1 := if isPair
    then ((decoded.set 10 ((buffer.getD 0 0 &&& 0xF0) >>> 4)).set
        11 (decoded.getD 12 0 &&& 0x0F)).set 12 (((decoded.getD 12 0 >>> 4) &&& 0x0F) + 0xC0)
    else (decoded.set 8 (decoded.getD 8 0 ||| (decoded.getD 12 0 &&& 0x0F))).set
        12 ((decoded.getD 12 0 >>> 4) &&& 0x0F)
  let d2 := d1 ++ [sumChecksum d1]
  let d3 := [pfx, buffer.getD 1 0, buffer.getD 2 0] ++
    agCrypt d2 (fromBytesLE ((buffer.drop 1).take 2))
  d3 ++ [sumChecksum d3]

/-- `AgarceEncoder.convert_to_enc`: `cmd = decoded[10] & 0xF0`, 4-byte
little-endian id, seed from bytes 0-1, `app_restart_count` read back from
byte 3. -/
def agConvertToEnc (decoded : List Nat) : Option BleAdvEncCmd × Option BleAdvConfig :=
  (some { cmd := ((decoded.getD 10 0 &&& 0xF0 : Nat) : ℤ),
          arg0 := ((decoded.getD 11 0 : Nat) : ℤ), arg1 := ((decoded.getD 12 0 : Nat) : ℤ),
          arg2 := ((decoded.getD 13 0 : Nat) : ℤ) },
   some { tx_count := decoded.getD 2 0, app_restart_count := decoded.getD 3 0,
          id := fromBytesLE ((decoded.drop 6).take 4), index := decoded.getD 14 0,
          seed := fromBytesLE (decoded.take 2) })

/-- `AgarceEncoder.convert_from_enc`. -/
def agConvertFromEnc (e : BleAdvEncCmd) (conf : BleAdvConfig) : List Nat :=
  toBytesLE conf.seed 2 ++ [conf.tx_count, conf.app_restart_count, 0x00, 0x10] ++
    toBytesLE conf.id 4 ++ [e.cmd.toNat, e.arg0.toNat, e.arg1.toNat, e.arg2.toNat, conf.index]

/-- `MantraEncoder.decrypt` = `MantraEncoder.encrypt`: 16-bit LFSR whitening of
bytes 5.. keyed by the big-endian word at bytes 2-3 (the whitening is an XOR
keystream, so the two directions coincide). -/
def mantraCrypt (buffer : List Nat) : List Nat :=
  buffer.take 5 ++ whiten16 (buffer.drop 5) (fromBytesBE ((buffer.drop 2).take 2))

/-- `MantraEncoder.convert_to_enc`: fixed byte `0x06` at 2, family tag at 4-7,
index packed in the top nibble of the big-endian tx word, 2-byte big-endian
id, and all five args carried. -/
def mantraConvertToEnc (decoded : List Nat) : Option BleAdvEncCmd × Option BleAdvConfig :=
  if decoded.getD 2 0 = 0x06 ∧ isEqBuf [0x12, 0x34, 0x56, 0x78] (decoded.drop 4) then
    let ct := fromBytesBE (decoded.take 2)
    (some { cmd := ((decoded.getD 3 0 : Nat) : ℤ), param := ((decoded.getD 10 0 : Nat) : ℤ),
            arg0 := ((decoded.getD 11 0 : Nat) : ℤ), arg1 := ((decoded.getD 12 0 : Nat) : ℤ),
            arg2 := ((decoded.getD 13 0 : Nat) : ℤ), arg3 := ((decoded.getD 14 0 : Nat) : ℤ),
            arg4 := ((decoded.getD 15 0 : Nat) : ℤ) },
     some { tx_count := ct &&& 0x0FFF, index := (ct &&& 0xF000) >>> 12,
            id := fromBytesBE ((decoded.drop 8).take 2) })
  else (Option.none, Option.none)

/-- `MantraEncoder.convert_from_enc`. -/
def mantraConvertFromEnc (e : BleAdvEncCmd) (conf : BleAdvConfig) : List Nat :=
  toBytesBE (conf.tx_count + (conf.index <<< 12)) 2 ++ [0x06, e.cmd.toNat] ++
    [0x12, 0x34, 0x56, 0x78] ++ toBytesBE conf.id 2 ++
    [e.param.toNat, e.arg0.toNat, e.arg1.toNat, e.arg2.toNat, e.arg3.toNat, e.arg4.toNat]

/-- `LeEncoder.XBOXES`. -/
def LE_XBOXES : List Nat :=
  [0xCB, 0x6A, 0x95, 0x8D, 0xB6, 0x7B, 0x35, 0x5A, 0x6E, 0x49, 0x5C, 0x85, 0x37, 0x3C, 0xA6, 0x88]

/-- `LeEncoder._checksum`: `((sum(buffer) + 1) & 0xFF) ^ 0xFF`. -/
def leChecksum (buffer : List Nat) : Nat := ((buffer.sum + 1) % 256) ^^^ 0xFF

/-- `LeEncoder.encode`: XOR with the XBOX byte selected by the low nibble of
the salt. -/
def leEncode (buffer : List Nat) (salt : Nat) : List Nat :=
  buffer.map (fun x => x ^^^ LE_XBOXES.getD (salt &&& 15) 0)

/-- `LeEncoder.decrypt`: length byte check (rejecting a negative zero-padding
length, computed as a Python int), `0x01` at 1, zero padding at the tail
(Python's `buffer[-zero_len:]` is the whole buffer when `zero_len = 0`, but
`is_eq_buf` truncates the compared side to the empty reference, so the check
passes either way, as modelled), XOR-decode of the salted region, then the
`0xFE` and checksum checks. -/
def leDecrypt (buffer : List Nat) : Option (List Nat) :=
  let dataLen := buffer.getD 0 0
  if (21 : ℤ) - (dataLen : ℤ) - 1 < 0 then Option.none
  else
    let zeroLen := 21 - dataLen - 1
    if buffer.getD 1 0 = 0x01
        ∧ isEqBuf (List.replicate zeroLen 0x00) (buffer.drop (buffer.length - zeroLen)) then
      let decodedBase := (buffer.drop 2).take 4 ++
        leEncode ((buffer.drop 6).take (dataLen + 1 - 6)) (buffer.getD 2 0)
      if decodedBase.getD 4 0 = 0xFE
          ∧ leChecksum (decodedBase.take (decodedBase.length - 1)) =
            decodedBase.getD (decodedBase.length - 1) 0
      then some (decodedBase.take (decodedBase.length - 1))
      else Option.none
    else Option.none

/-- `LeEncoder.encrypt`: frame as `[len + 2, 0x01, *buffer, checksum]`,
XOR-encode from byte 6 salted by the first id byte, and zero-pad to 21. -/
def leEncrypt (buffer : List Nat) : List Nat :=
  let data := [buffer.length + 2, 0x01] ++ buffer ++ [leChecksum buffer]
  data.take 6 ++ leEncode (data.drop 6) (data.getD 2 0) ++
    List.replicate (21 - data.length) 0x00

/-- `LeEncoder.convert_to_enc`: args beyond `param` (the arg count) read as 0. -/
def leConvertToEnc (decoded : List Nat) : Option BleAdvEncCmd × Option BleAdvConfig :=
  let param := decoded.getD 8 0
  (some { cmd := ((decoded.getD 7 0 : Nat) : ℤ), param := (param : ℤ),
          arg0 := if param < 1 then 0 else ((decoded.getD 9 0 : Nat) : ℤ),
          arg1 := if param < 2 then 0 else ((decoded.getD 10 0 : Nat) : ℤ),
          arg2 := if param < 3 then 0 else ((decoded.getD 11 0 : Nat) : ℤ) },
   some { id := fromBytesLE (decoded.take 4), index := decoded.getD 5 0,
          tx_count := decoded.getD 6 0 })

/-- `LeEncoder.convert_from_enc`: only the first `param` args are emitted. -/
def leConvertFromEnc (e : BleAdvEncCmd) (conf : BleAdvConfig) : List Nat :=
  toBytesLE conf.id 4 ++ [0xFE, conf.index, conf.tx_count, e.cmd.toNat, e.param.toNat] ++
    ([e.arg0.toNat, e.arg1.toNat, e.arg2.toNat].take e.param.toNat)

/-- `RuiXinEncoder.decrypt`: un-roll bytes 2..15 by subtracting the first byte
plus the index mod 256 (Python's nonnegative `%`), additive checksum over
bytes 2..14 against byte 15, and keep the first 10 bytes. -/
def rxDecrypt (buffer : List Nat) : Option (List Nat) :=
  let b := buffer.take 2 ++ ((buffer.drop 2).take 14).enum.map (fun ix =>
    (((ix.2 : ℤ) - (buffer.getD 0 0 : ℤ) - (ix.1 : ℤ) + 256) % 256).toNat)
  if sumChecksum ((b.drop 2).take 13) = b.getD 15 0 then some (b.take 10) else Option.none

/-- `RuiXinEncoder.encrypt` (parameterised by the class `PADDING`): pad, stamp
the checksum at byte 15, roll bytes 2..15 by adding the first byte plus the
index mod 256, and keep any padding tail beyond byte 16. -/
def rxEncrypt (padding : List Nat) (buffer : List Nat) : List Nat :=
  let b0 := buffer ++ padding
  let b1 := b0.set 15 (sumChecksum ((b0.drop 2).take 13))
  b1.take 2 ++ ((b1.drop 2).take 14).enum.map (fun ix =>
    (ix.2 + b1.getD 0 0 + ix.1 + 256) % 256) ++ b1.drop 16

/-- `RuiXinEncoder.convert_to_enc`. -/
def rxConvertToEnc (decoded : List Nat) : Option BleAdvEncCmd × Option BleAdvConfig :=
  (some { cmd := ((decoded.getD 6 0 : Nat) : ℤ), arg0 := ((decoded.getD 7 0 : Nat) : ℤ),
          arg1 := ((decoded.getD 8 0 : Nat) : ℤ), arg2 := ((decoded.getD 9 0 : Nat) : ℤ) },
   some { seed := decoded.getD 0 0, tx_count := decoded.getD 1 0,
          id := fromBytesLE ((decoded.drop 2).take 4) })

/-- `RuiXinEncoder.convert_from_enc`. -/
def rxConvertFromEnc (e : BleAdvEncCmd) (conf : BleAdvConfig) : List Nat :=
  [conf.seed, conf.tx_count] ++ toBytesLE conf.id 4 ++
    [e.cmd.toNat, e.arg0.toNat, e.arg1.toNat, e.arg2.toNat]

/-- `RwEncoder._crc16`: `crc_hqx` with the fixed seed `0x696B`. -/
def rwCrc16 (buffer : List Nat) : Nat := crcHqx buffer 0x696B

/-- `RwEncoder.decrypt`: unwhiten and bit-reverse, check the fixed bytes at 8,
9, 10, 12, 14 and the big-endian CRC, recover the pivot
`decoded[11]^decoded[13]^decoded[15]` and unscramble the 11-byte readable
buffer. -/
def rwDecrypt (buffer : List Nat) : Option (List Nat) :=
  let d := reverse_all (whiten buffer 0x69)
  if d.getD 8 0 = 0x4C ∧ d.getD 9 0 = 0xFF ∧ d.getD 10 0 = 0x00 ∧ d.getD 12 0 = 0x01
      ∧ d.getD 14 0 = 0x02
      ∧ fromBytesBE (d.drop (d.length - 2)) = rwCrc16 (d.take (d.length - 2)) then
    let p := d.getD 11 0 ^^^ d.getD 13 0 ^^^ d.getD 15 0
    some [d.getD 0 0 ^^^ p, d.getD 1 0 ^^^ p,
      d.getD 2 0 ^^^ p ^^^ d.getD 1 0, d.getD 3 0 ^^^ p ^^^ d.getD 1 0,
      d.getD 4 0 ^^^ p ^^^ d.getD 1 0, d.getD 5 0 ^^^ p ^^^ d.getD 2 0,
      d.getD 6 0 ^^^ p ^^^ d.getD 2 0, d.getD 7 0 ^^^ p ^^^ d.getD 2 0,
      d.getD 11 0 ^^^ p ^^^ d.getD 5 0, d.getD 13 0 ^^^ p ^^^ d.getD 5 0, p]
  else Option.none

/-- `RwEncoder.encrypt`: XOR-scramble the 11-byte readable buffer into the
16-byte frame with fixed bytes, append the big-endian CRC, bit-reverse and
whiten with `0x69`. -/
def rwEncrypt (buffer : List Nat) : List Nat :=
  let b12 := buffer.getD 1 0 ^^^ buffer.getD 2 0
  let encoded := [buffer.getD 0 0 ^^^ buffer.getD 10 0, buffer.getD 1 0 ^^^ buffer.getD 10 0,
    buffer.getD 2 0 ^^^ buffer.getD 1 0, buffer.getD 3 0 ^^^ buffer.getD 1 0,
    buffer.getD 4 0 ^^^ buffer.getD 1 0, buffer.getD 5 0 ^^^ b12 ^^^ buffer.getD 10 0,
    buffer.getD 6 0 ^^^ b12 ^^^ buffer.getD 10 0, buffer.getD 7 0 ^^^ b12 ^^^ buffer.getD 10 0,
    0x4C, 0xFF, 0x00, buffer.getD 8 0 ^^^ b12, 0x01, buffer.getD 9 0 ^^^ b12, 0x02,
    buffer.getD 8 0 ^^^ buffer.getD 9 0 ^^^ buffer.getD 10 0]
  whiten (reverse_all (encoded ++ toBytesBE (rwCrc16 encoded) 2)) 0x69

/-- `RwEncoder.convert_to_enc`. -/
def rwConvertToEnc (decoded : List Nat) : Option BleAdvEncCmd × Option BleAdvConfig :=
  (some { cmd := ((decoded.getD 0 0 : Nat) : ℤ), arg0 := ((decoded.getD 7 0 : Nat) : ℤ),
          arg1 := ((decoded.getD 8 0 : Nat) : ℤ), arg2 := ((decoded.getD 9 0 : Nat) : ℤ) },
   some { id := fromBytesLE ((decoded.drop 2).take 4), index := decoded.getD 6 0,
          tx_count := decoded.getD 1 0, seed := decoded.getD 10 0 })

/-- `RwEncoder.convert_from_enc`. -/
def rwConvertFromEnc (e : BleAdvEncCmd) (conf : BleAdvConfig) : List Nat :=
  [e.cmd.toNat, conf.tx_count] ++ toBytesLE conf.id 4 ++
    [conf.index, e.arg0.toNat, e.arg1.toNat, e.arg2.toNat, conf.seed]

/-- `FanLampEncoderV2.XBOXES` (128-byte substitution table). -/
def FL_XBOXES : List Nat :=
  [
   0xB7, 0xFD, 0x93, 0x26, 0x36, 0x3F, 0xF7, 0xCC, 0x34, 0xA5, 0xE5, 0xF1, 0x71, 0xD8, 0x31, 0x15,
   0x04, 0xC7, 0x23, 0xC3, 0x18, 0x96, 0x05, 0x9A, 0x07, 0x12, 0x80, 0xE2, 0xEB, 0x27, 0xB2, 0x75,
   0xD0, 0xEF, 0xAA, 0xFB, 0x43, 0x4D, 0x33, 0x85, 0x45, 0xF9, 0x02, 0x7F, 0x50, 0x3C, 0x9F, 0xA8,
   0x51, 0xA3, 0x40, 0x8F, 0x92, 0x9D, 0x38, 0xF5, 0xBC, 0xB6, 0xDA, 0x21, 0x10, 0xFF, 0xF3, 0xD2,
   0xE0, 0x32, 0x3A, 0x0A, 0x49, 0x06, 0x24, 0x5C, 0xC2, 0xD3, 0xAC, 0x62, 0x91, 0x95, 0xE4, 0x79,
   0xE7, 0xC8, 0x37, 0x6D, 0x8D, 0xD5, 0x4E, 0xA9, 0x6C, 0x56, 0xF4, 0xEA, 0x65, 0x7A, 0xAE, 0x08,
   0xE1, 0xF8, 0x98, 0x11, 0x69, 0xD9, 0x8E, 0x94, 0x9B, 0x1E, 0x87, 0xE9, 0xCE, 0x55, 0x28, 0xDF,
   0x8C, 0xA1, 0x89, 0x0D, 0xBF, 0xE6, 0x42, 0x68, 0x41, 0x99, 0x2D, 0x0F, 0xB0, 0x54, 0xBB, 0x16]

/-- `FanLampEncoderV1Base` prefix: `[0xAA, 0x98, 0x43, 0xAF, 0x0B, 0x46, 0x46,
0x46]`, optionally with a supplementary byte inserted in front. -/
def flV1Prefix (supp : Nat) : List Nat :=
  if supp ≠ 0 then supp :: [0xAA, 0x98, 0x43, 0xAF, 0x0B, 0x46, 0x46, 0x46]
  else [0xAA, 0x98, 0x43, 0xAF, 0x0B, 0x46, 0x46, 0x46]

/-- `FanLampEncoderV1Base._crc2`: the forced constant when set, else `crc_hqx`
with the prefix-derived seed. -/
def flCrc2 (forced seed2 : Nat) (buffer : List Nat) : Nat :=
  if forced ≠ 0 then forced else crcHqx buffer seed2

/-- `FanLampEncoderV1Base.decrypt`: bit-reverse the unwhitened buffer
(never rejects). -/
def flV1Decrypt (buffer : List Nat) : Option (List Nat) :=
  some (reverse_all (whiten buffer 0x6F))

/-- `FanLampEncoderV1Base.encrypt`: whiten the bit-reversed buffer. -/
def flV1Encrypt (buffer : List Nat) : List Nat :=
  whiten (reverse_all buffer) 0x6F

/-- `FanLampEncoderV1._get_arg2`: `arg2` itself for command `0x22`, the codec
constant for pairing (`0x28`) or -- when `arg2_only_on_pair` is off -- for any
command outside `[0x12, 0x13, 0x1E, 0x1F]`, else 0. -/
def flGetArg2 (a2 : Nat) (aoop : Bool) (cmd arg2 : Nat) : Nat :=
  if cmd = 0x22 then arg2
  else if cmd = 0x28 ∨ (aoop = false ∧ cmd ∉ [0x12, 0x13, 0x1E, 0x1F]) then a2
  else 0

/-- `FanLampEncoderV1.convert_to_enc`: big-endian seed at 10-11, CRC over the
first 12 bytes keyed by the complemented seed, the `_get_arg2` consistency
check, the `r2` seed-echo byte at 9, the optional CRC2 at 14-15, then group
index / id / tx reconstruction and the command-dependent argument layout
(pairing re-checks the id bytes at 3-4). -/
def flV1ConvertToEnc (a2 : Nat) (aoop xor1 wc2 : Bool) (forced seed2 : Nat)
    (decoded : List Nat) : Option BleAdvEncCmd × Option BleAdvConfig :=
  let seed := fromBytesBE ((decoded.drop 10).take 2)
  let seed8 := seed &&& 0xFF
  if crcHqx (decoded.take 12) (seed ^^^ 0xFFFF) = fromBytesBE ((decoded.drop 12).take 2)
      ∧ flGetArg2 a2 aoop (decoded.getD 0 0) (decoded.getD 5 0) = decoded.getD 5 0
      ∧ (if xor1 then seed8 ^^^ 1 else seed8) = decoded.getD 9 0
      ∧ (wc2 = false ∨ flCrc2 forced seed2 (decoded.take (decoded.length - 2)) =
          fromBytesBE ((decoded.drop 14).take 2)) then
    let groupIndex := fromBytesLE ((decoded.drop 1).take 2)
    let conf : BleAdvConfig :=
      { index := (groupIndex &&& 0x0F00) >>> 8,
        id := (groupIndex &&& 0xF0FF) ||| ((seed8 ^^^ decoded.getD 8 0) <<< 16),
        tx_count := decoded.getD 6 0, seed := seed }
    if decoded.getD 0 0 ≠ 0x28 then
      (some { cmd := ((decoded.getD 0 0 : Nat) : ℤ), param := ((decoded.getD 7 0 : Nat) : ℤ),
              arg0 := ((decoded.getD 3 0 : Nat) : ℤ), arg1 := ((decoded.getD 4 0 : Nat) : ℤ),
              arg2 := if decoded.getD 0 0 = 0x22 then ((decoded.getD 5 0 : Nat) : ℤ) else 0 },
       some conf)
    else if conf.id &&& 0xFF = decoded.getD 3 0 ∧ (conf.id >>> 8) &&& 0xF0 = decoded.getD 4 0 then
      (some { cmd := ((decoded.getD 0 0 : Nat) : ℤ),
              param := if a2 = 0 then 0 else ((decoded.getD 7 0 : Nat) : ℤ) },
       some conf)
    else (Option.none, Option.none)
  else (Option.none, Option.none)

/-- `FanLampEncoderV1.convert_from_enc`: the 12-byte layout (group index with
the index nibble, pairing id bytes, `_get_arg2`, tx, param-or-header byte, the
two seed echo bytes, big-endian seed), big-endian CRC, then either the CRC2 or
a trailing `0xAA`. -/
def flV1ConvertFromEnc (a2 : Nat) (aoop xor1 wc2 : Bool) (forced seed2 header0 : Nat)
    (e : BleAdvEncCmd) (conf : BleAdvConfig) : List Nat :=
  let isPair := e.cmd = 0x28
  let obuf := [e.cmd.toNat] ++
    toBytesLE ((conf.id &&& 0xF0FF) ||| ((conf.index &&& 0x0F) <<< 8)) 2 ++
    [if isPair then conf.id &&& 0xFF else e.arg0.toNat] ++
    [if isPair then (conf.id >>> 8) &&& 0xF0 else e.arg1.toNat] ++
    [flGetArg2 a2 aoop e.cmd.toNat e.arg2.toNat] ++
    [conf.tx_count] ++
    [if a2 = 0 ∧ isPair then header0 else e.param.toNat] ++
    [if xor1 then (conf.seed &&& 0xFF) ^^^ 1
     else (conf.seed &&& 0xFF) ^^^ ((conf.id >>> 16) &&& 0xFF)] ++
    [if xor1 then (conf.seed &&& 0xFF) ^^^ 1 else conf.seed &&& 0xFF] ++
    toBytesBE conf.seed 2
  let obuf2 := obuf ++ toBytesBE (crcHqx obuf (conf.seed ^^^ 0xFFFF)) 2
  if wc2 then obuf2 ++ toBytesBE (flCrc2 forced seed2 obuf2) 2 else obuf2 ++ [0xAA]

/-- `FanLampEncoderV1b.convert_to_enc`: CRC2-only check over all but the last
two bytes, 2-byte little-endian id, args read straight from the layout. -/
def flV1bConvertToEnc (forced seed2 : Nat) (decoded : List Nat) :
    Option BleAdvEncCmd × Option BleAdvConfig :=
  if flCrc2 forced seed2 (decoded.take (decoded.length - 2)) =
      fromBytesBE ((decoded.drop 14).take 2) then
    (some { cmd := ((decoded.getD 0 0 : Nat) : ℤ), param := ((decoded.getD 7 0 : Nat) : ℤ),
            arg0 := ((decoded.getD 3 0 : Nat) : ℤ), arg1 := ((decoded.getD 4 0 : Nat) : ℤ),
            arg2 := ((decoded.getD 5 0 : Nat) : ℤ) },
     some { id := fromBytesLE ((decoded.drop 1).take 2) })
  else (Option.none, Option.none)

/-- `FanLampEncoderV1b.convert_multi_from_enc`: four fixed sub-frames sharing
the `[cmd, uid, arg0, arg1, arg2]` base, each closed by its CRC2. -/
def flV1bConvertMulti (forced seed2 : Nat) (e : BleAdvEncCmd) (conf : BleAdvConfig) :
    List (List Nat) :=
  let uid := toBytesLE conf.id 2
  let revUid := toBytesBE conf.id 2
  let base := [e.cmd.toNat] ++ uid ++ [e.arg0.toNat, e.arg1.toNat, e.arg2.toNat]
  let buffers := [
    base ++ [0x00, e.param.toNat, 0x02, 0x00, 0x00, 0x00, 0x01, 0x00],
    base ++ [0x01, e.param.toNat] ++ revUid ++ [0x00, 0x00, 0x01, 0x01],
    base ++ [0x02, e.param.toNat] ++ revUid ++ [0x00, 0x00, 0x02, 0x00],
    base ++ [0x03, e.param.toNat] ++ revUid ++ [0x00, 0x00, 0x03, 0x00]]
  buffers.map (fun buf => buf ++ toBytesBE (flCrc2 forced seed2 buf) 2)

/-- `FanLampEncoderV2._whiten`: XOR with the XBOX byte indexed by
`((seed + i + 9) & 0x1F) + salt` (`salt = (prefix[1] & 3) << 5`) and with the
seed byte. -/
def flV2Whiten (salt : Nat) (buffer : List Nat) (seed : Nat) : List Nat :=
  buffer.enum.map (fun ix =>
    FL_XBOXES.getD (((seed + ix.1 + 9) &&& 0x1F) + salt) 0 ^^^ seed ^^^ ix.2)

/-- `FanLampEncoderV2._sign`: AES-ECB over the 16-byte buffer with the
seed/tx-derived key, truncated to the first two little-endian bytes, `0xFFFF`
when that is zero. -/
def flV2Sign (buffer : List Nat) (txCount seed : Nat) : Nat :=
  let key := [seed &&& 0xFF, (seed >>> 8) &&& 0xFF, txCount, 0x0D, 0xBF, 0xE6, 0x42, 0x68,
    0x41, 0x99, 0x2D, 0x0F, 0xB0, 0x54, 0xBB, 0x16]
  let sign := fromBytesLE ((aesEncryptBlock key buffer).take 2)
  if sign ≠ 0 then sign else 0xFFFF

/-- `FanLampEncoderV2.decrypt`: seed and CRC from the tail, XBOX-unwhiten bytes
`2..-5`, check the CRC and the signature (required zero without `with_sign`),
and push the seed bytes onto the end of the decoded buffer. -/
def flV2Decrypt (salt : Nat) (withSign : Bool) (buffer : List Nat) : Option (List Nat) :=
  let seed := fromBytesLE ((buffer.drop (buffer.length - 4)).take 2)
  let crcMsg := fromBytesLE (buffer.drop (buffer.length - 2))
  let decodedBase := buffer.take 2 ++
    flV2Whiten salt ((buffer.drop 2).take (buffer.length - 7)) (seed &&& 0xFF)
  let sign := fromBytesLE (decodedBase.drop (decodedBase.length - 2))
  if crcHqx (buffer.take (buffer.length - 2)) (seed ^^^ 0xFFFF) = crcMsg
      ∧ (withSign = false ∨
          flV2Sign ((decodedBase.drop 1).take 16) (decodedBase.getD 3 0) seed = sign)
      ∧ (withSign = true ∨ sign = 0)
  then some (decodedBase.take (decodedBase.length - 2) ++
    (buffer.drop (buffer.length - 4)).take 2)
  else Option.none

/-- `FanLampEncoderV2.encrypt`: pop the seed from the tail, append the
signature (or zero) and a zero byte, XBOX-whiten from byte 2, then append the
little-endian seed and CRC. -/
def flV2Encrypt (salt : Nat) (withSign : Bool) (decoded : List Nat) : List Nat :=
  let seed := fromBytesLE (decoded.drop (decoded.length - 2))
  let obuf := decoded.take (decoded.length - 2)
  let obuf2 := obuf ++
    toBytesLE (if withSign then flV2Sign ((obuf.drop 1).take 16) (obuf.getD 3 0) seed else 0) 2
  let obuf3 := obuf2 ++ [0x00]
  let obuf4 := obuf3.take 2 ++ flV2Whiten salt (obuf3.drop 2) (seed &&& 0xFF)
  obuf4 ++ toBytesLE seed 2 ++
    toBytesLE (crcHqx (obuf4 ++ toBytesLE seed 2) (seed ^^^ 0xFFFF)) 2

/-- `FanLampEncoderV2.convert_to_enc`: device type check at 1-2, 4-byte
little-endian id, seed read back from the two pushed tail bytes. -/
def flV2ConvertToEnc (dt : Nat) (decoded : List Nat) :
    Option BleAdvEncCmd × Option BleAdvConfig :=
  if dt = fromBytesLE ((decoded.drop 1).take 2) then
    (some { cmd := ((decoded.getD 8 0 : Nat) : ℤ), param := ((decoded.getD 10 0 : Nat) : ℤ),
            arg0 := ((decoded.getD 11 0 : Nat) : ℤ), arg1 := ((decoded.getD 12 0 : Nat) : ℤ),
            arg2 := ((decoded.getD 13 0 : Nat) : ℤ) },
     some { seed := fromBytesLE (decoded.drop (decoded.length - 2)),
            tx_count := decoded.getD 0 0, id := fromBytesLE ((decoded.drop 3).take 4),
            index := decoded.getD 7 0 })
  else (Option.none, Option.none)

/-- `FanLampEncoderV2.convert_from_enc`. -/
def flV2ConvertFromEnc (dt : Nat) (e : BleAdvEncCmd) (conf : BleAdvConfig) : List Nat :=
  [conf.tx_count] ++ toBytesLE dt 2 ++ toBytesLE conf.id 4 ++
    [conf.index, e.cmd.toNat, 0x00, e.param.toNat, e.arg0.toNat, e.arg1.toNat, e.arg2.toNat] ++
    toBytesLE conf.seed 2

/-- Builder mirroring `FanLampEncoderV1(arg2, aoop, xor1, supp, forced)` with
the `.id/.fid --, .header --, .ble --` chain (`_len = 24`,
`_seed_max = 0xFFF5`; `with_crc2 = (forced != 0) or (supp == 0)`; the CRC2
seed is `crc_hqx` of prefix bytes 1-5 with seed `0xFFFF`). -/
def flV1Codec (cid : String) (a2 : Nat) (aoop xor1 : Bool) (supp forced : Nat)
    (hdr : List Nat) (adf bt : Nat) : BleAdvCodec :=
  let pfx := flV1Prefix supp
  let seed2 := crcHqx ((pfx.drop 1).take 5) 0xFFFF
  let wc2 := forced != 0 || supp == 0
  { codec_id := cid, len := 24, seed_max := 0xFFF5, header := hdr, pfx := pfx,
    ble_type := bt, ad_flag := adf,
    decrypt := flV1Decrypt, encrypt := flV1Encrypt,
    convert_to_enc := flV1ConvertToEnc a2 aoop xor1 wc2 forced seed2,
    convert_from_enc := flV1ConvertFromEnc a2 aoop xor1 wc2 forced seed2 (hdr.getD 0 0) }

/-- Builder mirroring `FanLampEncoderV2(device_type, with_sign)` with the
builder chain (`_len = 24`, `_seed_max = 0xFFF5`,
`salt = (prefix[1] & 3) << 5`). -/
def flV2Codec (cid : String) (dt : Nat) (withSign : Bool) (hdr pfx : List Nat)
    (adf bt : Nat) : BleAdvCodec :=
  let salt := (pfx.getD 1 0 &&& 3) <<< 5
  { codec_id := cid, len := 24, seed_max := 0xFFF5, header := hdr, pfx := pfx,
    ble_type := bt, ad_flag := adf,
    decrypt := flV2Decrypt salt withSign, encrypt := flV2Encrypt salt withSign,
    convert_to_enc := flV2ConvertToEnc dt, convert_from_enc := flV2ConvertFromEnc dt }

/-- Registry entry `fanlamp_pro_v1/r0` (`FanLampEncoderV1b()`): multi-adv
encoder, `_seed_max` stays at the class default 0. -/
def flV1bCodec : BleAdvCodec :=
  let pfx := flV1Prefix 0
  let seed2 := crcHqx ((pfx.drop 1).take 5) 0xFFFF
  { codec_id := "fanlamp_pro_v1/r0", len := 24, header := [0xF0, 0xFF], pfx := pfx,
    ble_type := 0xFF, ad_flag := 0x19, multi_advs := true,
    decrypt := flV1Decrypt, encrypt := flV1Encrypt,
    convert_to_enc := flV1bConvertToEnc 0 seed2,
    convert_from_enc := fun _ _ => [],
    convert_multi := some (flV1bConvertMulti 0 seed2) }

/-- `fanlamp.FLCODECS` (14 entries, constructor arguments and builder chains
flattened). -/
def FLCODECS : List BleAdvCodec :=
  [flV1Codec "fanlamp_pro_v1" 0x83 false false 0 0 [0x77, 0xF8] 0x19 0x03,
   flV2Codec "fanlamp_pro_v2" 0x0400 false [0xF0, 0x08] [0x10, 0x80, 0x00] 0x19 0x03,
   flV2Codec "fanlamp_pro_v3" 0x0400 true [0xF0, 0x08] [0x20, 0x80, 0x00] 0x19 0x03,
   flV2Codec "fanlamp_pro_v3/s1" 0x0400 true [0xF0, 0x08] [0x20, 0x81, 0x00] 0x19 0x03,
   flV2Codec "fanlamp_pro_v3/s2" 0x0400 true [0xF0, 0x08] [0x20, 0x82, 0x00] 0x19 0x03,
   flV2Codec "fanlamp_pro_v3/s3" 0x0400 true [0xF0, 0x08] [0x20, 0x83, 0x00] 0x19 0x03,
   flV2Codec "fanlamp_pro_vi3" 0x0400 true [0xF0, 0x08] [0x30, 0x80, 0x00] 0x19 0x03,
   flV2Codec "fanlamp_pro_vi3/s1" 0x0400 true [0xF0, 0x08] [0x30, 0x81, 0x00] 0x19 0x03,
   flV2Codec "fanlamp_pro_vi3/s2" 0x0400 true [0xF0, 0x08] [0x30, 0x82, 0x00] 0x19 0x03,
   flV2Codec "fanlamp_pro_vi3/s3" 0x0400 true [0xF0, 0x08] [0x30, 0x83, 0x00] 0x19 0x03,
   flV1Codec "remote_v1" 0x83 false true 0 0x9372 [0x56, 0x55, 0x18, 0x87, 0x52] 0x00 0xFF,
   flV1bCodec,
   flV2Codec "remote_v2" 0x0400 false [0xF0, 0x08] [0x10, 0x00, 0x56] 0x02 0x16,
   flV2Codec "remote_v3" 0x0400 true [0xF0, 0x08] [0x10, 0x00, 0x56] 0x02 0x16]

/-- `fanlamp.LSCODECS` (24 entries). -/
def LSCODECS : List BleAdvCodec :=
  [flV1Codec "lampsmart_pro_v1" 0x81 true false 0 0 [0x77, 0xF8] 0x19 0x03,
   flV2Codec "lampsmart_pro_v2" 0x0100 false [0xF0, 0x08] [0x10, 0x80, 0x00] 0x19 0x03,
   flV2Codec "lampsmart_pro_v3" 0x0100 true [0xF0, 0x08] [0x30, 0x80, 0x00] 0x19 0x03,
   flV2Codec "lampsmart_pro_v3/s1" 0x0100 true [0xF0, 0x08] [0x30, 0x81, 0x00] 0x19 0x03,
   flV2Codec "lampsmart_pro_v3/s2" 0x0100 true [0xF0, 0x08] [0x30, 0x82, 0x00] 0x19 0x03,
   flV2Codec "lampsmart_pro_v3/s3" 0x0100 true [0xF0, 0x08] [0x30, 0x83, 0x00] 0x19 0x03,
   flV1Codec "lampsmart_pro_vi1" 0x81 true false 0x55 0 [0xF9, 0x08] 0x19 0x03,
   flV2Codec "lampsmart_pro_vi3" 0x0100 true [0xF0, 0x08] [0x21, 0x80, 0x00] 0x19 0x03,
   flV2Codec "lampsmart_pro_vi3/s1" 0x0100 true [0xF0, 0x08] [0x21, 0x81, 0x00] 0x19 0x03,
   flV2Codec "lampsmart_pro_vi3/s2" 0x0100 true [0xF0, 0x08] [0x21, 0x82, 0x00] 0x19 0x03,
   flV2Codec "lampsmart_pro_vi3/s3" 0x0100 true [0xF0, 0x08] [0x21, 0x83, 0x00] 0x19 0x03,
   flV2Codec "lampsmart_pro_v3/s0_1" 0x0100 true [0xF0, 0x08] [0x20, 0x80, 0x00] 0x19 0x03,
   flV2Codec "lampsmart_pro_v3/s1_1" 0x0100 true [0xF0, 0x08] [0x20, 0x81, 0x00] 0x19 0x03,
   flV2Codec "lampsmart_pro_v3/s2_1" 0x0100 true [0xF0, 0x08] [0x20, 0x82, 0x00] 0x19 0x03,
   flV2Codec "lampsmart_pro_v3/s3_1" 0x0100 true [0xF0, 0x08] [0x20, 0x83, 0x00] 0x19 0x03,
   flV1Codec "lampsmart_pro_v1/r1" 0x00 false true 0 0x9372 [0x62, 0x55, 0x18, 0x87, 0x52] 0x00 0xFF,
   flV2Codec "lampsmart_pro_v2/r1" 0x0100 false [0xF0, 0x08] [0x10, 0x00, 0x62] 0x02 0x16,
   flV2Codec "lampsmart_pro_v3/r1" 0x0100 true [0xF0, 0x08] [0x10, 0x00, 0x62] 0x02 0x16,
   flV1Codec "other_v1b" 0x81 true true 0x55 0 [0xF9, 0x08] 0x02 0x16,
   flV1Codec "other_v1a" 0x81 true true 0 0 [0x77, 0xF8] 0x02 0x03,
   flV2Codec "other_v2" 0x0100 false [0xF0, 0x08] [0x10, 0x80, 0x00] 0x19 0x16,
   flV2Codec "other_v3" 0x0100 true [0xF0, 0x08] [0x10, 0x80, 0x00] 0x19 0x16,
   flV2Codec "remote_v21" 0x0100 false [0xF0, 0x08] [0x10, 0x00, 0x56] 0x02 0x16,
   flV2Codec "remote_v31" 0x0100 true [0xF0, 0x08] [0x10, 0x00, 0x56] 0x02 0x16]

/-- Builder mirroring `ZhimeiEncoderV0` entries (`_len = 9`, additive checksum
that folds in the header bytes, `footer` empty). -/
def zm0Codec (cid : String) (hdr : List Nat) (adf bt : Nat) : BleAdvCodec :=
  { codec_id := cid, len := 9, header := hdr, ble_type := bt, ad_flag := adf,
    decrypt := zm0Decrypt hdr, encrypt := zm0Encrypt hdr,
    convert_to_enc := zm0ConvertToEnc, convert_from_enc := zm0ConvertFromEnc }

/-- Builder mirroring `ZhimeiEncoderV1` entries (`_len = 16`,
`_seed_max = 0xF5`, footer `10.11.12.13.14.15`, header start position
parameterised). -/
def zm1Codec (cid : String) (hdr : List Nat) (hsp adf bt : Nat) : BleAdvCodec :=
  { codec_id := cid, len := 16, seed_max := 0xF5, header := hdr, header_start_pos := hsp,
    footer := [0x10, 0x11, 0x12, 0x13, 0x14, 0x15], ble_type := bt, ad_flag := adf,
    decrypt := zmV1Decrypt hsp, encrypt := zmV1Encrypt hsp,
    convert_to_enc := zmV1ConvertToEnc, convert_from_enc := zmV1ConvertFromEnc }

/-- Registry entry `zhimei_v2` (`ZhimeiEncoderV2`, `_len = 13`, footer
`10..19`, prefix `33.AA.55`). -/
def zhimei_v2 : BleAdvCodec :=
  { codec_id := "zhimei_v2", len := 13, header := [0xF9, 0x08, 0x49],
    footer := [0x10, 0x11, 0x12, 0x13, 0x14, 0x15, 0x16, 0x17, 0x18, 0x19],
    pfx := [0x33, 0xAA, 0x55], ble_type := 0x03, ad_flag := 0x1A,
    decrypt := zmV2Decrypt, encrypt := zmV2Encrypt,
    convert_to_enc := zmV2ConvertToEnc, convert_from_enc := zmV2ConvertFromEnc }

/-- `zhimei.CODECS` (8 entries). -/
def ZHIMEI_CODECS : List BleAdvCodec :=
  [zm0Codec "zhimei_fan_v0" [0x55] 0x19 0x03,
   zm1Codec "zhimei_fan_v1" [0x48, 0x46, 0x4B, 0x4A] 0 0x1A 0x03,
   zm1Codec "zhimei_v1" [0x48, 0x46, 0x4B, 0x4A] 0 0x1A 0x03,
   zhimei_v2,
   zm0Codec "zhimei_fan_vr0" [0x55] 0 0,
   zm1Codec "zhimei_fan_vr1" [0x48, 0x46, 0x4B, 0x4A] 3 0x1A 0xFF,
   zm1Codec "zhimei_fan_v1b" [0x00, 0x00, 0x00, 0x48, 0x46, 0x4B, 0x4A] 0 0x1A 0xFF,
   zm1Codec "zhimei_v1b" [0x58, 0x55, 0x18, 0x48, 0x46, 0x4B, 0x4A] 0 0x1A 0xFF]

/-- Builder mirroring `AgarceEncoder` entries (`_len = 18`,
`_seed_max = 0xFFF5`). -/
def agarceCodec (cid : String) (pfx : List Nat) : BleAdvCodec :=
  { codec_id := cid, len := 18, seed_max := 0xFFF5, header := [0xF9, 0x09], pfx := pfx,
    ble_type := 0xFF, ad_flag := 0x19,
    decrypt := agDecrypt, encrypt := agEncrypt,
    convert_to_enc := agConvertToEnc, convert_from_enc := agConvertFromEnc }

/-- `agarce.CODECS` (2 entries). -/
def AGARCE_CODECS : List BleAdvCodec :=
  [agarceCodec "agarce_v3" [0x83], agarceCodec "agarce_v4" [0x84]]

/-- Registry entry `remote_v4` (`RemoteEncoder`, `_len = 8`). -/
def remote_v4 : BleAdvCodec :=
  { codec_id := "remote_v4", len := 8, header := [0xF0, 0xFF], ble_type := 0xFF,
    ad_flag := 0x1A,
    decrypt := remote4Decrypt, encrypt := remote4Encrypt,
    convert_to_enc := remote4ConvertToEnc, convert_from_enc := remote4ConvertFromEnc }

/-- `remotes.CODECS` (1 entry). -/
def REMOTES_CODECS : List BleAdvCodec := [remote_v4]

/-- Builder mirroring `MantraEncoder` entries (`_len = 18`,
`_tx_max = 0x0FFF`). -/
def mantraCodec (cid : String) (pfx footer : List Nat) (bt : Nat) : BleAdvCodec :=
  { codec_id := cid, len := 18, tx_max := 0x0FFF, header := [0x4E, 0x6F], pfx := pfx,
    footer := footer, ble_type := bt, ad_flag := 0x1A,
    decrypt := fun b => some (mantraCrypt b), encrypt := mantraCrypt,
    convert_to_enc := mantraConvertToEnc, convert_from_enc := mantraConvertFromEnc }

/-- `mantra.CODECS` (4 entries). -/
def MANTRA_CODECS : List BleAdvCodec :=
  [mantraCodec "mantra_v0" [0x72, 0x0E] [] 0xFF,
   mantraCodec "mantra_v0/ios" [0x72, 0x0E] [0x04, 0x03, 0x02, 0x01] 0x05,
   mantraCodec "mantra_v1" [0x72, 0x0F] [] 0xFF,
   mantraCodec "mantra_v1/ios" [0x72, 0x0F] [0x04, 0x03, 0x02, 0x01] 0x05]

/-- Registry entry `lelight` (`LeEncoder`, `_len = 21`). -/
def lelight : BleAdvCodec :=
  { codec_id := "lelight", len := 21, header := [0xFF, 0xFF, 0xFF, 0xFF], ble_type := 0xFF,
    ad_flag := 0x1A,
    decrypt := leDecrypt, encrypt := leEncrypt,
    convert_to_enc := leConvertToEnc, convert_from_enc := leConvertFromEnc }

/-- `le.CODECS` (1 entry). -/
def LE_CODECS : List BleAdvCodec := [lelight]

/-- Builder mirroring the two RuiXin entries (`_seed_max = 0xF5`; the remote
subclass only changes `_len` and the padding). -/
def ruixinCodec (cid : String) (l : Nat) (padding hdr : List Nat) : BleAdvCodec :=
  { codec_id := cid, len := l, seed_max := 0xF5, header := hdr, ble_type := 0xFF,
    ad_flag := 0x00,
    decrypt := rxDecrypt, encrypt := rxEncrypt padding,
    convert_to_enc := rxConvertToEnc, convert_from_enc := rxConvertFromEnc }

/-- `ruixin.CODECS` (2 entries). -/
def RUIXIN_CODECS : List BleAdvCodec :=
  [ruixinCodec "ruixin_v0" 16 [0x00, 0x00, 0x00, 0x00, 0x00, 0x00]
     [0xFF, 0xFF, 0x01, 0x02, 0x03, 0x04, 0x69, 0x72, 0x36, 0x0E],
   ruixinCodec "ruixin_v0/r1" 19 [0x07, 0x08, 0x09, 0x10, 0x11, 0x12, 0x13, 0x14, 0x15]
     [0x00, 0x00, 0x00, 0x52, 0x58, 0x4B, 0x69, 0x72, 0x36, 0x0E]]

/-- Builder mirroring the two RW entries (`_len = 18`, `_seed_max = 0xF5`,
common header). -/
def rwCodec (cid : String) (bt : Nat) : BleAdvCodec :=
  { codec_id := cid, len := 18, seed_max := 0xF5,
    header := [0xDD, 0xB2, 0xDA, 0x6C, 0x9F, 0x01, 0x7A, 0x34], ble_type := bt,
    ad_flag := 0x1A,
    decrypt := rwDecrypt, encrypt := rwEncrypt,
    convert_to_enc := rwConvertToEnc, convert_from_enc := rwConvertFromEnc }

/-- `rw.CODECS` (2 entries). -/
def RW_CODECS : List BleAdvCodec :=
  [rwCodec "rwlight_mix" 0xFF, rwCodec "rwlight_mix/ios" 0x03]

/-- `codecs.__init__.get_codec_list()`: the full registry, concatenated in the
source order (`FLCODECS`, `LSCODECS`, zhijia's `CODECS` as `ZHIJIA_CODECS`,
then zhimei, agarce, remotes, mantra, le, ruixin, rw). -/
def get_codec_list : List BleAdvCodec :=
  FLCODECS ++ LSCODECS ++ CODECS ++ ZHIMEI_CODECS ++ AGARCE_CODECS ++ REMOTES_CODECS ++
    MANTRA_CODECS ++ LE_CODECS ++ RUIXIN_CODECS ++ RW_CODECS


end BleAdv

namespace BleAdv

theorem whiten_length (l : List Nat) (r : Nat) : (whiten l r).length = l.length := by
  induction l generalizing r with
  | nil => rfl
  | cons v rest ih => simp [whiten, ih]

theorem whiten_whiten (l : List Nat) (r : Nat) : whiten (whiten l r) r = l := by
  induction l generalizing r with
  | nil => rfl
  | cons v rest ih =>
    simp only [whiten]
    rw [Nat.xor_assoc, Nat.xor_self, Nat.xor_zero, ih]

theorem toBytesLE_length (n k : Nat) : (toBytesLE n k).length = k := by
  induction k generalizing n with
  | zero => rfl
  | succ k ih => simp [toBytesLE, ih]

theorem fromBytesLE_toBytesLE_two (n : Nat) (h : n < 65536) :
    fromBytesLE (toBytesLE n 2) = n := by
  simp only [toBytesLE, fromBytesLE]
  omega

theorem fromBytesLE_toBytesLE_three (n : Nat) (h : n < 16777216) :
    fromBytesLE (toBytesLE n 3) = n := by
  simp only [toBytesLE, fromBytesLE]
  omega

theorem xor_lt_65536 {a b : Nat} (ha : a < 65536) (hb : b < 65536) : a ^^^ b < 65536 :=
  Nat.xor_lt_two_pow (n := 16) ha hb

theorem xorFold_cons (b : Nat) (rest : List Nat) : xorFold (b :: rest) = b ^^^ xorFold rest := by
  have haux : ∀ (l : List Nat) (a : Nat), l.foldl (fun x y => x ^^^ y) a = a ^^^ xorFold l := by
    intro l
    induction l with
    | nil => intro a; simp [xorFold]
    | cons c cs ih =>
      intro a
      simp only [xorFold, List.foldl_cons, Nat.zero_xor] at *
      rw [ih (a ^^^ c), ih c, ← Nat.xor_assoc]
  simp only [xorFold, List.foldl_cons, Nat.zero_xor]
  exact haux rest b

theorem xorFold_map_xor (l : List Nat) (q : Nat) :
    xorFold (l.map (fun x => x ^^^ q)) =
      xorFold l ^^^ (if l.length % 2 = 0 then 0 else q) := by
  induction l with
  | nil => simp [xorFold]
  | cons b rest ih =>
    rw [List.map_cons, xorFold_cons, xorFold_cons, ih, List.length_cons]
    rcases Nat.even_or_odd rest.length with h | h
    · have h0 : rest.length % 2 = 0 := Nat.even_iff.mp h
      have h1 : ¬((rest.length + 1) % 2 = 0) := by omega
      simp only [if_pos h0, if_neg h1]
      rw [Nat.xor_zero, Nat.xor_assoc, Nat.xor_assoc]
      congr 1
      exact Nat.xor_comm _ _
    · have h0 : ¬(rest.length % 2 = 0) := by have := Nat.odd_iff.mp h; omega
      have h1 : (rest.length + 1) % 2 = 0 := by have := Nat.odd_iff.mp h; omega
      simp only [if_neg h0, if_pos h1]
      rw [Nat.xor_zero, Nat.xor_assoc]
      congr 1
      rw [Nat.xor_comm (xorFold rest) q, ← Nat.xor_assoc, Nat.xor_self, Nat.zero_xor]

theorem pivotSel_map_xor (S : List Nat) (buf : List Nat) (q : Nat) :
    pivotSel S (buf.map (fun x => x ^^^ q)) = (pivotSel S buf).map (fun x => x ^^^ q) := by
  simp only [pivotSel, List.enum_map, List.filter_map, List.map_map]
  rw [List.filter_congr (l := buf.enum)
    (q := fun ix => decide (ix.1 ∈ S)) (fun ix _ => by rcases ix with ⟨i, x⟩; simp [Prod.map])]
  exact List.map_congr_left (fun ix _ => by rcases ix with ⟨i, x⟩; rfl)

theorem pivotSel_length (S : List Nat) (buf : List Nat) :
    (pivotSel S buf).length =
      ((List.range buf.length).filter (fun i => i ∈ S)).length := by
  simp only [pivotSel, List.length_map, ← List.countP_eq_length_filter]
  rw [show (List.range buf.length) = buf.enum.map Prod.fst from (List.enum_map_fst buf).symm,
    List.countP_map]
  rfl

theorem range_filter_length_stable (S : List Nat) (k : Nat) (hS : ∀ i ∈ S, i < k) :
    ∀ n, k ≤ n →
      ((List.range n).filter (fun i => i ∈ S)).length =
        ((List.range k).filter (fun i => i ∈ S)).length := by
  intro n hn
  induction n, hn using Nat.le_induction with
  | base => rfl
  | succ n hn ih =>
    rw [List.range_succ, List.filter_append, List.length_append]
    have hno : decide (n ∈ S) = false := by
      simp only [decide_eq_false_iff_not]
      intro hmem
      exact absurd (hS n hmem) (by omega)
    simp [hno, ih]

theorem pivotValue_map_xor (S : List Nat) (xf : Bool) (buf : List Nat) (q : Nat)
    (heven : (pivotSel S buf).length % 2 = 0) :
    pivotValue S xf (buf.map (fun x => x ^^^ q)) = pivotValue S xf buf := by
  have hfold : xorFold (pivotSel S (buf.map (fun x => x ^^^ q))) = xorFold (pivotSel S buf) := by
    rw [pivotSel_map_xor, xorFold_map_xor, if_pos heven, Nat.xor_zero]
  simp only [pivotValue, hfold]

theorem pivot_pivot (S : List Nat) (xf : Bool) (buf : List Nat)
    (heven : (pivotSel S buf).length % 2 = 0) :
    pivot S xf (pivot S xf buf) = buf := by
  have hv : pivotValue S xf (pivot S xf buf) = pivotValue S xf buf :=
    pivotValue_map_xor S xf buf _ heven
  show (pivot S xf buf).map (fun x => x ^^^ pivotValue S xf (pivot S xf buf)) = buf
  rw [hv]
  show (buf.map (fun x => x ^^^ pivotValue S xf buf)).map
      (fun x => x ^^^ pivotValue S xf buf) = buf
  rw [List.map_map]
  have hc : ((fun x => x ^^^ pivotValue S xf buf) ∘ (fun x => x ^^^ pivotValue S xf buf)) =
      fun x : Nat => x := by
    funext x
    simp only [Function.comp]
    rw [Nat.xor_assoc, Nat.xor_self, Nat.xor_zero]
  rw [hc, List.map_id']

theorem pivotSel_even_of_length (S : List Nat) (k : Nat) (hS : ∀ i ∈ S, i < k)
    (hk : ((List.range k).filter (fun i => i ∈ S)).length % 2 = 0)
    (buf : List Nat) (h : k ≤ buf.length) : (pivotSel S buf).length % 2 = 0 := by
  rw [pivotSel_length, range_filter_length_stable S k hS buf.length h]
  exact hk

theorem parseLoop_nil (fuel : Nat) (st : Nat × List Nat) (rem : List Nat)
    (h : ¬ 2 < rem.length) : parseLoop fuel st rem = st := by
  cases fuel with
  | zero => rfl
  | succ fuel => simp [parseLoop, h]

theorem parseLoop_wrap (fuel : Nat) (hf : 0 < fuel) (st : Nat × List Nat) (t : Nat)
    (d : List Nat) (ht : t ∈ adTypes) (hd : 0 < d.length) :
    parseLoop fuel st ((d.length + 1) :: t :: d) = (t, d) := by
  cases fuel with
  | zero => omega
  | succ fuel =>
    rw [parseLoop]
    have hlen : 2 < ((d.length + 1) :: t :: d).length := by simp; omega
    rw [if_pos hlen]
    have hhead : ((d.length + 1) :: t :: d).headI = d.length + 1 := rfl
    have hgd : ((d.length + 1) :: t :: d).getD 1 0 = t := rfl
    have hnogt : ¬ (((d.length + 1) :: t :: d).headI > ((d.length + 1) :: t :: d).length) := by
      simp [hhead]
    rw [if_neg hnogt]
    simp only [hgd, if_pos ht, hhead]
    have hdrop2 : (((d.length + 1) :: t :: d).drop 2) = d := rfl
    have htake : d.take (d.length + 1 - 1) = d := by
      simp
    have hdropall : (((d.length + 1) :: t :: d).drop (d.length + 1 + 1)) = [] := by
      exact List.drop_eq_nil_of_le (by simp)
    rw [hdrop2, htake, hdropall, parseLoop_nil _ _ _ (by simp)]

theorem parseLoop_fst (fuel : Nat) :
    ∀ (rem : List Nat) (st : Nat × List Nat),
      (parseLoop fuel st rem).1 = st.1 ∨ (parseLoop fuel st rem).1 ∈ adTypes := by
  induction fuel with
  | zero =>
    intro rem st
    exact Or.inl rfl
  | succ fuel ih =>
    intro rem st
    by_cases h2 : 2 < rem.length
    · rw [parseLoop]
      rw [if_pos h2]
      by_cases hgt : rem.headI > rem.length
      · rw [if_pos hgt]
        exact Or.inl rfl
      · rw [if_neg hgt]
        by_cases hty : rem.getD 1 0 ∈ adTypes
        · rw [if_pos hty]
          rcases ih (rem.drop (rem.headI + 1))
              (rem.getD 1 0, (rem.drop 2).take (rem.headI - 1)) with heq | hmem
          · exact Or.inr (by rw [heq]; exact hty)
          · exact Or.inr hmem
        · rw [if_neg hty]
          exact ih (rem.drop (rem.headI + 1)) st
    · rw [parseLoop_nil _ st rem h2]
      exact Or.inl rfl

theorem hRaw_idem (b : List Nat) : hRaw (hRaw b) = hRaw b := by
  rcases hp : parseLoop b.length (0, b) b with ⟨t, d⟩
  by_cases h0 : t = 0
  · have hb : hRaw b = b := by
      simp [hRaw, pyFromRaw, toRaw, hp, h0]
    rw [hb]
    exact hb
  · have hmem : t ∈ adTypes := by
      rcases parseLoop_fst b.length b (0, b) with h | h
      · rw [hp] at h
        exact absurd h h0
      · rw [hp] at h
        exact h
    have hb : hRaw b = (d.length + 1) :: t :: d := by
      simp [hRaw, pyFromRaw, toRaw, hp, h0]
    rw [hb]
    cases d with
    | nil =>
      have hb2 : hRaw [1, t] = [1, t] := by
        simp [hRaw, pyFromRaw, toRaw, parseLoop_nil 2 (0, [1, t]) [1, t] (by simp)]
      simpa using hb2
    | cons x xs =>
      have hparse := parseLoop_wrap ((x :: xs).length + 2) (by omega)
        (0, ((x :: xs).length + 1) :: t :: x :: xs) t (x :: xs) hmem (by simp)
      simp only [List.length_cons] at hparse
      simp [hRaw, pyFromRaw, toRaw, hparse, h0]
end BleAdv

namespace BleAdv

/-- C3: composing `to_raw` after `FromRaw` is idempotent on every buffer produced
by `to_raw`: for every advertisement (any `ble_type`, `raw`, `ad_flag`), with
`h(b) = FromRaw(b).to_raw()`, `h(h(a.to_raw())) = h(a.to_raw())`. -/
theorem toRaw_fromRaw_idempotent (t : Nat) (raw : List Nat) (flag : Nat) :
    hRaw (hRaw (toRaw ⟨t, raw, flag⟩)) = hRaw (toRaw ⟨t, raw, flag⟩) :=
  hRaw_idem _

/-- C10: for each concrete Zhijia encoder class (V0 pivoting `{0,1,6,7}` without
the parity XOR, V1/remote pivoting `{2,4,9,12,13,15}` and V2 pivoting
`{3,7,11,12,13,15}` with it), `pivot` is an involution on every buffer long
enough to contain all pivot indices: the index sets have even cardinality, so
XOR-folding the pivoted bytes reproduces the same pivot value. -/
theorem zhijia_pivot_involution :
    (∀ buf : List Nat, 8 ≤ buf.length → zjPivotV0 (zjPivotV0 buf) = buf)
    ∧ (∀ buf : List Nat, 16 ≤ buf.length → zjPivotV1 (zjPivotV1 buf) = buf)
    ∧ (∀ buf : List Nat, 16 ≤ buf.length → zjPivotV2 (zjPivotV2 buf) = buf) := by
  refine ⟨fun buf h => ?_, fun buf h => ?_, fun buf h => ?_⟩
  · exact pivot_pivot _ _ _
      (pivotSel_even_of_length ZJ_PIVOT_V0 8 (by decide) (by decide) buf h)
  · exact pivot_pivot _ _ _
      (pivotSel_even_of_length ZJ_PIVOT_V1 16 (by decide) (by decide) buf h)
  · exact pivot_pivot _ _ _
      (pivotSel_even_of_length ZJ_PIVOT_V2 16 (by decide) (by decide) buf h)

/-- Witness for C10 at concrete buffers of minimal length. -/
theorem zhijia_pivot_involution_witness :
    zjPivotV0 (zjPivotV0 [10, 20, 30, 40, 50, 60, 70, 80]) = [10, 20, 30, 40, 50, 60, 70, 80]
    ∧ zjPivotV1 (zjPivotV1 (List.range 16)) = List.range 16
    ∧ zjPivotV2 (zjPivotV2 (List.range 16)) = List.range 16 :=
  ⟨zhijia_pivot_involution.1 _ (by decide),
   zhijia_pivot_involution.2.1 _ (by decide),
   zhijia_pivot_involution.2.2 _ (by decide)⟩

set_option maxRecDepth 8000 in
/-- C2: decoding the raw advertisement
`02.01.1A.11.FF.F9.08.49.89.E4.E1.BB.27.77.8C.12.41.C9.21.1B.20` (AD parsing via
`FromRaw`, then `decode_adv` on the `zhijia_v0` codec) yields
`EncCmd{cmd: 0xB4}` and `Config{id: 0x5324, index: 1, tx_count: 24, seed: 0}`,
and the `zhijia_v0` translator table maps that command to the single
`EntAttr{device_0, changed: [cmd], {cmd: "pair"}}`. -/
theorem zhijia_v0_pair_scenario :
    decodeAdv zhijia_v0 (pyFromRaw [0x02, 0x01, 0x1A, 0x11, 0xFF, 0xF9, 0x08, 0x49, 0x89,
        0xE4, 0xE1, 0xBB, 0x27, 0x77, 0x8C, 0x12, 0x41, 0xC9, 0x21, 0x1B, 0x20]) =
      (some { cmd := 0xB4 },
       some { id := 0x00005324, index := 1, tx_count := 24, app_restart_count := 1, seed := 0 })
    ∧ encToEnt TRANS_V0 { cmd := 0xB4 } =
      [{ chg_attrs := ["cmd"], attrs := [("cmd", AttrVal.str "pair")],
         base_type := "device", index := 0 }] := by
  decide

theorem getField_setField_self (e : BleAdvEncCmd) (n : String) (v : ℤ)
    (h : n ∈ encFieldNames) : getField (setField e n v) n = v := by
  fin_cases h <;> simp [getField, setField]

theorem getField_setField_other (e : BleAdvEncCmd) (n1 n2 : String) (v : ℤ)
    (h1 : n1 ∈ encFieldNames) (h2 : n2 ∈ encFieldNames) (hne : n1 ≠ n2) :
    getField (setField e n1 v) n2 = getField e n2 := by
  fin_cases h1 <;> fin_cases h2 <;> simp_all [getField, setField]

theorem attrsGet_setAttr_self (l : List (String × AttrVal)) (k : String) (v : AttrVal) :
    attrsGet (setAttr l k v) k = v := by
  induction l with
  | nil => simp [setAttr, attrsGet, List.lookup]
  | cons p rest ih =>
    rcases p with ⟨k1, v1⟩
    by_cases hk : k1 = k
    · simp [setAttr, hk, attrsGet, List.lookup]
    · simp only [setAttr, if_neg hk]
      have hk2 : (k == k1) = false := by
        simp only [beq_eq_false_iff_ne, ne_eq]
        exact fun hx => hk hx.symm
      simpa [attrsGet, List.lookup, hk2] using ih

theorem pyInt_eq_floor (q : ℚ) (h : 0 ≤ q) : pyInt q = ⌊q⌋ := by
  rw [Rat.floor_def]
  exact Int.tdiv_eq_ediv (Rat.num_nonneg.mpr h) (by positivity)

theorem pyInt_intCast (a : ℤ) : pyInt (a : ℚ) = a := by
  simp [pyInt]

theorem pyInt_cast_div_nat (a : ℤ) (m : Nat) (ha : 0 ≤ a) :
    pyInt ((a : ℚ) / (m : ℚ)) = a / (m : ℤ) := by
  rw [pyInt_eq_floor _ (div_nonneg (by exact_mod_cast ha) (by positivity))]
  exact Rat.floor_intCast_div_natCast a m

/-- C4 (amended): when an `EntityMatcher` carries `min`/`max` constraints that
all bear on a single attribute `a`, and the entity satisfies base type, index,
actions and all eq constraints but its `attrs` lack key `a`, `matches` raises a
`TypeError` (the comparison `None >= value` / `None <= value` is unsupported in
Python 3), modelled as the `none` outcome -- rather than returning `False`. -/
theorem matches_missing_minmax_raises (m : EntityMatcher) (e : BleAdvEntAttr) (a : String)
    (hbase : m.base_type = e.base_type) (hidx : m.index = e.index)
    (hact : m.actions.any (fun x => e.chg_attrs.contains x) = true)
    (heqs : m.eqs.all (fun av => pyEq (attrsGet e.attrs av.1) av.2) = true)
    (hmins : ∀ p ∈ m.mins, p.1 = a) (hmaxs : ∀ p ∈ m.maxs, p.1 = a)
    (hsome : m.mins ≠ [] ∨ m.maxs ≠ [])
    (hmiss : e.attrs.lookup a = Option.none) :
    m.matches e = Option.none := by
  have hnone : attrsGet e.attrs a = AttrVal.pynone := by
    simp [attrsGet, hmiss]
  simp only [EntityMatcher.matches, if_pos (And.intro hbase (And.intro hidx
    (And.intro (by exact_mod_cast hact) (by exact_mod_cast heqs))))]
  cases hm : m.mins with
  | nil =>
    cases hx : m.maxs with
    | nil =>
      rcases hsome with h | h
      · exact absurd hm h
      · exact absurd hx h
    | cons p rest =>
      have hpa : p.1 = a := hmaxs p (by simp [hx])
      simp [allCmp, hpa, hnone, pyLe, AttrVal.asNum]
  | cons p rest =>
    have hpa : p.1 = a := hmins p (by simp [hm])
    simp [allCmp, hpa, hnone, pyGe, AttrVal.asNum]

/-- Witness for C4 (amended) at a concrete matcher and entity. -/
theorem matches_missing_minmax_raises_witness :
    EntityMatcher.matches
      { base_type := "fan", index := 0, actions := ["on"],
        eqs := [("on", AttrVal.bool true)], mins := [("speed", 1)], maxs := [] }
      { chg_attrs := ["on"], attrs := [("on", AttrVal.bool true)],
        base_type := "fan", index := 0 } = Option.none :=
  matches_missing_minmax_raises _ _ "speed" rfl rfl (by decide) (by decide)
    (by decide) (by decide) (Or.inl (by decide)) (by decide)

/-- Counterexample to C4 as stated: the same concrete matcher/entity pair on
which the claim requires `matches` to return `False` without raising; the code
instead raises (`none`), so the result is not `False`. -/
theorem matches_missing_minmax_counterexample :
    EntityMatcher.matches
      { base_type := "fan", index := 0, actions := ["on"],
        eqs := [("on", AttrVal.bool true)], mins := [("speed", 1)], maxs := [] }
      { chg_attrs := ["on"], attrs := [("on", AttrVal.bool true)],
        base_type := "fan", index := 0 } = Option.none
    ∧ EntityMatcher.matches
      { base_type := "fan", index := 0, actions := ["on"],
        eqs := [("on", AttrVal.bool true)], mins := [("speed", 1)], maxs := [] }
      { chg_attrs := ["on"], attrs := [("on", AttrVal.bool true)],
        base_type := "fan", index := 0 } ≠ some false := by
  decide

/-- C5 (amended): a `copy(attr_ent, attr_enc, factor)` mapping stores
`int(factor * x)` -- truncation toward zero, not rounding to nearest -- into
the `EncCmd` field `attr_enc`. -/
theorem copy_stores_truncation (t : Trans) (ea : BleAdvEntAttr) (ae an : String) (f x : ℚ)
    (_hmatch : t.ent.matches ea = some true)
    (hcopies : t.copies = [(ae, an, f)]) (hscopy : t.scopy = Option.none)
    (hval : attrsGet ea.attrs ae = AttrVal.num x)
    (hfield : an ∈ encFieldNames) :
    getField (t.ent_to_enc ea) an = pyInt (f * x) := by
  simp only [Trans.ent_to_enc, hcopies, hscopy, List.foldl_cons, List.foldl_nil, hval]
  exact getField_setField_self _ _ _ hfield

/-- Witness for C5 (amended) at a concrete translator and entity. -/
theorem copy_stores_truncation_witness :
    getField
      (Trans.ent_to_enc
        { ent := { base_type := "light", index := 0, actions := ["br"] },
          enc := { cmd := 0xB5 }, copies := [("br", "arg0", 1)] }
        { chg_attrs := ["br"], attrs := [("br", AttrVal.num (3 / 4))],
          base_type := "light", index := 0 }) "arg0" = pyInt (1 * (3 / 4)) :=
  copy_stores_truncation _ _ "br" "arg0" 1 (3 / 4) (by decide) rfl rfl rfl (by decide)

/-- Counterexample to C5 as stated: with `factor = 1` and `x = 3/4` (both exact
binary floats, so the rational model agrees with Python), the translator
matches, yet the stored value is `int(0.75) = 0` while rounding to the nearest
integer gives `1`. -/
theorem copy_stores_truncation_counterexample :
    Trans.matches_ent
      { ent := { base_type := "light", index := 0, actions := ["br"] },
        enc := { cmd := 0xB5 }, copies := [("br", "arg0", 1)] }
      { chg_attrs := ["br"], attrs := [("br", AttrVal.num (3 / 4))],
        base_type := "light", index := 0 } = some true
    ∧ getField
      (Trans.ent_to_enc
        { ent := { base_type := "light", index := 0, actions := ["br"] },
          enc := { cmd := 0xB5 }, copies := [("br", "arg0", 1)] }
        { chg_attrs := ["br"], attrs := [("br", AttrVal.num (3 / 4))],
          base_type := "light", index := 0 }) "arg0" = 0
    ∧ specRound ((1 : ℚ) * (3 / 4)) = 1 := by
  refine ⟨by decide, ?_, ?_⟩
  · simp only [Trans.ent_to_enc, List.foldl_cons, List.foldl_nil]
    have hv : pyInt (1 * (attrsGet [("br", AttrVal.num (3 / 4))] "br").asNumD) = 0 := by
      rw [show ((1 : ℚ) * (attrsGet [("br", AttrVal.num (3 / 4))] "br").asNumD) =
          ((3 : ℤ) : ℚ) / ((4 : ℕ) : ℚ) by
        norm_num [attrsGet, List.lookup, AttrVal.asNumD, AttrVal.asNum]]
      rw [pyInt_eq_floor _ (by norm_num), Rat.floor_intCast_div_natCast]
      decide
    rw [hv]
    decide
  · rw [specRound, show ((1 : ℚ) * (3 / 4) + 1 / 2) = ((5 : ℤ) : ℚ) / ((4 : ℕ) : ℚ) by norm_num,
      Rat.floor_intCast_div_natCast]
    decide

/-- C7: `encode_advs` first steps `tx_count` to `(tx_count + tx_step) % tx_max`,
bumps `app_restart_count` mod 255 exactly when the new `tx_count` is 0, and
draws a fresh seed from `[1, seed_max]` exactly when the incoming seed is 0 and
the codec declares `seed_max > 0` (the `randint` draw is modelled by the `rand`
argument, constrained to `[1, seed_max]` exactly when that branch is reached,
so the theorem applies to every codec, including the `seed_max = 0` ones whose
seed is never touched); in every other case the seed is untouched. -/
theorem encode_advs_config_update (c : BleAdvCodec) (rand : Nat) (e : BleAdvEncCmd)
    (conf : BleAdvConfig)
    (hr : conf.seed = 0 → 0 < c.seed_max → 1 ≤ rand ∧ rand ≤ c.seed_max) :
    ((encodeAdvs c rand e conf).1.tx_count = (conf.tx_count + c.tx_step) % c.tx_max)
    ∧ ((encodeAdvs c rand e conf).1.app_restart_count =
        if (conf.tx_count + c.tx_step) % c.tx_max = 0
        then (conf.app_restart_count + 1) % 255 else conf.app_restart_count)
    ∧ (conf.seed = 0 ∧ 0 < c.seed_max →
        1 ≤ (encodeAdvs c rand e conf).1.seed ∧ (encodeAdvs c rand e conf).1.seed ≤ c.seed_max)
    ∧ (¬(conf.seed = 0 ∧ 0 < c.seed_max) → (encodeAdvs c rand e conf).1.seed = conf.seed) := by
  refine ⟨rfl, rfl, fun hs => ?_, fun hs => ?_⟩
  · simp only [encodeAdvs, if_pos hs]
    exact hr hs.1 hs.2
  · simp only [encodeAdvs, if_neg hs]

/-- Witness for C7, applied both to a codec declaring `seed_max = 5` (seed
randomised into `[1, 5]`) and to `zhijia_v0` with `seed_max = 0` and a nonzero
incoming seed 7 (seed untouched). -/
theorem encode_advs_config_update_witness :
    ((encodeAdvs
        { len := 0, seed_max := 5, decrypt := fun _ => Option.none,
          encrypt := fun b => b, convert_to_enc := fun _ => (Option.none, Option.none),
          convert_from_enc := fun _ _ => [] } 3 (mkEncCmd 1) {}).1.tx_count = 1 % 125)
    ∧ (({} : BleAdvConfig).seed = 0 ∧ 0 < (5 : Nat) →
        1 ≤ (encodeAdvs
          { len := 0, seed_max := 5, decrypt := fun _ => Option.none,
            encrypt := fun b => b, convert_to_enc := fun _ => (Option.none, Option.none),
            convert_from_enc := fun _ _ => [] } 3 (mkEncCmd 1) {}).1.seed ∧
        (encodeAdvs
          { len := 0, seed_max := 5, decrypt := fun _ => Option.none,
            encrypt := fun b => b, convert_to_enc := fun _ => (Option.none, Option.none),
            convert_from_enc := fun _ _ => [] } 3 (mkEncCmd 1) {}).1.seed ≤ 5)
    ∧ (¬(({ seed := 7 } : BleAdvConfig).seed = 0 ∧ 0 < zhijia_v0.seed_max) →
        (encodeAdvs zhijia_v0 3 (mkEncCmd 1) { seed := 7 }).1.seed =
          ({ seed := 7 } : BleAdvConfig).seed) := by
  have h := encode_advs_config_update
    { len := 0, seed_max := 5, decrypt := fun _ => Option.none,
      encrypt := fun b => b, convert_to_enc := fun _ => (Option.none, Option.none),
      convert_from_enc := fun _ _ => [] } 3 (mkEncCmd 1) {} (fun _ _ => by decide)
  have h2 := encode_advs_config_update zhijia_v0 3 (mkEncCmd 1) { seed := 7 }
    (fun _ hsm => absurd hsm (by decide))
  exact ⟨h.1, h.2.2.1, h2.2.2.2⟩

/-- C8: `decode_adv` returns the `(None, None)` sentinel (and cannot raise: it
is a total function here) whenever the advertisement BLE type differs from the
codec, the computed payload length (raw length minus footer, header and
header-start-pos lengths, as a Python `int`) differs from the codec `_len`, the
bytes at `header_start_pos` differ from the header, or the trailing bytes
differ from the footer. -/
theorem decode_adv_rejects_mismatch (c : BleAdvCodec) (adv : BleAdvAdvertisement)
    (h : c.ble_type ≠ adv.ble_type
      ∨ ((adv.raw.length : ℤ) - (c.footer.length : ℤ) - (c.header.length : ℤ)
          - (c.header_start_pos : ℤ) ≠ (c.len : ℤ))
      ∨ isEqBuf c.header (adv.raw.drop c.header_start_pos) = false
      ∨ isEqBuf c.footer (adv.raw.drop (adv.raw.length - c.footer.length)) = false) :
    decodeAdv c adv = (Option.none, Option.none) := by
  simp only [decodeAdv]
  rw [if_neg]
  rintro ⟨h1, h2, h3, h4⟩
  rcases h with hh | hh | hh | hh
  · exact hh h1
  · exact hh h2
  · rw [h3] at hh
    exact Bool.noConfusion hh
  · rw [h4] at hh
    exact Bool.noConfusion hh

/-- Witness for C8: `zhijia_v0` rejects an advertisement with BLE type 0. -/
theorem decode_adv_rejects_mismatch_witness :
    decodeAdv zhijia_v0 { ble_type := 0, raw := [] } = (Option.none, Option.none) :=
  decode_adv_rejects_mismatch zhijia_v0 { ble_type := 0, raw := [] } (Or.inl (by decide))

/-- C9: `encode_advs` leaves `conf.id` and `conf.index` unchanged -- together
with C7 this says it mutates only `tx_count`, `app_restart_count` and `seed`.
(`decode_adv` takes no config at all in this model, mirroring that the Python
method only constructs and returns a fresh `BleAdvConfig`.) -/
theorem encode_advs_preserves_id_index (c : BleAdvCodec) (rand : Nat) (e : BleAdvEncCmd)
    (conf : BleAdvConfig) :
    (encodeAdvs c rand e conf).1.id = conf.id
    ∧ (encodeAdvs c rand e conf).1.index = conf.index :=
  ⟨rfl, rfl⟩

theorem emod_sq_decomp (V m : ℤ) (hm : 0 < m) :
    m * ((V / m) % m) + V % m = V % (m ^ 2) := by
  have hne : m ≠ 0 := ne_of_gt hm
  have hsq : (0 : ℤ) < m ^ 2 := by positivity
  have hexp : V = m ^ 2 * ((V / m) / m) + (m * ((V / m) % m) + V % m) := by
    have h1 : m * ((V / m) / m) + (V / m) % m = V / m := Int.ediv_add_emod (V / m) m
    have h2 : m * (V / m) + V % m = V := Int.ediv_add_emod V m
    have h3 : m * (m * ((V / m) / m) + (V / m) % m) + V % m = V := by rw [h1]; exact h2
    linarith [h3, sq_nonneg m]
  have hub : m * ((V / m) % m) + V % m < m ^ 2 := by
    have a1 : (V / m) % m < m := Int.emod_lt_of_pos _ hm
    have a2 : V % m < m := Int.emod_lt_of_pos _ hm
    have a3 : 0 ≤ (V / m) % m := Int.emod_nonneg _ hne
    nlinarith
  have hlb : 0 ≤ m * ((V / m) % m) + V % m := by
    have a3 : 0 ≤ (V / m) % m := Int.emod_nonneg _ hne
    have a4 : 0 ≤ V % m := Int.emod_nonneg _ hne
    positivity
  calc m * ((V / m) % m) + V % m
      = (m * ((V / m) % m) + V % m) % m ^ 2 := (Int.emod_eq_of_lt hlb hub).symm
    _ = (m * ((V / m) % m) + V % m + m ^ 2 * ((V / m) / m)) % m ^ 2 := by
        rw [Int.add_mul_emod_self_left]
    _ = V % m ^ 2 := by rw [show m * ((V / m) % m) + V % m + m ^ 2 * ((V / m) / m) = V by
        linarith [hexp]]

/-- C6: the split-copy law.  With `split_copy(attr_ent, [d0, d1], factor, modulo)`
(distinct destination fields) and a numeric attribute value `v ≥ 0` such that
`factor * v` is an integer, `enc_to_ent` after `ent_to_enc` recovers
`(1/factor) * (int(factor*v) mod modulo²)` -- values are never rejected but
silently wrap -- and in particular recovers `v` itself for every
`v < modulo² / factor`. -/
theorem split_copy_roundtrip (t : Trans) (ea : BleAdvEntAttr) (ae d0 d1 : String)
    (f : ℚ) (m : Nat) (v : ℚ)
    (hscopy : t.scopy = some (ae, [d0, d1], f, m))
    (hcopies : t.copies = [])
    (hd0 : d0 ∈ encFieldNames) (hd1 : d1 ∈ encFieldNames) (hne : d0 ≠ d1)
    (hm : 0 < m) (hf : 0 < f)
    (hval : attrsGet ea.attrs ae = AttrVal.num v)
    (hv0 : 0 ≤ v) (hint : (f * v).den = 1) :
    attrsGet ((t.enc_to_ent (t.ent_to_enc ea)).attrs) ae =
      AttrVal.num ((1 / f) * ((pyInt (f * v) % ((m : ℤ) ^ 2) : ℤ) : ℚ))
    ∧ (v < (m : ℚ) ^ 2 / f →
        attrsGet ((t.enc_to_ent (t.ent_to_enc ea)).attrs) ae = AttrVal.num v) := by
  have hmZ : (0 : ℤ) < (m : ℤ) := by exact_mod_cast hm
  have hfv0 : 0 ≤ f * v := mul_nonneg (le_of_lt hf) hv0
  have hV : pyInt (f * v) = (f * v).num := by
    rw [pyInt, hint]
    exact Int.tdiv_one _
  have hVQ : ((pyInt (f * v) : ℤ) : ℚ) = f * v := by
    rw [hV]
    have h1 := Rat.num_div_den (f * v)
    rw [hint] at h1
    simpa using h1
  have hV0 : 0 ≤ pyInt (f * v) := by
    rw [hV]
    exact Rat.num_nonneg.mpr hfv0
  set V : ℤ := pyInt (f * v) with hVdef
  have hnumv : (attrsGet ea.attrs ae).asNumD = v := by
    rw [hval]
    rfl
  have henc : t.ent_to_enc ea =
      setField (setField t.enc.create d0 (V % (m : ℤ))) d1 ((V / (m : ℤ)) % (m : ℤ)) := by
    simp only [Trans.ent_to_enc, hcopies, hscopy, List.foldl_nil, List.foldl_cons, hnumv,
      ← hVdef]
    rw [pyInt_cast_div_nat V m hV0]
  have hget1 : getField (t.ent_to_enc ea) d1 = (V / (m : ℤ)) % (m : ℤ) := by
    rw [henc]
    exact getField_setField_self _ _ _ hd1
  have hget0 : getField (t.ent_to_enc ea) d0 = V % (m : ℤ) := by
    rw [henc, getField_setField_other _ d1 d0 _ hd1 hd0 (Ne.symm hne)]
    exact getField_setField_self _ _ _ hd0
  have hdec : attrsGet ((t.enc_to_ent (t.ent_to_enc ea)).attrs) ae =
      AttrVal.num ((1 / f) * (((m : ℤ) * ((V / (m : ℤ)) % (m : ℤ)) + V % (m : ℤ) : ℤ) : ℚ)) := by
    simp only [Trans.enc_to_ent, hscopy, hcopies, List.foldl_nil, List.reverse_cons,
      List.reverse_nil, List.nil_append, List.cons_append, List.foldl_cons, hget0, hget1,
      mul_zero, zero_add]
    exact attrsGet_setAttr_self _ _ _
  have hwrap : attrsGet ((t.enc_to_ent (t.ent_to_enc ea)).attrs) ae =
      AttrVal.num ((1 / f) * ((V % ((m : ℤ) ^ 2) : ℤ) : ℚ)) := by
    rw [hdec, emod_sq_decomp V (m : ℤ) hmZ]
  refine ⟨hwrap, fun hlt => ?_⟩
  have hVlt : V < (m : ℤ) ^ 2 := by
    have h1 : f * v < (m : ℚ) ^ 2 := by
      rw [lt_div_iff₀ hf] at hlt
      linarith
    have h2 : ((V : ℤ) : ℚ) < ((((m : ℤ) ^ 2 : ℤ)) : ℚ) := by
      rw [hVQ]
      push_cast
      exact h1
    exact_mod_cast h2
  rw [hwrap, Int.emod_eq_of_lt hV0 hVlt]
  congr 1
  rw [hVQ]
  field_simp

/-- For a codec with the default `convert_multi_from_enc`, `encode_advs`
produces the single advertisement obtained by encrypting the prefixed readable
buffer and splicing header (at `header_start_pos`) and footer around it. -/
theorem encodeAdvs_advs (c : BleAdvCodec) (rand : Nat) (e : BleAdvEncCmd)
    (conf : BleAdvConfig) (hmulti : c.convert_multi = Option.none) :
    (encodeAdvs c rand e conf).2 =
      [{ ble_type := c.ble_type,
         raw := (c.encrypt (c.pfx ++ c.convert_from_enc e
             (encodeAdvs c rand e conf).1)).take c.header_start_pos ++ c.header ++
           (c.encrypt (c.pfx ++ c.convert_from_enc e
             (encodeAdvs c rand e conf).1)).drop c.header_start_pos ++ c.footer,
         ad_flag := c.ad_flag }] := by
  simp [encodeAdvs, convertMultiFromEnc, hmulti]

/-- Generic reduction: decoding the first advertisement produced by
`encode_advs` reduces to `convert_to_enc ∘ convert_from_enc` whenever the
encrypted buffer has length `header_start_pos + _len` and the cipher round
trip holds (any header, header start position and footer). -/
theorem decode_encode_reduces (c : BleAdvCodec) (rand : Nat) (e : BleAdvEncCmd)
    (conf : BleAdvConfig) {rb' : List Nat} (hmulti : c.convert_multi = Option.none)
    (hlen : (c.encrypt (c.pfx ++ c.convert_from_enc e (encodeAdvs c rand e conf).1)).length
      = c.header_start_pos + c.len)
    (hdec : c.decrypt (c.encrypt (c.pfx ++ c.convert_from_enc e (encodeAdvs c rand e conf).1)) =
      some (c.pfx ++ rb')) :
    decodeAdv c ((encodeAdvs c rand e conf).2.headD { ble_type := 0, raw := [] }) =
      c.convert_to_enc rb' := by
  rw [encodeAdvs_advs c rand e conf hmulti]
  set rb := c.convert_from_enc e (encodeAdvs c rand e conf).1 with hrb
  set enc := c.encrypt (c.pfx ++ rb) with hencdef
  set hsp := c.header_start_pos with hhsp
  have hA : (enc.take hsp).length = hsp := by
    rw [List.length_take, hlen]
    omega
  have hC : (enc.drop hsp).length = c.len := by
    rw [List.length_drop, hlen]
    omega
  set raw := enc.take hsp ++ c.header ++ enc.drop hsp ++ c.footer with hrawdef
  have hrawlen : raw.length = hsp + c.header.length + c.len + c.footer.length := by
    simp only [hrawdef, List.length_append, hA, hC]
    try omega
  have hc2 : (raw.length : ℤ) - (c.footer.length : ℤ) - (c.header.length : ℤ)
      - (hsp : ℤ) = (c.len : ℤ) := by
    rw [hrawlen]
    push_cast
    try ring
  have hdropA : raw.drop hsp = c.header ++ (enc.drop hsp ++ c.footer) := by
    have : raw = enc.take hsp ++ (c.header ++ (enc.drop hsp ++ c.footer)) := by
      simp [hrawdef, List.append_assoc]
    rw [this, List.drop_left' hA]
  have hc3 : isEqBuf c.header (raw.drop hsp) = true := by
    rw [hdropA, isEqBuf, List.take_left]
    exact beq_self_eq_true _
  have hlastpos : raw.length - c.footer.length = hsp + c.header.length + c.len := by
    rw [hrawlen]
    omega
  have hdropF : raw.drop (raw.length - c.footer.length) = c.footer := by
    have hsplit : raw = (enc.take hsp ++ c.header ++ enc.drop hsp) ++ c.footer := by
      simp [hrawdef, List.append_assoc]
    have hlenE : (enc.take hsp ++ c.header ++ enc.drop hsp).length
        = hsp + c.header.length + c.len := by
      simp only [List.length_append, hA, hC]
    rw [hlastpos, hsplit, List.drop_left' hlenE]
  have hc4 : isEqBuf c.footer (raw.drop (raw.length - c.footer.length)) = true := by
    rw [hdropF, isEqBuf, List.take_length]
    exact beq_self_eq_true _
  simp only [List.headD_cons, decodeAdv]
  rw [if_pos ⟨trivial, hc2, hc3, hc4⟩]
  have htakeA : raw.take hsp = enc.take hsp := by
    have : raw = enc.take hsp ++ (c.header ++ (enc.drop hsp ++ c.footer)) := by
      simp [hrawdef, List.append_assoc]
    rw [this, List.take_left' hA]
  have hdropAB : raw.drop (hsp + c.header.length) = enc.drop hsp ++ c.footer := by
    have hsplit : raw = (enc.take hsp ++ c.header) ++ (enc.drop hsp ++ c.footer) := by
      simp [hrawdef, List.append_assoc]
    have hlenAB : (enc.take hsp ++ c.header).length = hsp + c.header.length := by
      simp only [List.length_append, hA]
    rw [hsplit, List.drop_left' hlenAB]
  have hextract : raw.take hsp ++
      ((raw.drop (hsp + c.header.length)).take
        (raw.length - c.footer.length - (hsp + c.header.length)))
      = enc := by
    rw [htakeA, hdropAB, hlastpos]
    have : hsp + c.header.length + c.len - (hsp + c.header.length) = c.len := by
      omega
    rw [this, List.take_left' hC, List.take_append_drop]
  rw [hextract, hdec]
  have hpfxok : isEqBuf c.pfx (c.pfx ++ rb') = true := by
    simp only [isEqBuf, List.take_left]
    exact beq_self_eq_true _
  show (if isEqBuf c.pfx (c.pfx ++ rb') = true
      then c.convert_to_enc (List.drop c.pfx.length (c.pfx ++ rb'))
      else (Option.none, Option.none)) = c.convert_to_enc rb'
  rw [if_pos hpfxok, List.drop_left]

/-- Witness for C6: `factor = 1`, `modulo = 16`, `v = 300` on a concrete
translator; 300 ≥ 16² wraps to 300 mod 256 = 44, and `v = 100 < 256` round-trips. -/
theorem split_copy_roundtrip_witness :
    (attrsGet ((Trans.enc_to_ent
        { ent := { base_type := "light", index := 0, actions := ["br"] },
          enc := { cmd := 0xB5 }, scopy := some ("br", ["arg2", "arg1"], 1, 16) }
        (Trans.ent_to_enc
          { ent := { base_type := "light", index := 0, actions := ["br"] },
            enc := { cmd := 0xB5 }, scopy := some ("br", ["arg2", "arg1"], 1, 16) }
          { chg_attrs := ["br"], attrs := [("br", AttrVal.num 100)],
            base_type := "light", index := 0 })).attrs) "br" =
      AttrVal.num ((1 / 1) * ((pyInt (1 * 100) % ((16 : ℤ) ^ 2) : ℤ) : ℚ)))
    ∧ ((100 : ℚ) < (16 : ℚ) ^ 2 / 1 →
        attrsGet ((Trans.enc_to_ent
          { ent := { base_type := "light", index := 0, actions := ["br"] },
            enc := { cmd := 0xB5 }, scopy := some ("br", ["arg2", "arg1"], 1, 16) }
          (Trans.ent_to_enc
            { ent := { base_type := "light", index := 0, actions := ["br"] },
              enc := { cmd := 0xB5 }, scopy := some ("br", ["arg2", "arg1"], 1, 16) }
            { chg_attrs := ["br"], attrs := [("br", AttrVal.num 100)],
              base_type := "light", index := 0 })).attrs) "br" = AttrVal.num 100) :=
  split_copy_roundtrip _ _ "br" "arg2" "arg1" 1 16 100 rfl rfl (by decide) (by decide)
    (by decide) (by decide) (by norm_num) rfl (by norm_num) (by norm_num)

/-- Taking all but the last element of `l ++ [c]` gives back `l`. -/
theorem take_append_singleton (l : List Nat) (c : Nat) :
    (l ++ [c]).take ((l ++ [c]).length - 1) = l := by
  simp only [List.length_append, List.length_singleton, Nat.add_sub_cancel]
  exact List.take_left l [c]

/-- The last element of `l ++ [c]` is `c`. -/
theorem getD_append_singleton (l : List Nat) (c : Nat) :
    (l ++ [c]).getD ((l ++ [c]).length - 1) 0 = c := by
  simp only [List.length_append, List.length_singleton, Nat.add_sub_cancel, List.getD]
  rw [List.get?_append_right (Nat.le_refl _)]
  simp

/-- `from_bytes ∘ to_bytes` is the identity below `256 ^ k` (little-endian). -/
theorem fromBytesLE_toBytesLE (k n : Nat) (h : n < 256 ^ k) :
    fromBytesLE (toBytesLE n k) = n := by
  induction k generalizing n with
  | zero => simp only [Nat.pow_zero, Nat.lt_one_iff] at h; simp [toBytesLE, fromBytesLE, h]
  | succ k ih =>
    have hd : n / 256 < 256 ^ k := by
      rw [Nat.div_lt_iff_lt_mul (by norm_num)]
      calc n < 256 ^ (k + 1) := h
      _ = 256 ^ k * 256 := by ring
    simp only [toBytesLE, fromBytesLE, ih _ hd]
    omega

/-- `to_bytes ∘ from_bytes` is the identity on 2-byte buffers. -/
theorem toBytesLE_fromBytesLE_two (a b : Nat) (ha : a < 256) (hb : b < 256) :
    toBytesLE (fromBytesLE [a, b]) 2 = [a, b] := by
  simp only [fromBytesLE, toBytesLE, Nat.mul_zero, Nat.add_zero]
  rw [show (a + 256 * b) % 256 = a by omega,
    show (a + 256 * b) / 256 % 256 = b by omega]

/-- Big-endian `from_bytes` over a reversed list is little-endian
`from_bytes`. -/
theorem fromBytesBE_reverse (l : List Nat) : fromBytesBE l.reverse = fromBytesLE l := by
  induction l with
  | nil => rfl
  | cons x xs ih =>
    simp only [List.reverse_cons, fromBytesBE, List.foldl_append, List.foldl_cons,
      List.foldl_nil, fromBytesLE]
    rw [show (xs.reverse.foldl (fun a b => 256 * a + b) 0) = fromBytesBE xs.reverse from rfl, ih]
    omega

/-- `from_bytes ∘ to_bytes` is the identity below `256 ^ k` (big-endian). -/
theorem fromBytesBE_toBytesBE (k n : Nat) (h : n < 256 ^ k) :
    fromBytesBE (toBytesBE n k) = n := by
  rw [toBytesBE, fromBytesBE_reverse, fromBytesLE_toBytesLE k n h]

/-- `toBytesBE` produces `k` bytes. -/
theorem toBytesBE_length (n k : Nat) : (toBytesBE n k).length = k := by
  simp [toBytesBE, toBytesLE_length]

/-- Bitwise-or of two bytes is a byte. -/
theorem or_lt_256 {a b : Nat} (ha : a < 256) (hb : b < 256) : a ||| b < 256 :=
  Nat.or_lt_two_pow (n := 8) ha hb

/-- `reverse_byte` stays below 256. -/
theorem reverse_byte_lt (x : Nat) : reverse_byte x < 256 := by
  have key : ∀ y : Nat, ((y &&& 0x0F) <<< 4) ||| ((y &&& 0xF0) >>> 4) < 256 := by
    intro y
    apply or_lt_256
    · have h1 : y &&& 0x0F ≤ 0x0F := Nat.and_le_right
      have h2 := Nat.shiftLeft_eq (y &&& 0x0F) 4
      omega
    · have h1 : y &&& 0xF0 ≤ 0xF0 := Nat.and_le_right
      have h2 := Nat.shiftRight_eq_div_pow (y &&& 0xF0) 4
      omega
  exact key _

set_option maxRecDepth 4000 in
/-- `reverse_byte` is an involution on bytes. -/
theorem reverse_byte_reverse_byte : ∀ x < 256, reverse_byte (reverse_byte x) = x := by decide

/-- `reverse_all` is an involution on byte buffers. -/
theorem reverse_all_reverse_all (l : List Nat) (h : ∀ b ∈ l, b < 256) :
    reverse_all (reverse_all l) = l := by
  simp only [reverse_all, List.map_map]
  calc l.map (reverse_byte ∘ reverse_byte) = l.map id := by
        apply List.map_congr_left
        intro b hb
        exact reverse_byte_reverse_byte b (h b hb)
  _ = l := List.map_id l

/-- `reverse_all` preserves length. -/
theorem reverse_all_length (l : List Nat) : (reverse_all l).length = l.length := by
  simp [reverse_all]

/-- `reverse_all` outputs bytes. -/
theorem reverse_all_lt (l : List Nat) : ∀ b ∈ reverse_all l, b < 256 := by
  intro b hb
  simp only [reverse_all, List.mem_map] at hb
  obtain ⟨a, _, ha⟩ := hb
  exact ha ▸ reverse_byte_lt a

/-- Double XOR cancellation. -/
theorem nat_xor2_cancel (x a b : Nat) : x ^^^ a ^^^ b ^^^ a ^^^ b = x := by
  rw [Nat.xor_assoc x a b, Nat.xor_comm a b, ← Nat.xor_assoc x, Nat.xor_assoc (x ^^^ b),
    Nat.xor_self, Nat.xor_zero, Nat.xor_assoc, Nat.xor_self, Nat.xor_zero]

/-- `whiten16` is an involution (pure XOR keystream). -/
theorem whiten16_whiten16 (l : List Nat) (r : Nat) : whiten16 (whiten16 l r) r = l := by
  induction l generalizing r with
  | nil => rfl
  | cons v rest ih => simp only [whiten16, nat_xor2_cancel, ih]

/-- `whiten16` preserves length. -/
theorem whiten16_length (l : List Nat) (r : Nat) : (whiten16 l r).length = l.length := by
  induction l generalizing r with
  | nil => rfl
  | cons v rest ih => simp only [whiten16, List.length_cons, ih]

/-- The fold inside `crcHqxShift` stays below `2 ^ 16`. -/
theorem crcHqxShift_fold_lt (l : List Nat) (c : Nat) (h : c < 65536) :
    l.foldl (fun crc _ => if crc &&& 0x8000 ≠ 0 then ((crc <<< 1) ^^^ 0x1021) &&& 0xFFFF
      else (crc <<< 1) &&& 0xFFFF) c < 65536 := by
  induction l generalizing c with
  | nil => simpa using h
  | cons x xs ih =>
    simp only [List.foldl_cons]
    apply ih
    split <;> exact Nat.lt_succ_of_le Nat.and_le_right

/-- `crcHqxShift` stays below `2 ^ 16`. -/
theorem crcHqxShift_lt (c : Nat) (h : c < 65536) : crcHqxShift c < 65536 :=
  crcHqxShift_fold_lt _ _ h

/-- The byte fold of `crcHqx` stays below `2 ^ 16`. -/
theorem crcHqx_fold_lt (bs : List Nat) (c : Nat) (hc : c < 65536) :
    bs.foldl (fun crc byte => crcHqxShift (crc ^^^ (byte &&& 0xFF) <<< 8)) c < 65536 := by
  induction bs generalizing c with
  | nil => simpa using hc
  | cons y ys ih =>
    simp only [List.foldl_cons]
    apply ih
    apply crcHqxShift_lt
    apply xor_lt_65536 hc
    have hb : (y &&& 0xFF) < 256 := Nat.lt_succ_of_le Nat.and_le_right
    have := Nat.shiftLeft_eq (y &&& 0xFF) 8
    omega

/-- `crcHqx` stays below `2 ^ 16`. -/
theorem crcHqx_lt (buffer : List Nat) (seed : Nat) : crcHqx buffer seed < 65536 := by
  simp only [crcHqx]
  exact crcHqx_fold_lt _ _ (Nat.lt_succ_of_le Nat.and_le_right)

/-- The list sum over an appended singleton. -/
theorem sum_append_singleton (l : List Nat) (c : Nat) : (l ++ [c]).sum = l.sum + c := by
  simp

theorem nat_xor_cancel_left (a b : Nat) : a ^^^ (a ^^^ b) = b := by
  rw [← Nat.xor_assoc, Nat.xor_self, Nat.zero_xor]

/-- Additive-checksum frame round trip (`RemoteEncoder`): decrypt returns the
whole checksummed buffer. -/
theorem remote4_decrypt_encrypt (rb : List Nat) :
    remote4Decrypt (remote4Encrypt rb) = some (rb ++ [sumChecksum rb]) := by
  simp only [remote4Encrypt, remote4Decrypt, take_append_singleton, getD_append_singleton,
    if_pos rfl, if_true]

/-- Byte facts for commands below `0x40`. -/
theorem cmd_masks_lt_64 : ∀ a < 64, a &&& 0x3F = a ∧ a &&& 0xC0 = 0 := by decide

/-- `RemoteEncoder` conversion round trip. -/
theorem remote4_convert_roundtrip (e : BleAdvEncCmd) (conf : BleAdvConfig) (chk : Nat)
    (hcm0 : 0 ≤ e.cmd) (hcm1 : e.cmd < 64) (hp : e.param = 0)
    (h00 : 0 ≤ e.arg0) (h1 : e.arg1 = 0) (h2 : e.arg2 = 0) (h3 : e.arg3 = 0) (h4 : e.arg4 = 0)
    (hid : conf.id < 4294967296) :
    remote4ConvertToEnc (remote4ConvertFromEnc e conf ++ [chk]) =
      (some e, some { id := conf.id, tx_count := conf.tx_count }) := by
  obtain ⟨cm, pa, a0, a1, a2, a3, a4⟩ := e
  obtain ⟨idv, ixv, txv, arcv, sdv⟩ := conf
  simp only at hcm0 hcm1 hp h00 h1 h2 h3 h4 hid
  subst hp h1 h2 h3 h4
  have e1 : ((cm.toNat : ℤ)) = cm := Int.toNat_of_nonneg hcm0
  have e2 : ((a0.toNat : ℤ)) = a0 := Int.toNat_of_nonneg h00
  have hcmlt : cm.toNat < 64 := by omega
  have hm := cmd_masks_lt_64 cm.toNat hcmlt
  simp only [remote4ConvertFromEnc, remote4ConvertToEnc, toBytesLE, Int.toNat_zero,
    Nat.or_zero, List.cons_append, List.nil_append, List.getD_cons_zero, List.getD_cons_succ,
    fromBytesLE, Nat.mul_zero, Nat.add_zero, hm.1, hm.2, e1, e2, Nat.cast_zero]
  rw [show idv % 256 + 256 * (idv / 256 % 256 + 256 * (idv / 256 / 256 % 256 +
    256 * (idv / 256 / 256 / 256 % 256))) = idv by omega]

/-- C1 class lemma for `remote_v4`: full decode/encode round trip (the decoded
config reconstructs a zero index and seed, so the reachable shape pins
`conf.index = 0`; `_seed_max = 0` keeps the seed at 0). -/
theorem remote_v4_class_roundtrip (rand : Nat) (e : BleAdvEncCmd) (conf : BleAdvConfig)
    (hcm0 : 0 ≤ e.cmd) (hcm1 : e.cmd < 64) (hp : e.param = 0)
    (h00 : 0 ≤ e.arg0) (h01 : e.arg0 < 256) (h1 : e.arg1 = 0) (h2 : e.arg2 = 0)
    (h3 : e.arg3 = 0) (h4 : e.arg4 = 0)
    (hid : conf.id < 4294967296) :
    decodeAdv remote_v4 ((encodeAdvs remote_v4 rand e conf).2.headD { ble_type := 0, raw := [] })
      = (some e,
         some { id := conf.id, tx_count := (encodeAdvs remote_v4 rand e conf).1.tx_count }) := by
  have hdecE : remote_v4.decrypt (remote_v4.encrypt (remote_v4.pfx ++
      remote_v4.convert_from_enc e (encodeAdvs remote_v4 rand e conf).1)) =
      some (remote_v4.pfx ++
        (remote_v4.convert_from_enc e (encodeAdvs remote_v4 rand e conf).1 ++
          [sumChecksum (remote_v4.convert_from_enc e (encodeAdvs remote_v4 rand e conf).1)])) :=
    remote4_decrypt_encrypt _
  have hlen : (remote_v4.encrypt (remote_v4.pfx ++
      remote_v4.convert_from_enc e (encodeAdvs remote_v4 rand e conf).1)).length =
      remote_v4.header_start_pos + remote_v4.len := by
    show (remote4Encrypt ([] ++ remote4ConvertFromEnc e _)).length = 0 + 8
    simp [remote4Encrypt, remote4ConvertFromEnc, toBytesLE_length]
  rw [decode_encode_reduces remote_v4 rand e conf rfl hlen hdecE]
  exact remote4_convert_roundtrip e _ _ hcm0 hcm1 hp h00 h1 h2 h3 h4 hid

/-- `ZhimeiEncoderV0` cipher round trip. -/
theorem zm0_decrypt_encrypt (hdr rb : List Nat) :
    zm0Decrypt hdr (zm0Encrypt hdr rb) = some (rb ++ [zm0Checksum hdr rb]) := by
  simp only [zm0Encrypt, zm0Decrypt, take_append_singleton, getD_append_singleton,
    if_pos rfl, if_true]

/-- `ZhimeiEncoderV0` conversion round trip. -/
theorem zm0_convert_roundtrip (e : BleAdvEncCmd) (conf : BleAdvConfig) (chk : Nat)
    (hcm0 : 0 ≤ e.cmd) (hp : e.param = 0)
    (h00 : 0 ≤ e.arg0) (h10 : 0 ≤ e.arg1) (h20 : 0 ≤ e.arg2) (h3 : e.arg3 = 0) (h4 : e.arg4 = 0)
    (hid : conf.id < 65536) :
    zm0ConvertToEnc (zm0ConvertFromEnc e conf ++ [chk]) =
      (some e, some { id := conf.id, index := conf.index, tx_count := conf.tx_count }) := by
  obtain ⟨cm, pa, a0, a1, a2, a3, a4⟩ := e
  obtain ⟨idv, ixv, txv, arcv, sdv⟩ := conf
  simp only at hcm0 hp h00 h10 h20 h3 h4 hid
  subst hp h3 h4
  have e1 : ((cm.toNat : ℤ)) = cm := Int.toNat_of_nonneg hcm0
  have e2 : ((a0.toNat : ℤ)) = a0 := Int.toNat_of_nonneg h00
  have e3 : ((a1.toNat : ℤ)) = a1 := Int.toNat_of_nonneg h10
  have e4 : ((a2.toNat : ℤ)) = a2 := Int.toNat_of_nonneg h20
  simp only [zm0ConvertFromEnc, zm0ConvertToEnc, toBytesLE, List.cons_append, List.nil_append,
    List.getD_cons_zero, List.getD_cons_succ, fromBytesLE, Nat.mul_zero, Nat.add_zero,
    e1, e2, e3, e4]
  rw [show idv % 256 + 256 * (idv / 256 % 256) = idv by omega]

/-- C1 class lemma for the `ZhimeiEncoderV0` codecs. -/
theorem zm0_class_roundtrip (cid : String) (hdr : List Nat) (adf bt : Nat) (rand : Nat)
    (e : BleAdvEncCmd) (conf : BleAdvConfig)
    (hcm0 : 0 ≤ e.cmd) (hp : e.param = 0)
    (h00 : 0 ≤ e.arg0) (h10 : 0 ≤ e.arg1) (h20 : 0 ≤ e.arg2) (h3 : e.arg3 = 0) (h4 : e.arg4 = 0)
    (hid : conf.id < 65536) :
    decodeAdv (zm0Codec cid hdr adf bt)
      ((encodeAdvs (zm0Codec cid hdr adf bt) rand e conf).2.headD { ble_type := 0, raw := [] })
      = (some e,
         some { id := conf.id, index := conf.index,
                tx_count := (encodeAdvs (zm0Codec cid hdr adf bt) rand e conf).1.tx_count }) := by
  have hdecE : (zm0Codec cid hdr adf bt).decrypt ((zm0Codec cid hdr adf bt).encrypt
      ((zm0Codec cid hdr adf bt).pfx ++
        (zm0Codec cid hdr adf bt).convert_from_enc e
          (encodeAdvs (zm0Codec cid hdr adf bt) rand e conf).1)) =
      some ((zm0Codec cid hdr adf bt).pfx ++
        ((zm0Codec cid hdr adf bt).convert_from_enc e
            (encodeAdvs (zm0Codec cid hdr adf bt) rand e conf).1 ++
          [zm0Checksum hdr ((zm0Codec cid hdr adf bt).convert_from_enc e
            (encodeAdvs (zm0Codec cid hdr adf bt) rand e conf).1)])) :=
    zm0_decrypt_encrypt hdr _
  have hlen : ((zm0Codec cid hdr adf bt).encrypt ((zm0Codec cid hdr adf bt).pfx ++
      (zm0Codec cid hdr adf bt).convert_from_enc e
        (encodeAdvs (zm0Codec cid hdr adf bt) rand e conf).1)).length =
      (zm0Codec cid hdr adf bt).header_start_pos + (zm0Codec cid hdr adf bt).len := by
    show (zm0Encrypt hdr ([] ++ zm0ConvertFromEnc e _)).length = 0 + 9
    simp [zm0Encrypt, zm0ConvertFromEnc, toBytesLE_length]
  rw [decode_encode_reduces (zm0Codec cid hdr adf bt) rand e conf rfl hlen hdecE]
  exact zm0_convert_roundtrip e _ _ hcm0 hp h00 h10 h20 h3 h4 hid

/-- High-nibble-of-a-word mask as arithmetic. -/
theorem and_mask_high (x : Nat) : x &&& 61440 = x / 4096 % 16 * 4096 := by
  have h2 : x / 4096 % 16 * 4096 = (x >>> 12 % 2 ^ 4) <<< 12 := by
    rw [Nat.shiftLeft_eq, Nat.shiftRight_eq_div_pow]
    norm_num
  rw [show (61440 : Nat) = (2 ^ 4 - 1) <<< 12 by norm_num [Nat.shiftLeft_eq], h2]
  apply Nat.eq_of_testBit_eq
  intro i
  simp only [Nat.testBit_and, Nat.testBit_shiftLeft, Nat.testBit_shiftRight,
    Nat.testBit_mod_two_pow, Nat.testBit_two_pow_sub_one]
  by_cases h12 : 12 ≤ i
  · rw [show 12 + (i - 12) = i from by omega]
    by_cases h4 : i - 12 < 4 <;> cases hx : x.testBit i <;> simp [h12, h4, hx, ge_iff_le]
  · simp [h12, ge_iff_le]

/-- Low 12 bits of a word as arithmetic. -/
theorem and_mask_low (x : Nat) : x &&& 4095 = x % 4096 := by
  have := Nat.and_pow_two_sub_one_eq_mod x 12
  norm_num at this
  exact this

/-- `MantraEncoder` cipher round trip (`decrypt = encrypt`, an XOR stream
keyed by bytes 2-3, which the transform leaves in place). -/
theorem mantra_crypt_crypt (a b c d f : Nat) (rest : List Nat) :
    mantraCrypt (mantraCrypt (a :: b :: c :: d :: f :: rest)) =
      a :: b :: c :: d :: f :: rest := by
  have hstep : ∀ rest' : List Nat, mantraCrypt (a :: b :: c :: d :: f :: rest') =
      a :: b :: c :: d :: f :: whiten16 rest' (fromBytesBE [c, d]) := fun _ => rfl
  rw [hstep, hstep, whiten16_whiten16]

/-- `MantraEncoder` conversion round trip. -/
theorem mantra_convert_roundtrip (e : BleAdvEncCmd) (conf : BleAdvConfig)
    (hcm0 : 0 ≤ e.cmd) (hp0 : 0 ≤ e.param)
    (h00 : 0 ≤ e.arg0) (h10 : 0 ≤ e.arg1) (h20 : 0 ≤ e.arg2) (h30 : 0 ≤ e.arg3)
    (h40 : 0 ≤ e.arg4)
    (hid : conf.id < 65536) (hix : conf.index < 16) (htx : conf.tx_count < 4096) :
    mantraConvertToEnc (mantraConvertFromEnc e conf) =
      (some e, some { id := conf.id, index := conf.index, tx_count := conf.tx_count }) := by
  obtain ⟨cm, pa, a0, a1, a2, a3, a4⟩ := e
  obtain ⟨idv, ixv, txv, arcv, sdv⟩ := conf
  simp only at hcm0 hp0 h00 h10 h20 h30 h40 hid hix htx
  have e1 : ((cm.toNat : ℤ)) = cm := Int.toNat_of_nonneg hcm0
  have e2 : ((pa.toNat : ℤ)) = pa := Int.toNat_of_nonneg hp0
  have e3 : ((a0.toNat : ℤ)) = a0 := Int.toNat_of_nonneg h00
  have e4 : ((a1.toNat : ℤ)) = a1 := Int.toNat_of_nonneg h10
  have e5 : ((a2.toNat : ℤ)) = a2 := Int.toNat_of_nonneg h20
  have e6 : ((a3.toNat : ℤ)) = a3 := Int.toNat_of_nonneg h30
  have e7 : ((a4.toNat : ℤ)) = a4 := Int.toNat_of_nonneg h40
  have hlt : txv + (ixv <<< 12) < 65536 := by
    rw [Nat.shiftLeft_eq]
    omega
  have hct : 256 * ((txv + ixv <<< 12) / 256 % 256) + ((txv + ixv <<< 12) % 256 + 0) =
      txv + ixv <<< 12 := by
    omega
  simp only [mantraConvertFromEnc, mantraConvertToEnc, toBytesBE, toBytesLE, List.reverse_cons,
    List.reverse_nil, List.cons_append, List.nil_append, List.getD_cons_zero,
    List.getD_cons_succ, isEqBuf, List.take_cons, List.take_zero, beq_self_eq_true, if_true,
    fromBytesBE, List.foldl_cons, List.foldl_nil, Nat.mul_zero, Nat.add_zero, Nat.zero_add,
    e1, e2, e3, e4, e5, e6, e7]
  rw [if_pos (by constructor <;> trivial)]
  simp only [List.drop_succ_cons, List.drop_zero, List.take_succ_cons, List.take_zero,
    List.foldl_cons, List.foldl_nil, Nat.mul_zero, Nat.zero_add]
  rw [show 256 * ((txv + ixv <<< 12) / 256 % 256) + (txv + ixv <<< 12) % 256 =
    txv + ixv <<< 12 from by omega]
  rw [and_mask_low, and_mask_high]
  rw [show (txv + ixv <<< 12) % 4096 = txv from by rw [Nat.shiftLeft_eq] at *; omega]
  rw [show ((txv + ixv <<< 12) / 4096 % 16 * 4096) >>> 12 = ixv from by
    rw [Nat.shiftLeft_eq] at *
    rw [Nat.shiftRight_eq_div_pow]
    norm_num
    omega]
  rw [show 256 * (idv / 256 % 256) + idv % 256 = idv from by omega]

/-- C1 class lemma for the `MantraEncoder` codecs. -/
theorem mantra_class_roundtrip (cid : String) (pfx footer : List Nat) (bt : Nat) (rand : Nat)
    (e : BleAdvEncCmd) (conf : BleAdvConfig)
    (hcm0 : 0 ≤ e.cmd) (hp0 : 0 ≤ e.param)
    (h00 : 0 ≤ e.arg0) (h10 : 0 ≤ e.arg1) (h20 : 0 ≤ e.arg2) (h30 : 0 ≤ e.arg3)
    (h40 : 0 ≤ e.arg4)
    (hid : conf.id < 65536) (hix : conf.index < 16)
    (hpfx2 : pfx.length = 2) :
    decodeAdv (mantraCodec cid pfx footer bt)
      ((encodeAdvs (mantraCodec cid pfx footer bt) rand e conf).2.headD
        { ble_type := 0, raw := [] })
      = (some e,
         some { id := conf.id, index := conf.index,
                tx_count := (encodeAdvs (mantraCodec cid pfx footer bt) rand e conf).1.tx_count })
    := by
  set nc := (encodeAdvs (mantraCodec cid pfx footer bt) rand e conf).1 with hnc
  have htx : nc.tx_count < 4096 := by
    show (conf.tx_count + 1) % 4095 < 4096
    omega
  obtain ⟨p0, p1, hpn⟩ : ∃ p0 p1, pfx = [p0, p1] := by
    match pfx, hpfx2 with
    | [p0, p1], _ => exact ⟨p0, p1, rfl⟩
  have hdecE : (mantraCodec cid pfx footer bt).decrypt ((mantraCodec cid pfx footer bt).encrypt
      ((mantraCodec cid pfx footer bt).pfx ++ (mantraCodec cid pfx footer bt).convert_from_enc
        e nc)) =
      some ((mantraCodec cid pfx footer bt).pfx ++
        (mantraCodec cid pfx footer bt).convert_from_enc e nc) := by
    rw [hpn]
    show some (mantraCrypt (mantraCrypt (p0 :: p1 :: mantraConvertFromEnc e nc))) =
      some (p0 :: p1 :: mantraConvertFromEnc e nc)
    simp only [mantraConvertFromEnc, toBytesBE, toBytesLE, List.reverse_cons, List.reverse_nil,
      List.cons_append, List.nil_append]
    rw [mantra_crypt_crypt]
  have hlen : ((mantraCodec cid pfx footer bt).encrypt ((mantraCodec cid pfx footer bt).pfx ++
      (mantraCodec cid pfx footer bt).convert_from_enc e nc)).length =
      (mantraCodec cid pfx footer bt).header_start_pos + (mantraCodec cid pfx footer bt).len
    := by
    show (mantraCrypt (pfx ++ mantraConvertFromEnc e nc)).length = 0 + 18
    have hl : (pfx ++ mantraConvertFromEnc e nc).length = 18 := by
      simp [hpn, mantraConvertFromEnc, toBytesBE_length]
    simp only [mantraCrypt, List.length_append, whiten16_length, List.length_take,
      List.length_drop, hl]
    omega
  rw [decode_encode_reduces (mantraCodec cid pfx footer bt) rand e conf rfl hlen hdecE]
  exact mantra_convert_roundtrip e nc hcm0 hp0 h00 h10 h20 h30 h40 hid hix htx

/-- Single-byte roll/unroll cancellation used by the RuiXin cipher. -/
theorem roll_unroll (x a i : Nat) (hx : x < 256) :
    ((((((x + a + i + 256) % 256 : Nat) : ℤ)) - (a : ℤ) - (i : ℤ) + 256) % 256).toNat = x := by
  omega

/-- `RuiXinEncoder` cipher round trip: the rolled frame decrypts back to the
10-byte readable buffer, for any padding with at least 6 bytes. -/
theorem rx_decrypt_encrypt (s t u0 u1 u2 u3 cv a0 a1 a2 q0 q1 q2 q3 q4 q5 : Nat)
    (rest : List Nat)
    (h2 : u0 < 256) (h3 : u1 < 256) (h4 : u2 < 256) (h5 : u3 < 256) (h6 : cv < 256)
    (h7 : a0 < 256) (h8 : a1 < 256) (h9 : a2 < 256)
    (hq0 : q0 < 256) (hq1 : q1 < 256) (hq2 : q2 < 256) (hq3 : q3 < 256) (hq4 : q4 < 256) :
    rxDecrypt (rxEncrypt (q0 :: q1 :: q2 :: q3 :: q4 :: q5 :: rest)
        [s, t, u0, u1, u2, u3, cv, a0, a1, a2]) =
      some [s, t, u0, u1, u2, u3, cv, a0, a1, a2] := by
  have hck : sumChecksum [u0, u1, u2, u3, cv, a0, a1, a2, q0, q1, q2, q3, q4] < 256 :=
    Nat.mod_lt _ (by decide)
  have henc : rxEncrypt (q0 :: q1 :: q2 :: q3 :: q4 :: q5 :: rest)
      [s, t, u0, u1, u2, u3, cv, a0, a1, a2] =
      s :: t :: ((u0 + s + 0 + 256) % 256) :: ((u1 + s + 1 + 256) % 256) ::
        ((u2 + s + 2 + 256) % 256) :: ((u3 + s + 3 + 256) % 256) ::
        ((cv + s + 4 + 256) % 256) :: ((a0 + s + 5 + 256) % 256) ::
        ((a1 + s + 6 + 256) % 256) :: ((a2 + s + 7 + 256) % 256) ::
        ((q0 + s + 8 + 256) % 256) :: ((q1 + s + 9 + 256) % 256) ::
        ((q2 + s + 10 + 256) % 256) :: ((q3 + s + 11 + 256) % 256) ::
        ((q4 + s + 12 + 256) % 256) ::
        ((sumChecksum [u0, u1, u2, u3, cv, a0, a1, a2, q0, q1, q2, q3, q4] + s + 13 + 256) % 256)
        :: rest := rfl
  rw [henc]
  simp only [rxDecrypt, List.take_succ_cons, List.take_zero, List.drop_succ_cons,
    List.drop_zero, List.enum, List.enumFrom, List.map_cons, List.map_nil,
    List.getD_cons_zero, List.getD_cons_succ, List.cons_append, List.nil_append]
  rw [roll_unroll u0 s 0 h2, roll_unroll u1 s 1 h3, roll_unroll u2 s 2 h4,
    roll_unroll u3 s 3 h5, roll_unroll cv s 4 h6, roll_unroll a0 s 5 h7,
    roll_unroll a1 s 6 h8, roll_unroll a2 s 7 h9, roll_unroll q0 s 8 hq0,
    roll_unroll q1 s 9 hq1, roll_unroll q2 s 10 hq2, roll_unroll q3 s 11 hq3,
    roll_unroll q4 s 12 hq4, roll_unroll _ s 13 hck]
  rw [if_pos rfl]

/-- `RuiXinEncoder` conversion round trip. -/
theorem rx_convert_roundtrip (e : BleAdvEncCmd) (conf : BleAdvConfig)
    (hcm0 : 0 ≤ e.cmd) (hp : e.param = 0)
    (h00 : 0 ≤ e.arg0) (h10 : 0 ≤ e.arg1) (h20 : 0 ≤ e.arg2) (h3 : e.arg3 = 0) (h4 : e.arg4 = 0)
    (hid : conf.id < 4294967296) :
    rxConvertToEnc (rxConvertFromEnc e conf) =
      (some e, some { id := conf.id, tx_count := conf.tx_count, seed := conf.seed }) := by
  obtain ⟨cm, pa, a0, a1, a2, a3, a4⟩ := e
  obtain ⟨idv, ixv, txv, arcv, sdv⟩ := conf
  simp only at hcm0 hp h00 h10 h20 h3 h4 hid
  subst hp h3 h4
  have e1 : ((cm.toNat : ℤ)) = cm := Int.toNat_of_nonneg hcm0
  have e2 : ((a0.toNat : ℤ)) = a0 := Int.toNat_of_nonneg h00
  have e3 : ((a1.toNat : ℤ)) = a1 := Int.toNat_of_nonneg h10
  have e4 : ((a2.toNat : ℤ)) = a2 := Int.toNat_of_nonneg h20
  simp only [rxConvertFromEnc, rxConvertToEnc, toBytesLE, List.cons_append, List.nil_append,
    List.getD_cons_zero, List.getD_cons_succ, List.drop_succ_cons, List.drop_zero,
    List.take_succ_cons, List.take_zero, fromBytesLE, Nat.mul_zero, Nat.add_zero,
    e1, e2, e3, e4]
  rw [show idv % 256 + 256 * (idv / 256 % 256 + 256 * (idv / 256 / 256 % 256 +
    256 * (idv / 256 / 256 / 256 % 256))) = idv by omega]

set_option maxHeartbeats 1000000 in
/-- C1 class lemma for the `RuiXinEncoder` codecs (parameterised by the length,
padding and header of the two registry entries). -/
theorem ruixin_class_roundtrip (cid : String) (l q0 q1 q2 q3 q4 q5 : Nat)
    (qrest hdr : List Nat) (rand : Nat) (e : BleAdvEncCmd) (conf : BleAdvConfig)
    (hl : l = 16 + qrest.length)
    (hq0 : q0 < 256) (hq1 : q1 < 256) (hq2 : q2 < 256) (hq3 : q3 < 256) (hq4 : q4 < 256)
    (hcm0 : 0 ≤ e.cmd) (hcm1 : e.cmd < 256) (hp : e.param = 0)
    (h00 : 0 ≤ e.arg0) (h01 : e.arg0 < 256) (h10 : 0 ≤ e.arg1) (h11 : e.arg1 < 256)
    (h20 : 0 ≤ e.arg2) (h21 : e.arg2 < 256) (h3 : e.arg3 = 0) (h4 : e.arg4 = 0)
    (hid : conf.id < 4294967296) :
    decodeAdv (ruixinCodec cid l (q0 :: q1 :: q2 :: q3 :: q4 :: q5 :: qrest) hdr)
      ((encodeAdvs (ruixinCodec cid l (q0 :: q1 :: q2 :: q3 :: q4 :: q5 :: qrest) hdr)
        rand e conf).2.headD { ble_type := 0, raw := [] })
      = (some e,
         some { id := conf.id,
                tx_count := (encodeAdvs (ruixinCodec cid l (q0 :: q1 :: q2 :: q3 :: q4 :: q5 ::
                  qrest) hdr) rand e conf).1.tx_count,
                seed := (encodeAdvs (ruixinCodec cid l (q0 :: q1 :: q2 :: q3 :: q4 :: q5 ::
                  qrest) hdr) rand e conf).1.seed }) := by
  set cdc := ruixinCodec cid l (q0 :: q1 :: q2 :: q3 :: q4 :: q5 :: qrest) hdr with hcdc
  set nc := (encodeAdvs cdc rand e conf).1 with hnc
  have hD : cdc.decrypt = rxDecrypt := rfl
  have hE : cdc.encrypt = rxEncrypt (q0 :: q1 :: q2 :: q3 :: q4 :: q5 :: qrest) := rfl
  have hP : cdc.pfx ++ cdc.convert_from_enc e nc = rxConvertFromEnc e nc := rfl
  have hfe : rxConvertFromEnc e nc = [nc.seed, nc.tx_count, nc.id % 256, nc.id / 256 % 256,
      nc.id / 256 / 256 % 256, nc.id / 256 / 256 / 256 % 256,
      e.cmd.toNat, e.arg0.toNat, e.arg1.toNat, e.arg2.toNat] := rfl
  have hcmb : e.cmd.toNat < 256 := by omega
  have h0b : e.arg0.toNat < 256 := by omega
  have h1b : e.arg1.toNat < 256 := by omega
  have h2b : e.arg2.toNat < 256 := by omega
  have hdecE : cdc.decrypt (cdc.encrypt (cdc.pfx ++ cdc.convert_from_enc e nc)) =
      some (cdc.pfx ++ cdc.convert_from_enc e nc) := by
    rw [hD, hE, hP, hfe]
    have hu0 : nc.id % 256 < 256 := Nat.mod_lt _ (by decide)
    have hu1 : nc.id / 256 % 256 < 256 := Nat.mod_lt _ (by decide)
    have hu2 : nc.id / 256 / 256 % 256 < 256 := Nat.mod_lt _ (by decide)
    have hu3 : nc.id / 256 / 256 / 256 % 256 < 256 := Nat.mod_lt _ (by decide)
    exact rx_decrypt_encrypt nc.seed nc.tx_count (nc.id % 256) (nc.id / 256 % 256)
      (nc.id / 256 / 256 % 256) (nc.id / 256 / 256 / 256 % 256) e.cmd.toNat e.arg0.toNat
      e.arg1.toNat e.arg2.toNat q0 q1 q2 q3 q4 q5 qrest
      hu0 hu1 hu2 hu3 hcmb h0b h1b h2b hq0 hq1 hq2 hq3 hq4
  have hlen : (cdc.encrypt (cdc.pfx ++ cdc.convert_from_enc e nc)).length =
      cdc.header_start_pos + cdc.len := by
    rw [hE, hP, hfe]
    rw [show cdc.header_start_pos = 0 from rfl, show cdc.len = l from rfl]
    simp only [rxEncrypt, List.cons_append, List.nil_append, List.length_append,
      List.length_map, List.enum_length, List.length_take, List.length_drop, List.length_set,
      List.length_cons]
    omega
  rw [decode_encode_reduces cdc rand e conf rfl hlen hdecE]
  exact rx_convert_roundtrip e nc hcm0 hp h00 h10 h20 h3 h4 hid

/-- `LeEncoder` cipher round trip with 0 argument bytes. -/
theorem le_decrypt_encrypt_0 (u0 u1 u2 u3 ix tx cm pm : Nat) :
    leDecrypt (leEncrypt [u0, u1, u2, u3, 0xFE, ix, tx, cm, pm]) =
      some [u0, u1, u2, u3, 0xFE, ix, tx, cm, pm] := by
  simp only [leEncrypt, leDecrypt, leEncode, leChecksum, isEqBuf, List.length_cons,
    List.length_nil, List.cons_append, List.nil_append, List.map_cons, List.map_nil,
    List.take_succ_cons, List.take_zero, List.drop_succ_cons, List.drop_zero,
    List.getD_cons_zero, List.getD_cons_succ]
  norm_num [Nat.xor_assoc]

/-- `LeEncoder` cipher round trip with 1 argument byte. -/
theorem le_decrypt_encrypt_1 (u0 u1 u2 u3 ix tx cm pm r0 : Nat) :
    leDecrypt (leEncrypt [u0, u1, u2, u3, 0xFE, ix, tx, cm, pm, r0]) =
      some [u0, u1, u2, u3, 0xFE, ix, tx, cm, pm, r0] := by
  simp only [leEncrypt, leDecrypt, leEncode, leChecksum, isEqBuf, List.length_cons,
    List.length_nil, List.cons_append, List.nil_append, List.map_cons, List.map_nil,
    List.take_succ_cons, List.take_zero, List.drop_succ_cons, List.drop_zero,
    List.getD_cons_zero, List.getD_cons_succ]
  norm_num [Nat.xor_assoc]

/-- `LeEncoder` cipher round trip with 2 argument bytes. -/
theorem le_decrypt_encrypt_2 (u0 u1 u2 u3 ix tx cm pm r0 r1 : Nat) :
    leDecrypt (leEncrypt [u0, u1, u2, u3, 0xFE, ix, tx, cm, pm, r0, r1]) =
      some [u0, u1, u2, u3, 0xFE, ix, tx, cm, pm, r0, r1] := by
  simp only [leEncrypt, leDecrypt, leEncode, leChecksum, isEqBuf, List.length_cons,
    List.length_nil, List.cons_append, List.nil_append, List.map_cons, List.map_nil,
    List.take_succ_cons, List.take_zero, List.drop_succ_cons, List.drop_zero,
    List.getD_cons_zero, List.getD_cons_succ]
  norm_num [Nat.xor_assoc]

/-- `LeEncoder` cipher round trip with 3 argument bytes. -/
theorem le_decrypt_encrypt_3 (u0 u1 u2 u3 ix tx cm pm r0 r1 r2 : Nat) :
    leDecrypt (leEncrypt [u0, u1, u2, u3, 0xFE, ix, tx, cm, pm, r0, r1, r2]) =
      some [u0, u1, u2, u3, 0xFE, ix, tx, cm, pm, r0, r1, r2] := by
  simp only [leEncrypt, leDecrypt, leEncode, leChecksum, isEqBuf, List.length_cons,
    List.length_nil, List.cons_append, List.nil_append, List.map_cons, List.map_nil,
    List.take_succ_cons, List.take_zero, List.drop_succ_cons, List.drop_zero,
    List.getD_cons_zero, List.getD_cons_succ]
  norm_num [Nat.xor_assoc]

/-- `LeEncoder` conversion round trip: only the first `param` args are carried,
so the args beyond `param` must be zero for the command to survive. -/
theorem le_convert_roundtrip (e : BleAdvEncCmd) (conf : BleAdvConfig)
    (hcm0 : 0 ≤ e.cmd) (hpm0 : 0 ≤ e.param) (hplt : e.param ≤ 3)
    (h00 : 0 ≤ e.arg0) (h10 : 0 ≤ e.arg1) (h20 : 0 ≤ e.arg2)
    (hp0 : e.param < 1 → e.arg0 = 0) (hp1 : e.param < 2 → e.arg1 = 0)
    (hp2 : e.param < 3 → e.arg2 = 0)
    (h3 : e.arg3 = 0) (h4 : e.arg4 = 0)
    (hid : conf.id < 4294967296) :
    leConvertToEnc (leConvertFromEnc e conf) =
      (some e, some { id := conf.id, index := conf.index, tx_count := conf.tx_count }) := by
  obtain ⟨cm, pa, a0, a1, a2, a3, a4⟩ := e
  obtain ⟨idv, ixv, txv, arcv, sdv⟩ := conf
  simp only at hcm0 hpm0 hplt h00 h10 h20 hp0 hp1 hp2 h3 h4 hid
  subst h3 h4
  have e1 : ((cm.toNat : ℤ)) = cm := Int.toNat_of_nonneg hcm0
  have e2 : ((a0.toNat : ℤ)) = a0 := Int.toNat_of_nonneg h00
  have e3 : ((a1.toNat : ℤ)) = a1 := Int.toNat_of_nonneg h10
  have e4 : ((a2.toNat : ℤ)) = a2 := Int.toNat_of_nonneg h20
  have hidr : idv % 256 + 256 * (idv / 256 % 256 + 256 * (idv / 256 / 256 % 256 +
      256 * (idv / 256 / 256 / 256 % 256))) = idv := by omega
  interval_cases pa
  · obtain rfl := hp0 (by norm_num)
    obtain rfl := hp1 (by norm_num)
    obtain rfl := hp2 (by norm_num)
    simp only [leConvertFromEnc, leConvertToEnc, toBytesLE, List.cons_append, List.nil_append,
      List.append_nil, List.take_succ_cons, List.take_zero, List.getD_cons_zero,
      List.getD_cons_succ, fromBytesLE, Nat.mul_zero, Nat.add_zero, Int.toNat_zero,
      e1, e2, e3, e4, hidr]
    norm_num
  · obtain rfl := hp1 (by norm_num)
    obtain rfl := hp2 (by norm_num)
    simp only [leConvertFromEnc, leConvertToEnc, toBytesLE, List.cons_append, List.nil_append,
      List.append_nil, List.take_succ_cons, List.take_zero, List.getD_cons_zero,
      List.getD_cons_succ, fromBytesLE, Nat.mul_zero, Nat.add_zero, Int.toNat_one,
      e1, e2, e3, e4, hidr]
    norm_num
  · obtain rfl := hp2 (by norm_num)
    simp only [leConvertFromEnc, leConvertToEnc, toBytesLE, List.cons_append, List.nil_append,
      List.append_nil, List.take_succ_cons, List.take_zero, List.getD_cons_zero,
      List.getD_cons_succ, fromBytesLE, Nat.mul_zero, Nat.add_zero, Int.toNat_ofNat,
      e1, e2, e3, e4, hidr]
    norm_num
    exact ⟨h00, h10⟩
  · simp only [leConvertFromEnc, leConvertToEnc, toBytesLE, List.cons_append, List.nil_append,
      List.append_nil, List.take_succ_cons, List.take_zero, List.getD_cons_zero,
      List.getD_cons_succ, fromBytesLE, Nat.mul_zero, Nat.add_zero, Int.toNat_ofNat,
      e1, e2, e3, e4, hidr]
    norm_num
    exact ⟨h00, h10, h20⟩

/-- C1 class lemma for `lelight` (`LeEncoder`). -/
theorem lelight_class_roundtrip (rand : Nat) (e : BleAdvEncCmd) (conf : BleAdvConfig)
    (hcm0 : 0 ≤ e.cmd) (hpm0 : 0 ≤ e.param) (hplt : e.param ≤ 3)
    (h00 : 0 ≤ e.arg0) (h10 : 0 ≤ e.arg1) (h20 : 0 ≤ e.arg2)
    (hp0 : e.param < 1 → e.arg0 = 0) (hp1 : e.param < 2 → e.arg1 = 0)
    (hp2 : e.param < 3 → e.arg2 = 0)
    (h3 : e.arg3 = 0) (h4 : e.arg4 = 0)
    (hid : conf.id < 4294967296) :
    decodeAdv lelight ((encodeAdvs lelight rand e conf).2.headD { ble_type := 0, raw := [] })
      = (some e,
         some { id := conf.id, index := conf.index,
                tx_count := (encodeAdvs lelight rand e conf).1.tx_count }) := by
  set nc := (encodeAdvs lelight rand e conf).1 with hnc
  have hD : lelight.decrypt = leDecrypt := rfl
  have hE : lelight.encrypt = leEncrypt := rfl
  have hP : lelight.pfx ++ lelight.convert_from_enc e nc = leConvertFromEnc e nc := rfl
  have hfe0 : leConvertFromEnc e nc = [nc.id % 256, nc.id / 256 % 256, nc.id / 256 / 256 % 256,
      nc.id / 256 / 256 / 256 % 256, 0xFE, nc.index, nc.tx_count, e.cmd.toNat, e.param.toNat] ++
      [e.arg0.toNat, e.arg1.toNat, e.arg2.toNat].take e.param.toNat := rfl
  have hconv := le_convert_roundtrip e nc hcm0 hpm0 hplt h00 h10 h20 hp0 hp1 hp2 h3 h4 hid
  have hcases : e.param = 0 ∨ e.param = 1 ∨ e.param = 2 ∨ e.param = 3 := by omega
  rcases hcases with hpa | hpa | hpa | hpa
  · have hfe : leConvertFromEnc e nc = [nc.id % 256, nc.id / 256 % 256,
        nc.id / 256 / 256 % 256, nc.id / 256 / 256 / 256 % 256, 0xFE, nc.index, nc.tx_count,
        e.cmd.toNat, e.param.toNat] := by
      rw [hfe0, hpa]
      norm_num
    have hdecE : lelight.decrypt (lelight.encrypt (lelight.pfx ++
        lelight.convert_from_enc e nc)) = some (lelight.pfx ++ lelight.convert_from_enc e nc)
        := by
      rw [hD, hE, hP, hfe]
      exact le_decrypt_encrypt_0 _ _ _ _ _ _ _ _
    have hlen : (lelight.encrypt (lelight.pfx ++ lelight.convert_from_enc e nc)).length =
        lelight.header_start_pos + lelight.len := by
      rw [hE, hP, hfe]
      rw [show lelight.header_start_pos = 0 from rfl, show lelight.len = 21 from rfl]
      simp [leEncrypt, leEncode]
    rw [decode_encode_reduces lelight rand e conf rfl hlen hdecE]
    exact hconv
  · have hfe : leConvertFromEnc e nc = [nc.id % 256, nc.id / 256 % 256,
        nc.id / 256 / 256 % 256, nc.id / 256 / 256 / 256 % 256, 0xFE, nc.index, nc.tx_count,
        e.cmd.toNat, e.param.toNat, e.arg0.toNat] := by
      rw [hfe0, hpa]
      norm_num
    have hdecE : lelight.decrypt (lelight.encrypt (lelight.pfx ++
        lelight.convert_from_enc e nc)) = some (lelight.pfx ++ lelight.convert_from_enc e nc)
        := by
      rw [hD, hE, hP, hfe]
      exact le_decrypt_encrypt_1 _ _ _ _ _ _ _ _ _
    have hlen : (lelight.encrypt (lelight.pfx ++ lelight.convert_from_enc e nc)).length =
        lelight.header_start_pos + lelight.len := by
      rw [hE, hP, hfe]
      rw [show lelight.header_start_pos = 0 from rfl, show lelight.len = 21 from rfl]
      simp [leEncrypt, leEncode]
    rw [decode_encode_reduces lelight rand e conf rfl hlen hdecE]
    exact hconv
  · have hfe : leConvertFromEnc e nc = [nc.id % 256, nc.id / 256 % 256,
        nc.id / 256 / 256 % 256, nc.id / 256 / 256 / 256 % 256, 0xFE, nc.index, nc.tx_count,
        e.cmd.toNat, e.param.toNat, e.arg0.toNat, e.arg1.toNat] := by
      rw [hfe0, hpa, show ((2 : ℤ).toNat) = 2 from rfl]
      norm_num [List.take_succ_cons, List.take_zero]
    have hdecE : lelight.decrypt (lelight.encrypt (lelight.pfx ++
        lelight.convert_from_enc e nc)) = some (lelight.pfx ++ lelight.convert_from_enc e nc)
        := by
      rw [hD, hE, hP, hfe]
      exact le_decrypt_encrypt_2 _ _ _ _ _ _ _ _ _ _
    have hlen : (lelight.encrypt (lelight.pfx ++ lelight.convert_from_enc e nc)).length =
        lelight.header_start_pos + lelight.len := by
      rw [hE, hP, hfe]
      rw [show lelight.header_start_pos = 0 from rfl, show lelight.len = 21 from rfl]
      simp [leEncrypt, leEncode]
    rw [decode_encode_reduces lelight rand e conf rfl hlen hdecE]
    exact hconv
  · have hfe : leConvertFromEnc e nc = [nc.id % 256, nc.id / 256 % 256,
        nc.id / 256 / 256 % 256, nc.id / 256 / 256 / 256 % 256, 0xFE, nc.index, nc.tx_count,
        e.cmd.toNat, e.param.toNat, e.arg0.toNat, e.arg1.toNat, e.arg2.toNat] := by
      rw [hfe0, hpa]
      norm_num
    have hdecE : lelight.decrypt (lelight.encrypt (lelight.pfx ++
        lelight.convert_from_enc e nc)) = some (lelight.pfx ++ lelight.convert_from_enc e nc)
        := by
      rw [hD, hE, hP, hfe]
      exact le_decrypt_encrypt_3 _ _ _ _ _ _ _ _ _ _ _
    have hlen : (lelight.encrypt (lelight.pfx ++ lelight.convert_from_enc e nc)).length =
        lelight.header_start_pos + lelight.len := by
      rw [hE, hP, hfe]
      rw [show lelight.header_start_pos = 0 from rfl, show lelight.len = 21 from rfl]
      simp [leEncrypt, leEncode]
    rw [decode_encode_reduces lelight rand e conf rfl hlen hdecE]
    exact hconv

/-- XOR left-commutativity on `Nat`, for AC normalisation. -/
theorem nat_xor_left_comm (a b c : Nat) : a ^^^ (b ^^^ c) = b ^^^ (a ^^^ c) := by
  rw [← Nat.xor_assoc, Nat.xor_comm a b, Nat.xor_assoc]

/-- The reflected-complement CRC of `ZhimeiEncoderV2` fits in 16 bits. -/
theorem zmV2Crc16_lt (buffer : List Nat) : zmV2Crc16 buffer < 65536 := by
  have h1 : ((reverse_byte (crcHqx (reverse_all buffer) 0xFFFF &&& 0xFF)) <<< 8) &&& 0xFF00
      < 65536 := Nat.lt_succ_of_le (le_trans Nat.and_le_right (by norm_num))
  have h2 : reverse_byte (crcHqx (reverse_all buffer) 0xFFFF >>> 8) &&& 0xFF < 65536 :=
    Nat.lt_succ_of_le (le_trans Nat.and_le_right (by norm_num))
  exact Nat.xor_lt_two_pow (n := 16) (by norm_num)
    (Nat.or_lt_two_pow (n := 16) h1 h2)

/-- `ZhimeiEncoderV2` cipher round trip: whiten is an involution and the CRC
always matches. -/
theorem zmV2_decrypt_encrypt (rb : List Nat) : zmV2Decrypt (zmV2Encrypt rb) = some rb := by
  simp only [zmV2Encrypt, zmV2Decrypt, whiten_whiten]
  have hl : (rb ++ toBytesLE (zmV2Crc16 rb) 2).length = rb.length + 2 := by
    simp [toBytesLE_length]
  rw [hl]
  have hn : rb.length + 2 - 2 = rb.length := by omega
  rw [hn, List.take_left, List.drop_left, fromBytesLE_toBytesLE_two _ (zmV2Crc16_lt rb),
    if_pos rfl]

/-- `ZhimeiEncoderV2` conversion round trip: the XOR pivot is self-recovering. -/
theorem zmV2_convert_roundtrip (e : BleAdvEncCmd) (conf : BleAdvConfig)
    (hcm0 : 0 ≤ e.cmd) (hp : e.param = 0)
    (h00 : 0 ≤ e.arg0) (h10 : 0 ≤ e.arg1) (h20 : 0 ≤ e.arg2) (h3 : e.arg3 = 0) (h4 : e.arg4 = 0)
    (hid : conf.id < 65536) :
    zmV2ConvertToEnc (zmV2ConvertFromEnc e conf) =
      (some e, some { id := conf.id, index := conf.index, tx_count := conf.tx_count }) := by
  obtain ⟨cm, pa, a0, a1, a2, a3, a4⟩ := e
  obtain ⟨idv, ixv, txv, arcv, sdv⟩ := conf
  simp only at hcm0 hp h00 h10 h20 h3 h4 hid
  subst hp h3 h4
  have e1 : ((cm.toNat : ℤ)) = cm := Int.toNat_of_nonneg hcm0
  have e2 : ((a0.toNat : ℤ)) = a0 := Int.toNat_of_nonneg h00
  have e3 : ((a1.toNat : ℤ)) = a1 := Int.toNat_of_nonneg h10
  have e4 : ((a2.toNat : ℤ)) = a2 := Int.toNat_of_nonneg h20
  have hmask : idv &&& 0xFFFF = idv := by
    rw [show (0xFFFF : ℕ) = 2 ^ 16 - 1 from rfl, Nat.and_pow_two_sub_one_eq_mod,
      Nat.mod_eq_of_lt hid]
  simp only [zmV2ConvertFromEnc, zmV2ConvertToEnc, hmask, toBytesLE, List.map_cons,
    List.map_nil, List.cons_append, List.nil_append, List.getD_cons_zero, List.getD_cons_succ,
    fromBytesLE, Nat.mul_zero, Nat.add_zero, e1, e2, e3, e4]
  simp only [Nat.xor_assoc, Nat.xor_comm, nat_xor_left_comm, nat_xor_cancel_left,
    Nat.xor_self, Nat.xor_zero, Nat.zero_xor]
  simp only [e1, e2, e3, e4]
  rw [show idv % 256 + 256 * (idv / 256 % 256) = idv from by omega]

/-- C1 class lemma for `zhimei_v2` (`ZhimeiEncoderV2`). -/
theorem zhimei_v2_class_roundtrip (rand : Nat) (e : BleAdvEncCmd) (conf : BleAdvConfig)
    (hcm0 : 0 ≤ e.cmd) (hp : e.param = 0)
    (h00 : 0 ≤ e.arg0) (h10 : 0 ≤ e.arg1) (h20 : 0 ≤ e.arg2) (h3 : e.arg3 = 0) (h4 : e.arg4 = 0)
    (hid : conf.id < 65536) :
    decodeAdv zhimei_v2 ((encodeAdvs zhimei_v2 rand e conf).2.headD { ble_type := 0, raw := [] })
      = (some e,
         some { id := conf.id, index := conf.index,
                tx_count := (encodeAdvs zhimei_v2 rand e conf).1.tx_count }) := by
  set nc := (encodeAdvs zhimei_v2 rand e conf).1 with hnc
  have hD : zhimei_v2.decrypt = zmV2Decrypt := rfl
  have hE : zhimei_v2.encrypt = zmV2Encrypt := rfl
  have hP : zhimei_v2.pfx ++ zhimei_v2.convert_from_enc e nc =
      [0x33, 0xAA, 0x55] ++ zmV2ConvertFromEnc e nc := rfl
  have hdecE : zhimei_v2.decrypt (zhimei_v2.encrypt (zhimei_v2.pfx ++
      zhimei_v2.convert_from_enc e nc)) =
      some (zhimei_v2.pfx ++ zhimei_v2.convert_from_enc e nc) := by
    rw [hD, hE]
    exact zmV2_decrypt_encrypt _
  have hlen : (zhimei_v2.encrypt (zhimei_v2.pfx ++ zhimei_v2.convert_from_enc e nc)).length =
      zhimei_v2.header_start_pos + zhimei_v2.len := by
    rw [hE, hP, show zhimei_v2.header_start_pos = 0 from rfl, show zhimei_v2.len = 13 from rfl]
    simp [zmV2Encrypt, whiten_length, toBytesLE_length, zmV2ConvertFromEnc]
  rw [decode_encode_reduces zhimei_v2 rand e conf rfl hlen hdecE]
  exact zmV2_convert_roundtrip e nc hcm0 hp h00 h10 h20 h3 h4 hid

set_option maxRecDepth 8000 in
/-- Prefix nibble split/recombine of the Agarce pair scramble. -/
theorem ag_pfx_recover : ∀ p < 256,
    (p &&& 15) ||| ((((p &&& 240) >>> 4) &&& 15) <<< 4) = p := by
  decide

set_option maxRecDepth 8000 in
/-- Index nibble recovery through the pair-branch `0xC0` tag. -/
theorem ag_ix_recover_pair : ∀ x < 256,
    (((((x >>> 4) &&& 15) + 192) &&& 15) <<< 4) + (x &&& 15) = x := by decide

set_option maxRecDepth 8000 in
/-- Index nibble recovery in the operational branch. -/
theorem ag_ix_recover_op : ∀ x < 256,
    ((((x >>> 4) &&& 15) &&& 15) <<< 4) + (x &&& 15) = x := by decide

set_option maxRecDepth 8000 in
/-- The command high nibble and the index low nibble split back out of the
packed byte. -/
theorem ag_or_mask : ∀ c < 16, ∀ x < 256,
    ((16 * c) ||| (x &&& 15)) &&& 240 = 16 * c ∧ ((16 * c) ||| (x &&& 15)) &&& 15 = x &&& 15 := by
  decide

/-- `AgarceEncoder` cipher round trip, operational branch (`cmd ≠ 0` with a
zero low nibble): everything returns except the command byte, which keeps the
index low nibble packed in (and `convert_to_enc` masks it back out). -/
theorem ag_decrypt_encrypt_op (p s0 s1 tx arc u0 u1 u2 u3 c a0 a1 a2 ix : Nat)
    (hp : p < 256) (hix : ix < 256) (hclt : c < 16) (hcm0 : 16 * c ≠ 0) :
    agDecrypt (agEncrypt
        [p, s0, s1, tx, arc, 0x00, 0x10, u0, u1, u2, u3, 16 * c, a0, a1, a2, ix]) =
      some [p, s0, s1, tx, arc, 0x00, 0x10, u0, u1, u2, u3, 16 * c ||| ix &&& 15,
        a0, a1, a2, ix] := by
  have hor := ag_or_mask c hclt ix hix
  have hixr := ag_ix_recover_op ix hix
  simp only [agEncrypt, agDecrypt, agCrypt, sumChecksum, List.enum, List.enumFrom,
    List.map_cons, List.map_nil, List.cons_append, List.nil_append,
    List.take_succ_cons, List.take_zero, List.drop_succ_cons, List.drop_zero,
    List.getD_cons_zero, List.getD_cons_succ, List.set_cons_succ, List.set_cons_zero,
    List.length_cons, List.length_nil, fromBytesLE, List.sum_cons, List.sum_nil,
    Nat.mul_zero, Nat.add_zero, Nat.zero_add, hcm0, if_false, if_true]
  norm_num [Nat.xor_assoc, nat_xor_left_comm, nat_xor_cancel_left, hor.1, hor.2, hixr, hcm0]

set_option maxHeartbeats 1600000 in
/-- `AgarceEncoder` cipher round trip, pair branch (`cmd = 0`): `arg1`/`arg2`
slots are sacrificed for the prefix and index nibbles, so they return as 0. -/
theorem ag_decrypt_encrypt_pair (p s0 s1 tx arc u0 u1 u2 u3 a0 ix : Nat)
    (hp : p < 256) (hix : ix < 256) :
    agDecrypt (agEncrypt
        [p, s0, s1, tx, arc, 0x00, 0x10, u0, u1, u2, u3, 0, a0, 0, 0, ix]) =
      some [p, s0, s1, tx, arc, 0x00, 0x10, u0, u1, u2, u3, 0, a0, 0, 0, ix] := by
  have hpr := ag_pfx_recover p hp
  have hixr := ag_ix_recover_pair ix hix
  have hne : (((ix >>> 4) &&& 15) + 192) ≠ 0 := by omega
  simp only [agEncrypt, agDecrypt, agCrypt, sumChecksum, List.enum, List.enumFrom,
    List.map_cons, List.map_nil, List.cons_append, List.nil_append,
    List.take_succ_cons, List.take_zero, List.drop_succ_cons, List.drop_zero,
    List.getD_cons_zero, List.getD_cons_succ, List.set_cons_succ, List.set_cons_zero,
    List.length_cons, List.length_nil, fromBytesLE, List.sum_cons, List.sum_nil,
    Nat.mul_zero, Nat.add_zero, Nat.zero_add, if_false, if_true]
  norm_num [Nat.xor_assoc, nat_xor_left_comm, nat_xor_cancel_left, hpr, hixr, hne]

/-- `AgarceEncoder.convert_to_enc` on the decrypted readable layout: the
command is the masked high nibble of byte 10. -/
theorem ag_convert_gen (s0 s1 tx arc u0 u1 u2 u3 cb a0v a1v a2v ix : Nat) :
    agConvertToEnc [s0, s1, tx, arc, 0x00, 0x10, u0, u1, u2, u3, cb, a0v, a1v, a2v, ix] =
      (some { cmd := ((cb &&& 240 : Nat) : ℤ), arg0 := ((a0v : Nat) : ℤ),
              arg1 := ((a1v : Nat) : ℤ), arg2 := ((a2v : Nat) : ℤ) },
       some { tx_count := tx, app_restart_count := arc,
              id := u0 + 256 * (u1 + 256 * (u2 + 256 * u3)), index := ix,
              seed := s0 + 256 * s1 }) := by
  simp only [agConvertToEnc, List.getD_cons_zero, List.getD_cons_succ, List.take_succ_cons,
    List.take_zero, List.drop_succ_cons, List.drop_zero, fromBytesLE, Nat.mul_zero,
    Nat.add_zero]

/-- C1 class lemma for the `AgarceEncoder` codecs (prefix byte `pb`). -/
theorem agarce_class_roundtrip (cid : String) (pb : Nat) (rand : Nat) (e : BleAdvEncCmd)
    (conf : BleAdvConfig)
    (hpb : pb < 256)
    (hcm0 : 0 ≤ e.cmd) (hcml : e.cmd < 256) (hcm16 : e.cmd % 16 = 0)
    (hpm : e.param = 0) (h00 : 0 ≤ e.arg0) (h10 : 0 ≤ e.arg1) (h20 : 0 ≤ e.arg2)
    (h3 : e.arg3 = 0) (h4 : e.arg4 = 0)
    (hpair : e.cmd = 0 → e.arg1 = 0 ∧ e.arg2 = 0)
    (hid : conf.id < 4294967296) (hix : conf.index < 256)
    (hsd : conf.seed = 0) (hrand : rand < 65536) :
    decodeAdv (agarceCodec cid [pb])
      ((encodeAdvs (agarceCodec cid [pb]) rand e conf).2.headD { ble_type := 0, raw := [] })
      = (some e,
         some { id := conf.id, index := conf.index,
                tx_count := (encodeAdvs (agarceCodec cid [pb]) rand e conf).1.tx_count,
                app_restart_count :=
                  (encodeAdvs (agarceCodec cid [pb]) rand e conf).1.app_restart_count,
                seed := (encodeAdvs (agarceCodec cid [pb]) rand e conf).1.seed }) := by
  set nc := (encodeAdvs (agarceCodec cid [pb]) rand e conf).1 with hnc
  have hns : nc.seed < 65536 := by
    show (if conf.seed = 0 ∧ 0 < (0xFFF5 : ℕ) then rand else conf.seed) < 65536
    rw [if_pos ⟨hsd, by norm_num⟩]
    exact hrand
  have hixn : nc.index < 256 := hix
  have hD : (agarceCodec cid [pb]).decrypt = agDecrypt := rfl
  have hE : (agarceCodec cid [pb]).encrypt = agEncrypt := rfl
  have hC : (agarceCodec cid [pb]).convert_to_enc = agConvertToEnc := rfl
  have hP : (agarceCodec cid [pb]).pfx ++ (agarceCodec cid [pb]).convert_from_enc e nc =
      pb :: agConvertFromEnc e nc := rfl
  have hidrec : nc.id % 256 + 256 * (nc.id / 256 % 256 + 256 * (nc.id / 256 / 256 % 256 +
      256 * (nc.id / 256 / 256 / 256 % 256))) = conf.id := by
    rw [show nc.id = conf.id from rfl]
    omega
  have hsdrec : nc.seed % 256 + 256 * (nc.seed / 256 % 256) = nc.seed := by omega
  obtain ⟨cm, pa, a0, a1, a2, a3, a4⟩ := e
  simp only at hcm0 hcml hcm16 hpm h00 h10 h20 h3 h4 hpair
  subst hpm h3 h4
  have e1 : ((cm.toNat : ℤ)) = cm := Int.toNat_of_nonneg hcm0
  have e2 : ((a0.toNat : ℤ)) = a0 := Int.toNat_of_nonneg h00
  have e3 : ((a1.toNat : ℤ)) = a1 := Int.toNat_of_nonneg h10
  have e4 : ((a2.toNat : ℤ)) = a2 := Int.toNat_of_nonneg h20
  have hfe : agConvertFromEnc { cmd := cm, arg0 := a0, arg1 := a1, arg2 := a2 } nc =
      [nc.seed % 256, nc.seed / 256 % 256, nc.tx_count, nc.app_restart_count, 0x00, 0x10,
       nc.id % 256, nc.id / 256 % 256, nc.id / 256 / 256 % 256, nc.id / 256 / 256 / 256 % 256,
       cm.toNat, a0.toNat, a1.toNat, a2.toNat, nc.index] := rfl
  by_cases hcm : cm = 0
  · obtain ⟨ha1, ha2⟩ := hpair hcm
    subst hcm ha1 ha2
    simp only [Int.toNat_zero] at hfe
    have hdecE : (agarceCodec cid [pb]).decrypt ((agarceCodec cid [pb]).encrypt
        ((agarceCodec cid [pb]).pfx ++ (agarceCodec cid [pb]).convert_from_enc
          { cmd := 0, arg0 := a0, arg1 := 0, arg2 := 0 } nc)) =
        some (pb :: [nc.seed % 256, nc.seed / 256 % 256, nc.tx_count, nc.app_restart_count,
          0x00, 0x10, nc.id % 256, nc.id / 256 % 256, nc.id / 256 / 256 % 256,
          nc.id / 256 / 256 / 256 % 256, 0, a0.toNat, 0, 0, nc.index]) := by
      rw [hD, hE, hP, hfe]
      exact ag_decrypt_encrypt_pair pb _ _ _ _ _ _ _ _ _ _ hpb hixn
    have hlen : ((agarceCodec cid [pb]).encrypt ((agarceCodec cid [pb]).pfx ++
        (agarceCodec cid [pb]).convert_from_enc
          { cmd := 0, arg0 := a0, arg1 := 0, arg2 := 0 } nc)).length =
        (agarceCodec cid [pb]).header_start_pos + (agarceCodec cid [pb]).len := by
      rw [hE, hP, hfe, show (agarceCodec cid [pb]).header_start_pos = 0 from rfl,
        show (agarceCodec cid [pb]).len = 18 from rfl]
      simp [agEncrypt, agCrypt, sumChecksum]
    rw [decode_encode_reduces (agarceCodec cid [pb]) rand
      { cmd := 0, arg0 := a0, arg1 := 0, arg2 := 0 } conf rfl hlen hdecE, hC, ag_convert_gen]
    simp only [show ((0 : ℕ) &&& 240) = 0 from rfl, e2, hidrec, hsdrec, Nat.cast_zero]
    rfl
  · have hct : cm.toNat % 16 = 0 := by omega
    obtain ⟨c, hclt, he⟩ : ∃ c, c < 16 ∧ cm.toNat = 16 * c :=
      ⟨cm.toNat / 16, by omega, by omega⟩
    have hc0 : 16 * c ≠ 0 := by omega
    have hor := ag_or_mask c hclt nc.index hixn
    rw [he] at hfe
    have hdecE : (agarceCodec cid [pb]).decrypt ((agarceCodec cid [pb]).encrypt
        ((agarceCodec cid [pb]).pfx ++ (agarceCodec cid [pb]).convert_from_enc
          { cmd := cm, arg0 := a0, arg1 := a1, arg2 := a2 } nc)) =
        some (pb :: [nc.seed % 256, nc.seed / 256 % 256, nc.tx_count, nc.app_restart_count,
          0x00, 0x10, nc.id % 256, nc.id / 256 % 256, nc.id / 256 / 256 % 256,
          nc.id / 256 / 256 / 256 % 256, 16 * c ||| nc.index &&& 15, a0.toNat, a1.toNat,
          a2.toNat, nc.index]) := by
      rw [hD, hE, hP, hfe]
      exact ag_decrypt_encrypt_op pb _ _ _ _ _ _ _ _ _ _ _ _ _ hpb hixn hclt hc0
    have hlen : ((agarceCodec cid [pb]).encrypt ((agarceCodec cid [pb]).pfx ++
        (agarceCodec cid [pb]).convert_from_enc
          { cmd := cm, arg0 := a0, arg1 := a1, arg2 := a2 } nc)).length =
        (agarceCodec cid [pb]).header_start_pos + (agarceCodec cid [pb]).len := by
      rw [hE, hP, hfe, show (agarceCodec cid [pb]).header_start_pos = 0 from rfl,
        show (agarceCodec cid [pb]).len = 18 from rfl]
      simp [agEncrypt, agCrypt, sumChecksum, hc0]
    rw [decode_encode_reduces (agarceCodec cid [pb]) rand
      { cmd := cm, arg0 := a0, arg1 := a1, arg2 := a2 } conf rfl hlen hdecE, hC, ag_convert_gen]
    simp only [hor.1]
    simp only [← he, e1, e2, e3, e4, hidrec, hsdrec]
    rfl

end BleAdv
